import Mathlib

/-!
# Request admission and abuse mitigation of `the-market`

A shallow embedding of the server's admission code:

* `src/server/middleware/rateLimiter.js` : the sliding-window counter `RateLimiter`
  and the `createRateLimit` / `createSlowDown` middleware factories;
* `src/server/middleware/security.js` : the API-key, origin, payload and size checks and
  the key-exempt rate limiters;
* `src/server/utils/securityLogger.js` : the event recorder;
* `src/server/models/SecurityLog.js` : the schema of the stored events;
* `src/server/routes/security.js` : the administrator's block and unblock action and the
  query on an address;
* `src/server/index.js` : the order in which the middleware is mounted.

Instants (`Date.now()`) and durations are integers of milliseconds.  A JavaScript `Map` is
a list of key/value pairs in insertion order with first-match lookup.
-/

namespace Market

/-! ## JavaScript `Map` from string keys -/

/-- A JavaScript `Map` with string keys: its entries in insertion order. -/
abbrev JsMap (β : Type) := List (String × β)

namespace JsMap

variable {β : Type}

/-- `Map.prototype.get`: the value of the first entry with this key. -/
def get : JsMap β → String → Option β
  | [], _ => none
  | (k', v) :: rest, k => if k' = k then some v else get rest k

/-- `Map.prototype.has`. -/
def has (m : JsMap β) (k : String) : Bool := (get m k).isSome

/-- `Map.prototype.set`: overwrite the entry in place, or append a new one. -/
def set : JsMap β → String → β → JsMap β
  | [], k, v => [(k, v)]
  | (k', v') :: rest, k, v => if k' = k then (k', v) :: rest else (k', v') :: set rest k v

/-- `Map.prototype.delete`. -/
def delete : JsMap β → String → JsMap β
  | [], _ => []
  | (k', v') :: rest, k => if k' = k then rest else (k', v') :: delete rest k

end JsMap

/-! ## `class RateLimiter` (rateLimiter.js) -/

/-- The field `this.requests` of `RateLimiter`: key ↦ array of timestamps. -/
structure RateLimiter where
  requests : JsMap (List Int)
deriving DecidableEq, Repr

namespace RateLimiter

/-- The limiter right after `new RateLimiter()`. -/
def empty : RateLimiter := ⟨[]⟩

/-- The timestamps recorded for a key, an absent key counting as an empty list. -/
def recorded (rl : RateLimiter) (key : String) : List Int :=
  (JsMap.get rl.requests key).getD []

/-- The timestamps of a key that `isAllowed` keeps at `now`: those inside the window. -/
def validRequests (rl : RateLimiter) (key : String) (windowMs now : Int) : List Int :=
  (recorded rl key).filter (fun timestamp => decide (timestamp > now - windowMs))

/-- `isAllowed(key, windowMs, maxRequests)` at `Date.now() = now`: the verdict and the
limiter afterwards. -/
def isAllowed (rl : RateLimiter) (key : String) (windowMs maxRequests now : Int) :
    Bool × RateLimiter :=
  let windowStart := now - windowMs
  let requests₁ :=
    if !JsMap.has rl.requests key then JsMap.set rl.requests key [] else rl.requests
  let userRequests := (JsMap.get requests₁ key).getD []
  let validRequests := userRequests.filter (fun timestamp => decide (timestamp > windowStart))
  if (validRequests.length : Int) ≥ maxRequests then
    (false, ⟨requests₁⟩)
  else
    (true, ⟨JsMap.set requests₁ key (validRequests ++ [now])⟩)

/-- `cleanup()` at `Date.now() = now`: the loop over `this.requests.entries()`. -/
def cleanup (rl : RateLimiter) (now : Int) : RateLimiter :=
  let maxAge : Int := 24 * 60 * 60 * 1000
  ⟨rl.requests.foldl
    (fun acc entry =>
      let validRequests := entry.2.filter (fun timestamp => decide (now - timestamp < maxAge))
      if validRequests.length = 0 then JsMap.delete acc entry.1
      else JsMap.set acc entry.1 validRequests)
    rl.requests⟩

/-- Successive `isAllowed(key, windowMs, maxRequests)` calls at the given instants: the
verdicts in call order and the limiter after the last call. -/
def isAllowedSeq (rl : RateLimiter) (key : String) (windowMs maxRequests : Int) :
    List Int → List Bool × RateLimiter
  | [] => ([], rl)
  | now :: later =>
    let r := isAllowed rl key windowMs maxRequests now
    let rest := isAllowedSeq r.2 key windowMs maxRequests later
    (r.1 :: rest.1, rest.2)

end RateLimiter

/-! ## JavaScript strings and values -/

/-- Truthiness of a string-valued expression: `undefined` and `""` are falsy. -/
def truthy : Option String → Bool
  | some s => decide (s ≠ "")
  | none => false

/-- The expression `a || b` on string-valued operands. -/
def jsOr (a b : Option String) : Option String := if truthy a then a else b

/-- `s.startsWith(p)`. -/
def startsWith (s p : String) : Bool := p.data.isPrefixOf s.data

/-- `s.substring(0, n)`.  Header values are Latin-1 strings, for which characters and UTF-16
code units coincide. -/
def substring0 (s : String) (n : Nat) : String := ⟨s.data.take n⟩

/-- Whether `needle` occurs in `hay` as a contiguous run of characters. -/
def occursIn (needle hay : String) : Prop := needle.data <:+: hay.data

instance (needle hay : String) : Decidable (occursIn needle hay) := by
  unfold occursIn; infer_instance

/-- `String.prototype.replace` with a string pattern, on character lists: only the first
occurrence is replaced. -/
def replaceFirstChars (pat rep : List Char) : List Char → List Char
  | [] => if pat = [] then rep else []
  | c :: cs =>
    if pat.isPrefixOf (c :: cs) then rep ++ (c :: cs).drop pat.length
    else c :: replaceFirstChars pat rep cs

/-- `s.replace(pat, rep)` for a string pattern `pat` and a replacement without `$`. -/
def replace (s pat rep : String) : String := ⟨replaceFirstChars pat.data rep.data s.data⟩

/-- A JavaScript value as the query and body parsers produce it. -/
inductive JsValue where
  | undefined
  | null
  | bool (b : Bool)
  | num (n : Int)
  | str (s : String)
  | arr (items : List JsValue)
  | obj (fields : List (String × JsValue))

/-! ## Requests, responses and configuration -/

/-- What the middleware reads of an Express request.  `ip` stands for
`req.ip || req.connection.remoteAddress` (the empty string when both are missing), `headers`
for `req.headers` (names in lower case, as Node stores them), `path` for the path of the
requested URL and `originalUrl` for the URL as requested. -/
structure Request where
  ip : String
  method : String
  path : String
  headers : JsMap String
  body : JsValue
  query : JsValue
  originalUrl : String := path
  sessionID : Option String := none

/-- ASCII lower case of a header name. -/
def lowerCase (s : String) : String := ⟨s.data.map Char.toLower⟩

/-- Express `req.get(name)`: case-insensitive header lookup, `Referer` and `Referrer` being
interchangeable. -/
def Request.get (req : Request) (name : String) : Option String :=
  let lc := lowerCase name
  if lc = "referer" ∨ lc = "referrer" then
    jsOr (JsMap.get req.headers "referrer") (JsMap.get req.headers "referer")
  else JsMap.get req.headers lc

/-- The body of `res.status(status).json({ error, message, retryAfter })`. -/
structure Response where
  status : Nat
  error : String
  message : Option String
  retryAfter : Option Int
deriving DecidableEq, Repr

/-- One call `SecurityLogger.logSecurityEvent(req, res, securityType, reason, statusCode,
additionalData)` made by a middleware for its request. -/
structure LogCall where
  securityType : String
  reason : String
  statusCode : Nat
  additionalData : List (String × String)
deriving DecidableEq, Repr

/-- The process-wide configuration of security.js.  `envApiKey` is
`process.env.WEBSITE_API_KEY`; `generatedApiKey` is the value of `generateApiKey()`, the hex
encoding of 32 random bytes, hence a string of 64 characters; `ALLOWED_ORIGINS` is the list
after the environment has been read. -/
structure Config where
  envApiKey : Option String
  generatedApiKey : String
  generated_length : generatedApiKey.length = 64
  ALLOWED_ORIGINS : List String

/-- `WEBSITE_API_KEY = process.env.WEBSITE_API_KEY || generateApiKey()`. -/
def Config.WEBSITE_API_KEY (cfg : Config) : String :=
  (jsOr cfg.envApiKey (some cfg.generatedApiKey)).getD cfg.generatedApiKey

/-- What a middleware did with a request: the limiter afterwards, the recorder calls it
made, and the response it sent; `response = none` means it called `next()`. -/
structure Outcome where
  limiter : RateLimiter
  logged : List LogCall
  response : Option Response
deriving DecidableEq, Repr

/-- A middleware, run on a request at the instant `now` with the shared limiter. -/
abbrev Middleware := Request → Int → RateLimiter → Outcome

/-- The middleware called `next()` without touching anything. -/
def next (rl : RateLimiter) : Outcome := ⟨rl, [], none⟩

/-! ## `createRateLimit` and `createSlowDown` (rateLimiter.js) -/

/-- `Math.round(windowMs / 1000)` for an integer `windowMs`: halves round upwards. -/
def roundSeconds (windowMs : Int) : Int := Int.fdiv (windowMs + 500) 1000

/-- `createRateLimit(windowMs, max, message)`: the limiter keyed by the source address. -/
def createRateLimit (windowMs max : Int) (message : String) : Middleware :=
  fun req now rl =>
    let key := req.ip
    let r := rl.isAllowed key windowMs max now
    if !r.1 then
      { limiter := r.2
        logged := [{
          securityType := "rate_limit_exceeded"
          reason := "Rate limit exceeded: " ++ toString max ++ " requests per "
            ++ toString (roundSeconds windowMs) ++ "s"
          statusCode := 429
          additionalData := [] }]
        response := some {
          status := 429
          error := message
          message := none
          retryAfter := some (roundSeconds windowMs) } }
    else
      { limiter := r.2, logged := [], response := none }

/-- `createSlowDown(windowMs, delayAfter, delayMs, maxDelayMs)`: the body computes the key
and the window start and calls `next()`. -/
def createSlowDown (_windowMs _delayAfter _delayMs _maxDelayMs : Int) : Middleware :=
  fun _req _now rl => next rl

/-! ## security.js -/

/-- The expression
`req.headers['x-api-key'] || req.headers['authorization']?.replace('Bearer ', '')`. -/
def apiKeyOf (req : Request) : Option String :=
  jsOr (JsMap.get req.headers "x-api-key")
    ((JsMap.get req.headers "authorization").map (fun a => replace a "Bearer " ""))

/-- The test `apiKey && apiKey === WEBSITE_API_KEY`. -/
def hasValidApiKey (cfg : Config) (req : Request) : Bool :=
  truthy (apiKeyOf req) && decide (apiKeyOf req = some cfg.WEBSITE_API_KEY)

/-- `createRateLimitMiddleware(windowMs, max, message)`: no limiting with the valid key. -/
def createRateLimitMiddleware (cfg : Config) (windowMs max : Int) (message : String) :
    Middleware :=
  fun req now rl =>
    if hasValidApiKey cfg req then next rl
    else createRateLimit windowMs max message req now rl

/-- `generalRateLimit`: 100 requests per 15 minutes. -/
def generalRateLimit (cfg : Config) : Middleware :=
  createRateLimitMiddleware cfg (15 * 60 * 1000) 100
    "Too many requests from this IP, please try again later."

/-- `authRateLimit`: 5 attempts per 15 minutes. -/
def authRateLimit (cfg : Config) : Middleware :=
  createRateLimitMiddleware cfg (15 * 60 * 1000) 5
    "Too many authentication attempts, please try again later."

/-- `uploadRateLimit`: 20 uploads per hour. -/
def uploadRateLimit (cfg : Config) : Middleware :=
  createRateLimitMiddleware cfg (60 * 60 * 1000) 20
    "Too many upload attempts, please try again later."

/-- `speedLimiter`: skipped with the valid key, else the slow-down middleware. -/
def speedLimiter (cfg : Config) : Middleware :=
  fun req now rl =>
    if hasValidApiKey cfg req then next rl
    else createSlowDown (15 * 60 * 1000) 50 500 20000 req now rl

/-- `validateApiKey`. -/
def validateApiKey (cfg : Config) : Middleware :=
  fun req _now rl =>
    let apiKey := apiKeyOf req
    if !truthy apiKey then
      { limiter := rl
        logged := [{
          securityType := "unauthorized_access"
          reason := "No API key provided"
          statusCode := 401
          additionalData := [] }]
        response := some {
          status := 401
          error := "API key required"
          message := some "This API requires a valid API key"
          retryAfter := none } }
    else if apiKey ≠ some cfg.WEBSITE_API_KEY then
      { limiter := rl
        logged := [{
          securityType := "invalid_api_key"
          reason := "Invalid API key provided"
          statusCode := 403
          additionalData := [("providedKey", substring0 (apiKey.getD "") 10 ++ "...")] }]
        response := some {
          status := 403
          error := "Invalid API key"
          message := some "The provided API key is not valid"
          retryAfter := none } }
    else next rl

/-- The expression `req.get('Origin') || req.get('Referer')`. -/
def originOf (req : Request) : Option String :=
  jsOr (req.get "Origin") (req.get "Referer")

/-- `validateOrigin`. -/
def validateOrigin (cfg : Config) : Middleware :=
  fun req _now rl =>
    let origin := originOf req
    if !truthy origin then
      { limiter := rl
        logged := [{
          securityType := "invalid_origin"
          reason := "No origin header provided"
          statusCode := 403
          additionalData := [] }]
        response := some {
          status := 403
          error := "Origin required"
          message := some "Requests must include a valid origin header"
          retryAfter := none } }
    else
      let isValidOrigin :=
        cfg.ALLOWED_ORIGINS.any (fun allowedOrigin => startsWith (origin.getD "") allowedOrigin)
      if !isValidOrigin then
        { limiter := rl
          logged := [{
            securityType := "invalid_origin"
            reason := "Invalid origin: " ++ origin.getD ""
            statusCode := 403
            additionalData := [("providedOrigin", origin.getD "")] }]
          response := some {
            status := 403
            error := "Invalid origin"
            message := some "Requests from this origin are not allowed"
            retryAfter := none } }
      else next rl

/-- `securityHeaders` only sets response headers and calls `next()`. -/
def securityHeaders : Middleware := fun _req _now rl => next rl

/-- `securityLogger` calls `next()`. -/
def securityLogger : Middleware := fun _req _now rl => next rl

/-- The characters that `parseInt` skips and that `\s` matches: JavaScript white space and
line terminators. -/
def isJsWhiteSpace (c : Char) : Bool :=
  let n := c.toNat
  (9 ≤ n && n ≤ 13) || n == 0x20 || n == 0xA0 || n == 0x1680 || (0x2000 ≤ n && n ≤ 0x200A)
    || n == 0x2028 || n == 0x2029 || n == 0x202F || n == 0x205F || n == 0x3000 || n == 0xFEFF

/-- The value of a character as a digit of the given radix (at most 36). -/
def digitValue (radix : Nat) (c : Char) : Option Nat :=
  let n := c.toNat
  let v : Option Nat :=
    if 48 ≤ n ∧ n ≤ 57 then some (n - 48)
    else if 97 ≤ n ∧ n ≤ 122 then some (n - 87)
    else if 65 ≤ n ∧ n ≤ 90 then some (n - 55)
    else none
  v.filter (fun d => decide (d < radix))

/-- `parseInt(s)` without a radix; `none` stands for `NaN`. -/
def parseInt (s : String) : Option Int :=
  let trimmed := s.data.dropWhile isJsWhiteSpace
  let signed : Bool × List Char :=
    match trimmed with
    | '-' :: rest => (true, rest)
    | '+' :: rest => (false, rest)
    | _ => (false, trimmed)
  let prefixed : Nat × List Char :=
    match signed.2 with
    | '0' :: 'x' :: rest => (16, rest)
    | '0' :: 'X' :: rest => (16, rest)
    | _ => (10, signed.2)
  let digits := prefixed.2.takeWhile (fun c => (digitValue prefixed.1 c).isSome)
  if digits = [] then none
  else
    let value : Nat :=
      digits.foldl (fun acc c => acc * prefixed.1 + (digitValue prefixed.1 c).getD 0) 0
    some (if signed.1 then -(value : Int) else (value : Int))

/-- `requestSizeLimit`: 413 when `Content-Length` exceeds 10 MB; no recorder call. -/
def requestSizeLimit : Middleware :=
  fun req _now rl =>
    let contentLength := parseInt ((jsOr (req.get "Content-Length") (some "0")).getD "0")
    let maxSize : Int := 10 * 1024 * 1024
    if (match contentLength with
        | some n => decide (n > maxSize)
        | none => false) then
      { limiter := rl
        logged := []
        response := some {
          status := 413
          error := "Request too large"
          message := some "Request size exceeds the maximum allowed limit"
          retryAfter := none } }
    else next rl

/-- The class `\w`. -/
def isWordChar (c : Char) : Bool :=
  let n := c.toNat
  (48 ≤ n && n ≤ 57) || (65 ≤ n && n ≤ 90) || (97 ≤ n && n ≤ 122) || n == 95

/-- `/lit/i.test(s)` for a literal `lit` of lower-case ASCII characters: some position of
`s` carries `lit` up to ASCII letter case. -/
def testLiteral (lit : String) (s : String) : Bool :=
  (s.data.map Char.toLower).tails.any (fun t => lit.data.isPrefixOf t)

/-- `/on\w+\s*=/i.test(s)`: at some position `on`, then one or more word characters, then
any white space, then `=`. -/
def testEventHandler (s : String) : Bool :=
  (s.data.map Char.toLower).tails.any (fun t =>
    ['o', 'n'].isPrefixOf t &&
      (let afterOn := t.drop 2
       let afterWord := afterOn.dropWhile isWordChar
       decide (afterWord.length < afterOn.length) &&
         (afterWord.dropWhile isJsWhiteSpace).head? == some '='))

/-- Whether one of `suspiciousPatterns` matches the string. -/
def matchesSuspiciousPattern (s : String) : Bool :=
  testLiteral "<script" s || testLiteral "javascript:" s || testEventHandler s
    || testLiteral "eval(" s || testLiteral "expression(" s

mutual
/-- `checkForSuspiciousContent(obj)`: the `for ... in` loop over the properties of an object
or the indices of an array; a string property is tested, an object or array property is
searched in turn, all other values are passed over.  The loop over anything else finds
nothing (the one-character properties of a string match no pattern). -/
def checkForSuspiciousContent : JsValue → Bool
  | .arr items => checkItems items
  | .obj fields => checkFields fields
  | _ => false
/-- The loop of `checkForSuspiciousContent` over the elements of an array. -/
def checkItems : List JsValue → Bool
  | [] => false
  | .str s :: rest => matchesSuspiciousPattern s || checkItems rest
  | v :: rest => checkForSuspiciousContent v || checkItems rest
/-- The loop of `checkForSuspiciousContent` over the properties of an object. -/
def checkFields : List (String × JsValue) → Bool
  | [] => false
  | (_, .str s) :: rest => matchesSuspiciousPattern s || checkFields rest
  | (_, v) :: rest => checkForSuspiciousContent v || checkFields rest
end

/-- `validateRequest`. -/
def validateRequest : Middleware :=
  fun req _now rl =>
    if checkForSuspiciousContent req.body || checkForSuspiciousContent req.query then
      { limiter := rl
        logged := [{
          securityType := "suspicious_content"
          reason := "Request contains potentially malicious content"
          statusCode := 400
          additionalData := [] }]
        response := some {
          status := 400
          error := "Suspicious content detected"
          message := some "Request contains potentially malicious content"
          retryAfter := none } }
    else next rl

/-! ## The middleware chain of index.js -/

/-- Express runs the mounted middleware in order until one of them answers. -/
def runChain : List Middleware → Middleware
  | [], _, _, rl => next rl
  | mw :: rest, req, now, rl =>
    let first := mw req now rl
    match first.response with
    | some _ => first
    | none =>
      let later := runChain rest req now first.limiter
      { later with logged := first.logged ++ later.logged }

/-- Whether `app.use(mountPath, ...)` applies to a request path: the path is the mount path
or continues it after a `/`, letter case being ignored. -/
def mountedAt (mountPath path : String) : Bool :=
  let p := lowerCase path
  decide (p = mountPath) || startsWith p (mountPath ++ "/")

/-- `app.use(mountPath, mw)`. -/
def mount (mountPath : String) (mw : Middleware) : Middleware :=
  fun req now rl => if mountedAt mountPath req.path then mw req now rl else next rl

/-- A middleware of a third-party package (`cors`, `express.json`, `express.urlencoded`):
it answers the request itself or calls `next()`, and does not use the limiter or the
recorder. -/
def external (answer : Request → Option Response) : Middleware :=
  fun req _now rl => { limiter := rl, logged := [], response := answer req }

/-- The request as the middleware mounted before the body parsers sees it: `req.body` is
still `undefined`. -/
def beforeBodyParsers (mw : Middleware) : Middleware :=
  fun req now rl => mw { req with body := JsValue.undefined } now rl

/-- The security middleware of index.js in mounting order, up to the route handlers.
`thirdParty` stands for `cors(corsOptions)`, `express.json` and `express.urlencoded`
together.  The instants read while one request is handled are taken to be equal. -/
def admission (cfg : Config) (thirdParty : Request → Option Response) : Middleware :=
  runChain [
    beforeBodyParsers securityLogger,
    beforeBodyParsers securityHeaders,
    beforeBodyParsers requestSizeLimit,
    beforeBodyParsers validateRequest,
    external thirdParty,
    speedLimiter cfg,
    generalRateLimit cfg,
    mount "/api" (validateApiKey cfg),
    mount "/api" (validateOrigin cfg),
    mount "/api/auth" (authRateLimit cfg),
    mount "/api/upload" (uploadRateLimit cfg)]

/-- The first response of a list of optional responses. -/
def firstRejection : List (Option Response) → Option Response
  | [] => none
  | some r :: _ => some r
  | none :: rest => firstRejection rest

/-- What is observed of an outcome: the status sent, if any, and the kinds and statuses of
the events handed to the recorder. -/
def Outcome.summary (o : Outcome) : Option Nat × List (String × Nat) :=
  (o.response.map (fun r => r.status), o.logged.map (fun c => (c.securityType, c.statusCode)))

/-- Requests handled one after the other by a middleware, each with the instant at which it
is handled: the outcomes in order, each run starting from the limiter the previous one
left. -/
def serveAll (mw : Middleware) : List (Request × Int) → RateLimiter → List Outcome
  | [], _ => []
  | (req, now) :: later, rl =>
    let first := mw req now rl
    first :: serveAll mw later first.limiter

/-! ## securityLogger.js: header sanitization -/

/-- What `sanitizeHeaders` makes of the value of a sensitive header. -/
def redactValue (v : String) : String := if v ≠ "" then "[REDACTED]" else v

/-- One round of the `forEach` loop of `sanitizeHeaders`. -/
def redactStep (sanitized : JsMap String) (header : String) : JsMap String :=
  if truthy (JsMap.get sanitized header) then JsMap.set sanitized header "[REDACTED]"
  else sanitized

/-- `SecurityLogger.sanitizeHeaders(headers)` for a header object: every sensitive header
with a truthy value is overwritten with the redaction marker. -/
def sanitizeHeaders (headers : JsMap String) : JsMap String :=
  let sensitiveHeaders := ["authorization", "cookie", "x-api-key", "x-auth-token"]
  sensitiveHeaders.foldl
    (fun sanitized header =>
      if truthy (JsMap.get sanitized header) then JsMap.set sanitized header "[REDACTED]"
      else sanitized)
    headers

/-! ## securityLogger.js: body sanitization -/

/-- Truthiness of a JavaScript value. -/
def JsValue.truthy : JsValue → Bool
  | .undefined => false
  | .null => false
  | .bool b => b
  | .num n => decide (n ≠ 0)
  | .str s => decide (s ≠ "")
  | .arr _ => true
  | .obj _ => true

/-- The test `typeof v === 'object'` for a value other than `null`. -/
def JsValue.isObject : JsValue → Bool
  | .arr _ => true
  | .obj _ => true
  | _ => false

/-- `s.length`: the number of UTF-16 code units of a string. -/
def utf16Length (s : String) : Nat :=
  (s.data.map (fun c => if c.toNat < 0x10000 then 1 else 2)).sum

/-- A hexadecimal digit in lower case. -/
def hexDigit (n : Nat) : Char := if n < 10 then Char.ofNat (48 + n) else Char.ofNat (87 + n)

/-- What `JSON.stringify` writes for one character of a string. -/
def quoteJsonChar (c : Char) : List Char :=
  if c = '"' then ['\\', '"']
  else if c = '\\' then ['\\', '\\']
  else if c.toNat = 8 then ['\\', 'b']
  else if c.toNat = 9 then ['\\', 't']
  else if c.toNat = 10 then ['\\', 'n']
  else if c.toNat = 12 then ['\\', 'f']
  else if c.toNat = 13 then ['\\', 'r']
  else if c.toNat < 32 then ['\\', 'u', '0', '0', hexDigit (c.toNat / 16), hexDigit (c.toNat % 16)]
  else [c]

/-- What `JSON.stringify` writes for a string: the quoted and escaped text. -/
def quoteJson (s : String) : String := ⟨'"' :: (s.data.map quoteJsonChar).flatten ++ ['"']⟩

mutual
/-- `JSON.stringify(v)` for a value built from objects, arrays, strings, booleans, `null`
and integers below 10²¹ in size; properties are written in list order, a property whose
value is `undefined` is left out, and `undefined` inside an array is written `null`. -/
def jsonStringify : JsValue → String
  | .undefined => "null"
  | .null => "null"
  | .bool b => if b then "true" else "false"
  | .num n => toString n
  | .str s => quoteJson s
  | .arr items => "[" ++ ",".intercalate (jsonItems items) ++ "]"
  | .obj fields => "\x7b" ++ ",".intercalate (jsonMembers fields) ++ "\x7d"
/-- The serialized elements of an array. -/
def jsonItems : List JsValue → List String
  | [] => []
  | v :: rest => jsonStringify v :: jsonItems rest
/-- The serialized properties of an object. -/
def jsonMembers : List (String × JsValue) → List String
  | [] => []
  | (_, .undefined) :: rest => jsonMembers rest
  | (k, v) :: rest => (quoteJson k ++ ":" ++ jsonStringify v) :: jsonMembers rest
end

/-- The own enumerable properties that `{ ...body }` copies: the fields of an object, the
indices of an array. -/
def spread : JsValue → JsMap JsValue
  | .obj fields => fields
  | .arr items => items.enum.map (fun p => (toString p.1, p.2))
  | _ => []

/-- The list `sensitiveFields` of `sanitizeRequestBody`. -/
def sensitiveFields : List String :=
  ["password", "token", "secret", "key", "authorization", "cookie"]

/-- One round of the `forEach` loop of `sanitizeRequestBody`. -/
def redactField (sanitized : JsMap JsValue) (field : String) : JsMap JsValue :=
  if ((JsMap.get sanitized field).getD JsValue.undefined).truthy then
    JsMap.set sanitized field (JsValue.str "[REDACTED]")
  else sanitized

/-- `SecurityLogger.sanitizeRequestBody(body)`; the result `null` is `JsValue.null`. -/
def sanitizeRequestBody (body : JsValue) : JsValue :=
  if !body.truthy || !body.isObject then JsValue.null
  else
    let sanitized := sensitiveFields.foldl redactField (spread body)
    let bodyString := jsonStringify (JsValue.obj sanitized)
    if utf16Length bodyString > 1000 then
      JsValue.obj
        (JsMap.set (JsMap.set sanitized "_truncated" (JsValue.bool true))
          "_originalSize" (JsValue.num (utf16Length bodyString)))
    else JsValue.obj sanitized

/-! ## The event store (models/SecurityLog.js) and the recorder (securityLogger.js) -/

/-- The values of `riskLevel`. -/
inductive RiskLevel where
  | low
  | medium
  | high
  | critical
deriving DecidableEq, Repr

/-- The position of a level in the order low < medium < high < critical. -/
def RiskLevel.rank : RiskLevel → Nat
  | .low => 0
  | .medium => 1
  | .high => 2
  | .critical => 3

instance : LE RiskLevel := ⟨fun a b => a.rank ≤ b.rank⟩

instance (a b : RiskLevel) : Decidable (a ≤ b) := by
  unfold LE.le; unfold instLERiskLevel; infer_instance

/-- A document of the `SecurityLog` collection: the fields of `securityLogSchema`, with
`createdAt` and `updatedAt` from the schema option `timestamps: true`.  Dates are instants in
milliseconds. -/
structure SecurityLog where
  ipAddress : String
  userAgent : String
  origin : Option String
  referer : Option String
  method : String
  path : String
  endpoint : String
  securityType : String
  reason : String
  statusCode : Nat
  requestBody : JsValue
  requestHeaders : JsMap String
  queryParams : JsValue
  country : Option String := none
  city : Option String := none
  region : Option String := none
  riskLevel : RiskLevel := RiskLevel.medium
  isBlocked : Bool := false
  timestamp : Int
  sessionId : Option String
  fingerprint : String
  createdAt : Int
  updatedAt : Int

/-- The surroundings of the recorder: the MD5 digest of `crypto`, and whether each of the
three store operations it uses throws (the store is unreachable, the write is refused). -/
structure Env where
  md5 : String → String
  countFails : Bool
  saveFails : Bool
  updateFails : Bool

/-- The query `{ ipAddress, timestamp: { $gte: since } }`. -/
def recentFrom (ipAddress : String) (since : Int) (doc : SecurityLog) : Bool :=
  decide (doc.ipAddress = ipAddress) && decide (doc.timestamp ≥ since)

/-- `SecurityLog.countDocuments({ ipAddress, timestamp: { $gte: since } })` on a store that
answers. -/
def countDocuments (db : List SecurityLog) (ipAddress : String) (since : Int) : Nat :=
  (db.filter (recentFrom ipAddress since)).length

/-- `SecurityLog.updateMany(filter, { isBlocked })` on a store that answers, at the instant
`now`: every matching document gets the flag, and `updatedAt` as the schema option
`timestamps` has it. -/
def updateMany (db : List SecurityLog) (filter : SecurityLog → Bool) (isBlocked : Bool)
    (now : Int) : List SecurityLog :=
  db.map (fun doc => if filter doc then { doc with isBlocked := isBlocked, updatedAt := now }
    else doc)

/-- The default `timeWindow` of `calculateRiskLevel`: one hour. -/
def defaultTimeWindow : Int := 3600000

/-- `securityLogSchema.statics.calculateRiskLevel(ipAddress, timeWindow)` at the instant
`now`; `none` when the count query is rejected. -/
def SecurityLog.calculateRiskLevel (env : Env) (db : List SecurityLog) (ipAddress : String)
    (timeWindow now : Int) : Option RiskLevel :=
  let oneHourAgo := now - timeWindow
  if env.countFails then none
  else
    let count := countDocuments db ipAddress oneHourAgo
    if count ≥ 50 then some RiskLevel.critical
    else if count ≥ 20 then some RiskLevel.high
    else if count ≥ 10 then some RiskLevel.medium
    else some RiskLevel.low

/-- `SecurityLogger.calculateRiskLevel(ipAddress, timeWindow)` at the instant `now`: a
failing count query is caught and answered `medium`. -/
def calculateRiskLevel (env : Env) (db : List SecurityLog) (ipAddress : String)
    (timeWindow now : Int) : RiskLevel :=
  let oneHourAgo := now - timeWindow
  if env.countFails then RiskLevel.medium
  else
    let count := countDocuments db ipAddress oneHourAgo
    if count ≥ 50 then RiskLevel.critical
    else if count ≥ 20 then RiskLevel.high
    else if count ≥ 10 then RiskLevel.medium
    else RiskLevel.low

/-- `SecurityLogger.checkAndBlockIP(ipAddress, riskLevel)` at the instant `now`: the bulk
update of the last hour; a failing update is caught. -/
def checkAndBlockIP (env : Env) (db : List SecurityLog) (ipAddress : String) (now : Int) :
    List SecurityLog :=
  if env.updateFails then db
  else updateMany db (recentFrom ipAddress (now - 3600000)) true now

/-- `SecurityLogger.generateFingerprint(req)`. -/
def generateFingerprint (env : Env) (req : Request) : String :=
  let components := [
    (jsOr (req.get "User-Agent") (some "")).getD "",
    (jsOr (req.get "Accept-Language") (some "")).getD "",
    (jsOr (req.get "Accept-Encoding") (some "")).getD "",
    req.ip]
  env.md5 ("|".intercalate components)

/-- The expression
`req.ip || req.connection.remoteAddress || req.socket.remoteAddress || 'unknown'`. -/
def ipAddressOf (req : Request) : String := if req.ip ≠ "" then req.ip else "unknown"

/-- The document `new SecurityLog({ ... })` of `logSecurityEvent`, with the risk level
assigned afterwards; `timestamp`, `createdAt` and `updatedAt` are the instant of the call.
The properties of `additionalData` that the callers pass (`providedKey`, `providedOrigin`)
are not fields of the schema and are not stored. -/
def newSecurityLog (env : Env) (req : Request) (call : LogCall) (riskLevel : RiskLevel)
    (now : Int) : SecurityLog where
  ipAddress := ipAddressOf req
  userAgent := (jsOr (req.get "User-Agent") (some "unknown")).getD "unknown"
  origin := if truthy (req.get "Origin") then req.get "Origin" else none
  referer := if truthy (req.get "Referer") then req.get "Referer" else none
  method := req.method
  path := req.path
  endpoint := req.originalUrl
  securityType := call.securityType
  reason := call.reason
  statusCode := call.statusCode
  requestBody := sanitizeRequestBody req.body
  requestHeaders := sanitizeHeaders req.headers
  queryParams := req.query
  riskLevel := riskLevel
  isBlocked := false
  timestamp := now
  sessionId := if truthy req.sessionID then req.sessionID else none
  fingerprint := generateFingerprint env req
  createdAt := now
  updatedAt := now

/-- The validation that `securityLog.save()` runs: the `required` strings are not empty and
`method` and `securityType` are values of their `enum`. -/
def SecurityLog.validates (doc : SecurityLog) : Bool :=
  decide (doc.ipAddress ≠ "") && decide (doc.userAgent ≠ "")
    && decide (doc.method ∈ ["GET", "POST", "PUT", "DELETE", "PATCH", "OPTIONS"])
    && decide (doc.path ≠ "") && decide (doc.endpoint ≠ "")
    && decide (doc.securityType ∈ ["unauthorized_access", "invalid_api_key", "invalid_origin",
        "rate_limit_exceeded", "suspicious_content", "blocked_request"])
    && decide (doc.reason ≠ "")

/-- `SecurityLogger.logSecurityEvent(req, res, securityType, reason, statusCode,
additionalData)` at the instant `now`: the store afterwards.  Every failure inside the
`try` block is caught, so the call always returns.  The instants read during one call are
taken to be equal. -/
def logSecurityEvent (env : Env) (db : List SecurityLog) (req : Request) (call : LogCall)
    (now : Int) : List SecurityLog :=
  let ipAddress := ipAddressOf req
  let riskLevel := calculateRiskLevel env db ipAddress defaultTimeWindow now
  let securityLog := newSecurityLog env req call riskLevel now
  if env.saveFails || !securityLog.validates then db
  else
    let saved := db ++ [securityLog]
    if riskLevel = RiskLevel.critical ∨ riskLevel = RiskLevel.high then
      checkAndBlockIP env saved ipAddress now
    else saved

/-- Violations recorded one after the other, each with its request, the recorder call and
the instant of the call: the store after the last one. -/
def logAll (env : Env) : List SecurityLog → List (Request × LogCall × Int) → List SecurityLog
  | db, [] => db
  | db, (req, call, now) :: later => logAll env (logSecurityEvent env db req call now) later

/-- The requests and recorder calls whose document passes the validation of `save()`. -/
def recordable (req : Request) (call : LogCall) : Bool :=
  decide (req.method ∈ ["GET", "POST", "PUT", "DELETE", "PATCH", "OPTIONS"])
    && decide (req.path ≠ "") && decide (req.originalUrl ≠ "")
    && decide (call.securityType ∈ ["unauthorized_access", "invalid_api_key", "invalid_origin",
        "rate_limit_exceeded", "suspicious_content", "blocked_request"])
    && decide (call.reason ≠ "")

/-- The number of events of an address in the store, whatever their age. -/
def eventsOf (db : List SecurityLog) (ipAddress : String) : List SecurityLog :=
  db.filter (fun doc => decide (doc.ipAddress = ipAddress))

/-- The state of the store after `k` violations of an address, none of which has triggered
the block step: `k` events of the address, none older than `start`, none blocked. -/
def runInvariant (db : List SecurityLog) (ipAddress : String) (start : Int) (k : Nat) : Prop :=
  (eventsOf db ipAddress).length = k
  ∧ (∀ doc ∈ db, doc.ipAddress = ipAddress → start ≤ doc.timestamp)
  ∧ (∀ doc ∈ db, doc.ipAddress = ipAddress → doc.isBlocked = false)

/-! ## The string values of a request value -/

mutual
/-- The string values at any depth inside the objects and arrays of a value. -/
def stringValues : JsValue → List String
  | .arr items => stringValuesOfItems items
  | .obj fields => stringValuesOfFields fields
  | _ => []
/-- The string values inside the elements of an array. -/
def stringValuesOfItems : List JsValue → List String
  | [] => []
  | .str s :: rest => s :: stringValuesOfItems rest
  | v :: rest => stringValues v ++ stringValuesOfItems rest
/-- The string values inside the properties of an object. -/
def stringValuesOfFields : List (String × JsValue) → List String
  | [] => []
  | (_, .str s) :: rest => s :: stringValuesOfFields rest
  | (_, v) :: rest => stringValues v ++ stringValuesOfFields rest
end

/-- What `sanitizeRequestBody` makes of the value of a sensitive field. -/
def redactJs (v : JsValue) : JsValue := if v.truthy then JsValue.str "[REDACTED]" else v

/-! ## Auxiliary notions for the sweep -/

/-- The keys of a map, in insertion order. -/
def JsMap.keys {β : Type} (m : JsMap β) : List String := m.map Prod.fst

/-- The timestamps that `cleanup` keeps at `now`: those younger than 24 hours. -/
def RateLimiter.retained (now : Int) (timestamps : List Int) : List Int :=
  timestamps.filter (fun timestamp => decide (now - timestamp < 24 * 60 * 60 * 1000))

/-- One round of the loop of `cleanup`. -/
def RateLimiter.cleanupStep (now : Int) (acc : JsMap (List Int)) (entry : String × List Int) :
    JsMap (List Int) :=
  if (RateLimiter.retained now entry.2).length = 0 then JsMap.delete acc entry.1
  else JsMap.set acc entry.1 (RateLimiter.retained now entry.2)

/-- What `cleanup` makes of the entry of a key. -/
def RateLimiter.cleaned (now : Int) : Option (List Int) → Option (List Int)
  | some timestamps =>
    if RateLimiter.retained now timestamps = [] then none
    else some (RateLimiter.retained now timestamps)
  | none => none

/-! ## Sequences of limiter operations -/

/-- One operation on the limiter: a call of `isAllowed` or a run of `cleanup`, each with the
instant at which it happens. -/
inductive LimiterOp where
  | isAllowed (key : String) (windowMs maxRequests now : Int)
  | cleanup (now : Int)
deriving DecidableEq, Repr

/-- The instant of an operation. -/
def LimiterOp.time : LimiterOp → Int
  | .isAllowed _ _ _ now => now
  | .cleanup now => now

/-- The limiter after an operation. -/
def LimiterOp.apply (rl : RateLimiter) : LimiterOp → RateLimiter
  | .isAllowed key windowMs maxRequests now => (rl.isAllowed key windowMs maxRequests now).2
  | .cleanup now => rl.cleanup now

/-- The limiter after a sequence of operations. -/
def runOps (rl : RateLimiter) (ops : List LimiterOp) : RateLimiter :=
  ops.foldl LimiterOp.apply rl

/-- Whether an operation, if it is a call of `isAllowed` on the key, uses the limit. -/
def LimiterOp.usesLimit (key : String) (limit : Int) : LimiterOp → Bool
  | .isAllowed key' _ maxRequests _ => decide (key' = key → maxRequests = limit)
  | .cleanup _ => true

/-- What holds of a limiter all of whose operations happened up to the instant `upTo`: the
keys are distinct, and every list is in non-decreasing order and holds no later instant. -/
def RateLimiter.ordered (rl : RateLimiter) (upTo : Int) : Prop :=
  (JsMap.keys rl.requests).Nodup
  ∧ ∀ k, (rl.recorded k).Pairwise (· ≤ ·) ∧ ∀ t ∈ rl.recorded k, t ≤ upTo

/-- The middleware of index.js mounted before the class-specific limiters, in mounting
order. -/
def beforeClassLimiters (cfg : Config) (thirdParty : Request → Option Response) :
    List Middleware :=
  [ beforeBodyParsers securityLogger,
    beforeBodyParsers securityHeaders,
    beforeBodyParsers requestSizeLimit,
    beforeBodyParsers validateRequest,
    external thirdParty,
    speedLimiter cfg,
    generalRateLimit cfg,
    mount "/api" (validateApiKey cfg),
    mount "/api" (validateOrigin cfg)]

/-! ## The administration routes (routes/security.js) -/

/-- What an administration route answers: the status and the `message` of the JSON body, a
body with `success: true` going with the status 200. -/
structure AdminAnswer where
  status : Nat
  message : String
deriving DecidableEq, Repr

/-- The destructuring `const { action = 'block' } = req.body`: `none` when it throws
(`req.body` is `undefined` or `null`), else the value of `action`, with the default in the
place of `undefined`. -/
def actionOf (body : JsValue) : Option JsValue :=
  match body with
  | .undefined => none
  | .null => none
  | .obj fields =>
    match JsMap.get fields "action" with
    | none => some (.str "block")
    | some .undefined => some (.str "block")
    | some v => some v
  | _ => some (.str "block")

/-- The comparison `value === s` with a string `s`. -/
def JsValue.isString (value : JsValue) (s : String) : Bool :=
  match value with
  | .str s' => decide (s' = s)
  | _ => false

/-- The handler of `POST /ip/:ipAddress/block` at the instant `now`, for a request that
`auth` let pass with `req.user.role = role`: the answer and the store afterwards.  A failing
update and a failing destructuring are caught and answered 500. -/
def blockRoute (env : Env) (db : List SecurityLog) (role ipAddress : String) (body : JsValue)
    (now : Int) : AdminAnswer × List SecurityLog :=
  if role ≠ "admin" then (⟨403, "Access denied. Admin role required."⟩, db)
  else
    match actionOf body with
    | none => (⟨500, "Error processing IP action"⟩, db)
    | some action =>
      if action.isString "block" then
        if env.updateFails then (⟨500, "Error processing IP action"⟩, db)
        else
          (⟨200, "IP " ++ ipAddress ++ " has been blocked"⟩,
            updateMany db (recentFrom ipAddress (now - 86400000)) true now)
      else if action.isString "unblock" then
        if env.updateFails then (⟨500, "Error processing IP action"⟩, db)
        else
          (⟨200, "IP " ++ ipAddress ++ " has been unblocked"⟩,
            updateMany db (fun doc => decide (doc.ipAddress = ipAddress)) false now)
      else (⟨400, "Invalid action. Use \"block\" or \"unblock\""⟩, db)

/-- The query of `GET /ip/:ipAddress` on a store that answers, `days` being
`parseInt(req.query.days)`: the events of the address in the last `days` days, latest first,
at most 100, without `requestBody` and `requestHeaders`. -/
def ipEvents (db : List SecurityLog) (ipAddress : String) (days now : Int) :
    List SecurityLog :=
  (((db.filter (recentFrom ipAddress (now - days * 24 * 60 * 60 * 1000))).insertionSort
      (fun a b => a.timestamp ≥ b.timestamp)).take 100).map
    (fun doc => { doc with requestBody := JsValue.undefined, requestHeaders := [] })

/-- The handler of `GET /ip/:ipAddress` with a store that answers: the status and the
`events` of the answer. -/
def ipAnalysisRoute (db : List SecurityLog) (role ipAddress : String) (days now : Int) :
    Nat × List SecurityLog :=
  if role ≠ "admin" then (403, [])
  else (200, ipEvents db ipAddress days now)

/-! ## The recorder with its exceptions (securityLogger.js) -/

/-- A computation on the event store that may throw: it yields the value or the exception,
and the store as it is then. -/
abbrev StoreM := ExceptT String (StateM (List SecurityLog))

/-- Running a computation on a store: the value or the exception, and the store
afterwards. -/
def StoreM.runOn {α : Type} (x : StoreM α) (db : List SecurityLog) :
    Except String α × List SecurityLog :=
  (x.run.run db).run

/-- `SecurityLog.countDocuments(...)`, which throws when the store fails. -/
def countDocumentsM (env : Env) (ipAddress : String) (since : Int) : StoreM Nat := do
  if env.countFails then throw "countDocuments failed"
  let db ← get
  pure (countDocuments db ipAddress since)

/-- `securityLog.save()`, which throws when the store fails or the validation rejects the
document. -/
def saveM (env : Env) (securityLog : SecurityLog) : StoreM Unit := do
  if env.saveFails then throw "save failed"
  if !securityLog.validates then throw "ValidationError"
  modify (fun db => db ++ [securityLog])

/-- `SecurityLog.updateMany(filter, ...)`, which throws when the store fails. -/
def updateManyM (env : Env) (filter : SecurityLog → Bool) (isBlocked : Bool) (now : Int) :
    StoreM Unit := do
  if env.updateFails then throw "updateMany failed"
  modify (fun db => updateMany db filter isBlocked now)

/-- `SecurityLogger.calculateRiskLevel` with its `try`/`catch`. -/
def calculateRiskLevelM (env : Env) (ipAddress : String) (timeWindow now : Int) :
    StoreM RiskLevel :=
  tryCatch
    (do
      let oneHourAgo := now - timeWindow
      let count ← countDocumentsM env ipAddress oneHourAgo
      if count ≥ 50 then pure RiskLevel.critical
      else if count ≥ 20 then pure RiskLevel.high
      else if count ≥ 10 then pure RiskLevel.medium
      else pure RiskLevel.low)
    (fun _ => pure RiskLevel.medium)

/-- `SecurityLogger.checkAndBlockIP` with its `try`/`catch`. -/
def checkAndBlockIPM (env : Env) (ipAddress : String) (now : Int) : StoreM Unit :=
  tryCatch (updateManyM env (recentFrom ipAddress (now - 3600000)) true now)
    (fun _ => pure ())

/-- `SecurityLogger.logSecurityEvent` with its `try`/`catch`. -/
def logSecurityEventM (env : Env) (req : Request) (call : LogCall) (now : Int) :
    StoreM Unit :=
  tryCatch
    (do
      let ipAddress := ipAddressOf req
      let riskLevel ← calculateRiskLevelM env ipAddress defaultTimeWindow now
      let securityLog := newSecurityLog env req call riskLevel now
      saveM env securityLog
      if riskLevel = RiskLevel.critical ∨ riskLevel = RiskLevel.high then
        checkAndBlockIPM env ipAddress now)
    (fun _ => pure ())

/-- The recorder calls of a middleware, awaited one after the other. -/
def recordAllM (env : Env) (req : Request) (now : Int) : List LogCall → StoreM Unit
  | [] => pure ()
  | call :: later => do
    logSecurityEventM env req call now
    recordAllM env req now later

/-- A middleware run with the store: it awaits its recorder calls and then answers or
continues; an exception leaves the request without the answer of the middleware. -/
def serveM (env : Env) (mw : Middleware) (req : Request) (now : Int) (rl : RateLimiter) :
    StoreM (Option Response) := do
  recordAllM env req now (mw req now rl).logged
  pure (mw req now rl).response

/-! ## Sample data -/

/-- A configuration with the key taken from the environment and the default origins. -/
def sampleConfig : Config where
  envApiKey := some "market-website-key-2024"
  generatedApiKey := "00112233445566778899aabbccddeeff00112233445566778899aabbccddeeff"
  generated_length := by decide
  ALLOWED_ORIGINS :=
    ["http://localhost:3000", "https://yourdomain.com", "https://www.yourdomain.com"]

/-- A login request from 1.2.3.4 that carries no API key. -/
def keylessRequest : Request where
  ip := "1.2.3.4"
  method := "POST"
  path := "/api/auth/login"
  headers := [("origin", "http://localhost:3000")]
  body := JsValue.obj [("email", JsValue.str "a@b.c")]
  query := JsValue.obj []

/-- The same request with the configured key in `X-API-Key`. -/
def keyedRequest : Request :=
  { keylessRequest with
    headers := [("x-api-key", "market-website-key-2024"), ("origin", "http://localhost:3000")] }

/-- The same request with a wrong key of five characters as bearer token. -/
def shortKeyRequest : Request :=
  { keylessRequest with headers := [("authorization", "Bearer short")] }

/-- The same request with a wrong key of twenty characters in `X-API-Key`. -/
def longKeyRequest : Request :=
  { keylessRequest with
    headers := [("x-api-key", "wrong-key-0123456789"), ("user-agent", "curl/8.0")] }

/-- A limiter in which 1.2.3.4 has used up the general budget of 100 requests. -/
def busyLimiter : RateLimiter := ⟨[("1.2.3.4", List.replicate 100 0)]⟩

/-- An oversized request (one byte more than 10 MB) with a script tag in its query. -/
def oversizedScriptRequest : Request where
  ip := "5.6.7.8"
  method := "POST"
  path := "/api/products"
  headers := [("content-length", "10485761")]
  body := JsValue.undefined
  query := JsValue.obj [("q", JsValue.str "<script>alert(1)</script>")]

/-- Third-party middleware that lets every request through. -/
def passThrough : Request → Option Response := fun _ => none

/-- A store that answers every operation; the digest is left as the identity, the
fingerprint playing no part in what follows. -/
def workingEnv : Env where
  md5 := fun s => s
  countFails := false
  saveFails := false
  updateFails := false

/-- The recorder call that `validateApiKey` makes for a missing key. -/
def missingKeyCall : LogCall where
  securityType := "unauthorized_access"
  reason := "No API key provided"
  statusCode := 401
  additionalData := []

/-- Nine violations of 1.2.3.4 recorded at the instant 0 on an empty store. -/
def nineEvents : List SecurityLog :=
  logAll workingEnv [] (List.replicate 9 (keylessRequest, missingKeyCall, 0))

/-- Ten violations of 1.2.3.4 and two of 5.6.7.8, recorded at the instant 0. -/
def mixedEvents : List SecurityLog :=
  logAll workingEnv []
    (List.replicate 10 (keylessRequest, missingKeyCall, 0)
      ++ List.replicate 2 (oversizedScriptRequest, missingKeyCall, 0))

/-- A request with the configured key and an allowed origin whose JSON body carries a script
tag. -/
def scriptBodyRequest : Request :=
  { keyedRequest with
    path := "/api/products"
    originalUrl := "/api/products"
    headers := [("x-api-key", "market-website-key-2024"), ("origin", "http://localhost:3000"),
      ("content-type", "application/json")]
    body := JsValue.obj [("q", JsValue.str "<script>alert(1)</script>")] }

/-- A body with a password nested in an object and a capitalised `Password` field. -/
def nestedPasswordBody : JsValue :=
  JsValue.obj [
    ("user", JsValue.obj [("password", JsValue.str "hunter2")]),
    ("Password", JsValue.str "hunter2")]

/-- A body with one field of 1000 characters: its serialization has 1011 characters. -/
def largeBody : JsValue := JsValue.obj [("data", JsValue.str ⟨List.replicate 1000 'a'⟩)]

/-- A limiter in which `a` has one timestamp older than 24 hours and one recent, and `b`
only one older than 24 hours, seen from the instant 90000000. -/
def staleLimiter : RateLimiter := ⟨[("a", [0, 89999000]), ("b", [1000])]⟩

/-- Three admitted calls with a long window and a limit of three, at the instants 0, 1, 2. -/
def threeAdmitted : List LimiterOp :=
  [.isAllowed "k" 1000 3 0, .isAllowed "k" 1000 3 1, .isAllowed "k" 1000 3 2]

/-- Calls on two keys with cleanups in between, the calls on `"k"` all with limit 2. -/
def limitTwoOps : List LimiterOp :=
  [.isAllowed "k" 1000 2 0, .isAllowed "j" 50 7 1, .isAllowed "k" 10 2 2, .cleanup 3,
   .isAllowed "k" 1000 2 4, .isAllowed "k" 1 2 90000000, .cleanup 90000001]

/-- A request whose declared length is exactly 10 MB. -/
def tenMegabyteRequest : Request where
  ip := "5.6.7.8"
  method := "POST"
  path := "/api/upload"
  headers := [("content-length", "10485760")]
  body := JsValue.undefined
  query := JsValue.undefined

/-- The body `{ "action": "unblock" }`. -/
def unblockBody : JsValue := JsValue.obj [("action", JsValue.str "unblock")]

/-- The body `{ "action": "block" }`. -/
def blockBody : JsValue := JsValue.obj [("action", JsValue.str "block")]

/-- Twelve events recorded at the instant 0, then the ten of 1.2.3.4 blocked at 1000. -/
def blockedEvents : List SecurityLog :=
  (blockRoute workingEnv mixedEvents "admin" "1.2.3.4" blockBody 1000).2

/-- Twenty violations of 1.2.3.4 recorded at the instant 0 on an empty store. -/
def twentyEvents : List SecurityLog :=
  logAll workingEnv [] (List.replicate 20 (keylessRequest, missingKeyCall, 0))

/-- A store all of whose operations fail. -/
def failingEnv : Env where
  md5 := fun s => s
  countFails := true
  saveFails := true
  updateFails := true

/-- The key-less login request with HTTP Basic credentials in `Authorization`. -/
def basicAuthRequest : Request :=
  { keylessRequest with headers := [("authorization", "Basic dXNlcjpwYXNz")] }

/-- The key-less login request with the configured key alone in `Authorization`, without
the word `Bearer`. -/
def bareKeyRequest : Request :=
  { keylessRequest with headers := [("authorization", "market-website-key-2024")] }

/-- The key-less login request sent with the method `HEAD`, which is not a value of the
`method` enum of the schema. -/
def headRequest : Request := { keylessRequest with method := "HEAD" }

/-- A store that refuses every write and answers the other operations. -/
def saveFailingEnv : Env := { workingEnv with saveFails := true }

-- END OF DEFINITIONS

/-! # Auxiliary facts -/

/-! ## Facts about the map operations -/

namespace JsMap

variable {β : Type}

theorem get_set_self (m : JsMap β) (k : String) (v : β) : get (set m k v) k = some v := by
  induction m with
  | nil => simp [set, get]
  | cons e rest ih =>
    obtain ⟨k', v'⟩ := e
    by_cases h : k' = k
    · simp [set, get, h]
    · simp [set, get, h, ih]

theorem get_set_other (m : JsMap β) (k k' : String) (v : β) (h : k' ≠ k) :
    get (set m k v) k' = get m k' := by
  induction m with
  | nil =>
    have h' : ¬ k = k' := fun e => h e.symm
    simp [set, get, h']
  | cons e rest ih =>
    obtain ⟨k₀, v₀⟩ := e
    by_cases h₀ : k₀ = k
    · subst h₀
      have h' : ¬ k₀ = k' := fun e => h e.symm
      simp [set, get, h']
    · by_cases h₁ : k₀ = k'
      · subst h₁
        simp [set, get, h₀]
      · simp [set, get, h₀, h₁, ih]

end JsMap

namespace RateLimiter

/-- The entry that `isAllowed` creates for a missing key holds no timestamp. -/
theorem recorded_ensure (rl : RateLimiter) (key k' : String) :
    ((JsMap.get
      (if !JsMap.has rl.requests key then JsMap.set rl.requests key [] else rl.requests)
      k').getD []) = recorded rl k' := by
  unfold recorded
  cases hk : JsMap.get rl.requests key with
  | none =>
    by_cases e : k' = key
    · subst e
      simp [JsMap.has, hk, JsMap.get_set_self]
    · simp [JsMap.has, hk, JsMap.get_set_other _ _ _ _ e]
  | some l => simp [JsMap.has, hk]

/-- The verdict of `isAllowed` is: fewer than `maxRequests` timestamps inside the window. -/
theorem isAllowed_verdict (rl : RateLimiter) (key : String) (windowMs maxRequests now : Int) :
    (isAllowed rl key windowMs maxRequests now).1
      = decide (((validRequests rl key windowMs now).length : Int) < maxRequests) := by
  simp only [isAllowed, validRequests, recorded_ensure]
  by_cases hge : ((List.filter (fun timestamp => decide (timestamp > now - windowMs))
      (recorded rl key)).length : Int) ≥ maxRequests
  · rw [if_pos hge]
    exact (decide_eq_false (not_lt.mpr hge)).symm
  · rw [if_neg hge]
    exact (decide_eq_true (not_le.mp hge)).symm

/-- The timestamps of every key after `isAllowed`. -/
theorem recorded_isAllowed (rl : RateLimiter) (key k' : String)
    (windowMs maxRequests now : Int) :
    recorded (isAllowed rl key windowMs maxRequests now).2 k'
      = if (isAllowed rl key windowMs maxRequests now).1 = true ∧ k' = key
        then validRequests rl key windowMs now ++ [now]
        else recorded rl k' := by
  have h' := recorded_ensure rl key k'
  simp only [isAllowed, validRequests, recorded_ensure]
  by_cases hge : ((List.filter (fun timestamp => decide (timestamp > now - windowMs))
      (recorded rl key)).length : Int) ≥ maxRequests
  · rw [if_pos hge]
    simp only [Bool.false_eq_true, false_and, if_false]
    exact h'
  · rw [if_neg hge]
    by_cases e : k' = key
    · subst e
      simp [recorded, JsMap.get_set_self]
    · simp only [e, and_false, if_false]
      simp only [recorded, JsMap.get_set_other _ _ _ _ e]
      exact h'

end RateLimiter

namespace RateLimiter

/-- While every instant of the run lies inside the window of every later call, a key
holding `l` timestamps is admitted until `maxRequests` are stored and refused afterwards. -/
theorem isAllowedSeq_verdicts (key : String) (windowMs : Int) (n : Nat) :
    ∀ (times : List Int) (rl : RateLimiter),
      (∀ s ∈ recorded rl key ++ times, ∀ now ∈ times, now - windowMs < s) →
      (isAllowedSeq rl key windowMs n times).1
        = List.replicate (min times.length (n - (recorded rl key).length)) true
          ++ List.replicate (times.length - (n - (recorded rl key).length)) false := by
  intro times
  induction times with
  | nil => intro rl _; simp [isAllowedSeq]
  | cons now later ih =>
    intro rl hwin
    have hkeep : validRequests rl key windowMs now = recorded rl key := by
      unfold validRequests
      apply List.filter_eq_self.mpr
      intro t ht
      have := hwin t (List.mem_append_left _ ht) now (List.mem_cons_self _ _)
      simpa using this
    have hv := isAllowed_verdict rl key windowMs n now
    have hr := recorded_isAllowed rl key key windowMs n now
    rw [hkeep] at hv hr
    simp only [isAllowedSeq]
    by_cases hlt : (recorded rl key).length < n
    · have hv' : (isAllowed rl key windowMs n now).1 = true := by
        rw [hv]; exact decide_eq_true (by exact_mod_cast hlt)
      rw [hv'] at hr
      simp only [and_self, if_true] at hr
      have hwin' : ∀ s ∈ recorded (isAllowed rl key windowMs n now).2 key ++ later,
          ∀ now' ∈ later, now' - windowMs < s := by
        intro s hs now' hnow'
        rw [hr] at hs
        apply hwin s _ now' (List.mem_cons_of_mem _ hnow')
        simp only [List.mem_append, List.mem_singleton, List.mem_cons] at hs ⊢
        tauto
      rw [ih _ hwin', hv', hr]
      simp only [List.length_append, List.length_singleton, List.length_cons]
      have e₁ : min (later.length + 1) (n - (recorded rl key).length)
          = (min later.length (n - ((recorded rl key).length + 1))) + 1 := by omega
      have e₂ : later.length + 1 - (n - (recorded rl key).length)
          = later.length - (n - ((recorded rl key).length + 1)) := by omega
      rw [e₁, e₂, List.replicate_succ, List.cons_append]
      simp
    · have hv' : (isAllowed rl key windowMs n now).1 = false := by
        rw [hv]; exact decide_eq_false (by exact_mod_cast hlt)
      rw [hv'] at hr
      simp only [Bool.false_eq_true, false_and, if_false] at hr
      have hwin' : ∀ s ∈ recorded (isAllowed rl key windowMs n now).2 key ++ later,
          ∀ now' ∈ later, now' - windowMs < s := by
        intro s hs now' hnow'
        rw [hr] at hs
        apply hwin s _ now' (List.mem_cons_of_mem _ hnow')
        simp only [List.mem_append, List.mem_cons] at hs ⊢
        rcases hs with h | h
        · exact Or.inl h
        · exact Or.inr (Or.inr h)
      rw [ih _ hwin', hv', hr]
      simp only [List.length_cons]
      have e₁ : n - (recorded rl key).length = 0 := by omega
      rw [e₁]
      simp [List.replicate_succ]

end RateLimiter

namespace RateLimiter

/-- One `isAllowed` call with limit `n` keeps a list of at most `n` timestamps within `n`. -/
theorem recorded_isAllowed_length_le (rl : RateLimiter) (key : String) (windowMs now : Int)
    (n : Nat) (h : (recorded rl key).length ≤ n) :
    (recorded (isAllowed rl key windowMs n now).2 key).length ≤ n := by
  rw [recorded_isAllowed]
  by_cases hv : (isAllowed rl key windowMs n now).1 = true
  · rw [if_pos ⟨hv, rfl⟩]
    rw [isAllowed_verdict] at hv
    have := of_decide_eq_true hv
    simp only [List.length_append, List.length_singleton]
    omega
  · rw [if_neg (fun c => hv c.1)]
    exact h

/-- Calls with one limit `n` never store more than `n` timestamps for the key. -/
theorem recorded_isAllowedSeq_length_le (key : String) (windowMs : Int) (n : Nat) :
    ∀ (times : List Int) (rl : RateLimiter), (recorded rl key).length ≤ n →
      (recorded (isAllowedSeq rl key windowMs n times).2 key).length ≤ n := by
  intro times
  induction times with
  | nil => intro rl h; simpa [isAllowedSeq] using h
  | cons now later ih =>
    intro rl h
    simp only [isAllowedSeq]
    exact ih _ (recorded_isAllowed_length_le rl key windowMs now n h)

end RateLimiter

/-! ## Facts about the configuration and the header expressions -/

theorem truthy_some (s : String) : truthy (some s) = true ↔ s ≠ "" := by
  simp [truthy]

theorem truthy_eq_true_iff (o : Option String) :
    truthy o = true ↔ ∃ s, o = some s ∧ s ≠ "" := by
  cases o with
  | none => simp [truthy]
  | some s => simp [truthy]

/-- The configured key is never the empty string. -/
theorem Config.WEBSITE_API_KEY_ne_empty (cfg : Config) : cfg.WEBSITE_API_KEY ≠ "" := by
  have hgen : cfg.generatedApiKey ≠ "" := by
    intro h
    have := cfg.generated_length
    rw [h] at this
    simp at this
  unfold Config.WEBSITE_API_KEY jsOr
  by_cases ht : truthy cfg.envApiKey = true
  · rw [if_pos ht]
    obtain ⟨s, hs, hne⟩ := (truthy_eq_true_iff _).mp ht
    rw [hs]
    exact hne
  · rw [if_neg ht]
    exact hgen

/-- The test of the rate and speed limiters succeeds exactly for the configured key. -/
theorem hasValidApiKey_iff (cfg : Config) (req : Request) :
    hasValidApiKey cfg req = true ↔ apiKeyOf req = some cfg.WEBSITE_API_KEY := by
  unfold hasValidApiKey
  constructor
  · intro h
    simp only [Bool.and_eq_true, decide_eq_true_eq] at h
    exact h.2
  · intro h
    simp only [Bool.and_eq_true, decide_eq_true_eq]
    refine ⟨?_, h⟩
    rw [h]
    exact (truthy_some _).mpr cfg.WEBSITE_API_KEY_ne_empty

/-! ## The three outcomes of `validateApiKey` -/

theorem validateApiKey_missing (cfg : Config) (req : Request) (now : Int) (rl : RateLimiter)
    (ht : truthy (apiKeyOf req) = false) :
    validateApiKey cfg req now rl =
      { limiter := rl
        logged := [{
          securityType := "unauthorized_access"
          reason := "No API key provided"
          statusCode := 401
          additionalData := [] }]
        response := some {
          status := 401
          error := "API key required"
          message := some "This API requires a valid API key"
          retryAfter := none } } := by
  simp only [validateApiKey, ht, Bool.not_false, if_true]

theorem validateApiKey_wrong (cfg : Config) (req : Request) (now : Int) (rl : RateLimiter)
    (ht : truthy (apiKeyOf req) = true) (hk : apiKeyOf req ≠ some cfg.WEBSITE_API_KEY) :
    validateApiKey cfg req now rl =
      { limiter := rl
        logged := [{
          securityType := "invalid_api_key"
          reason := "Invalid API key provided"
          statusCode := 403
          additionalData := [("providedKey", substring0 ((apiKeyOf req).getD "") 10 ++ "...")] }]
        response := some {
          status := 403
          error := "Invalid API key"
          message := some "The provided API key is not valid"
          retryAfter := none } } := by
  simp only [validateApiKey, ht, Bool.not_true, Bool.false_eq_true, if_false, if_pos hk]

theorem validateApiKey_valid (cfg : Config) (req : Request) (now : Int) (rl : RateLimiter)
    (hk : apiKeyOf req = some cfg.WEBSITE_API_KEY) :
    validateApiKey cfg req now rl = next rl := by
  have ht : truthy (apiKeyOf req) = true := by
    rw [hk]; exact (truthy_some _).mpr cfg.WEBSITE_API_KEY_ne_empty
  have hk' : ¬ (apiKeyOf req ≠ some cfg.WEBSITE_API_KEY) := fun h => h hk
  simp only [validateApiKey, ht, Bool.not_true, Bool.false_eq_true, if_false, if_neg hk']

/-! ## Facts about the truncated key and the redacted headers -/

/-- A string that has a character other than `.` after its tenth character does not occur
inside its first ten characters followed by `...`. -/
theorem not_occursIn_truncated (k : String) (hlen : 10 < k.length)
    (hdot : ∃ c ∈ k.data.drop 10, c ≠ '.') :
    ¬ occursIn k (substring0 k 10 ++ "...") := by
  intro h
  obtain ⟨c, hc, hne⟩ := hdot
  unfold occursIn at h
  obtain ⟨a, b, hab⟩ := h
  have hdata : (substring0 k 10 ++ "...").data = k.data.take 10 ++ ['.', '.', '.'] := by
    simp [substring0, String.data_append]
  rw [hdata] at hab
  have hk : 10 < k.data.length := hlen
  have htake : (k.data.take 10).length = 10 := by
    rw [List.length_take]; omega
  have hl : List.drop (a.length + 10) (a ++ k.data ++ b) = k.data.drop 10 ++ b := by
    rw [List.append_assoc, List.drop_append, List.drop_append_of_le_length (by omega)]
  have hr : List.drop (a.length + 10) (k.data.take 10 ++ ['.', '.', '.'])
      = List.drop a.length ['.', '.', '.'] := by
    have : a.length + 10 = (k.data.take 10).length + a.length := by omega
    rw [this, List.drop_append]
  rw [hab, hr] at hl
  have hmem : c ∈ List.drop a.length ['.', '.', '.'] := by
    rw [hl]; exact List.mem_append_left _ hc
  have hsub := List.mem_of_mem_drop hmem
  simp at hsub
  exact hne hsub

theorem sanitizeHeaders_eq (headers : JsMap String) :
    sanitizeHeaders headers
      = redactStep (redactStep (redactStep (redactStep headers "authorization") "cookie")
          "x-api-key") "x-auth-token" := rfl

/-- One round of the loop of `sanitizeHeaders`, seen through lookups. -/
theorem get_redactStep (sanitized : JsMap String) (header name : String) :
    JsMap.get (redactStep sanitized header) name
      = if name = header then (JsMap.get sanitized header).map redactValue
        else JsMap.get sanitized name := by
  unfold redactStep
  by_cases hn : name = header
  · subst hn
    rw [if_pos rfl]
    cases hv : JsMap.get sanitized name with
    | none => simp [truthy, hv]
    | some v =>
      by_cases he : v = ""
      · simp [truthy, he, hv, redactValue]
      · simp [truthy, he, redactValue, JsMap.get_set_self]
  · rw [if_neg hn]
    by_cases ht : truthy (JsMap.get sanitized header) = true
    · rw [if_pos ht, JsMap.get_set_other _ _ _ _ hn]
    · rw [if_neg ht]

theorem redactValue_idem (o : Option String) :
    (o.map redactValue).map redactValue = o.map redactValue := by
  cases o with
  | none => rfl
  | some v =>
    by_cases he : v = ""
    · simp [redactValue, he]
    · simp [redactValue, he]

/-- Lookups in the sanitized headers: a sensitive header has its non-empty value replaced
by the marker, every other header keeps its value. -/
theorem get_sanitizeHeaders (headers : JsMap String) (name : String) :
    JsMap.get (sanitizeHeaders headers) name
      = if name ∈ ["authorization", "cookie", "x-api-key", "x-auth-token"]
        then (JsMap.get headers name).map redactValue
        else JsMap.get headers name := by
  rw [sanitizeHeaders_eq]
  simp only [get_redactStep]
  by_cases h₁ : name = "authorization"
  · subst h₁; simp [redactValue_idem]
  · by_cases h₂ : name = "cookie"
    · subst h₂; simp [redactValue_idem]
    · by_cases h₃ : name = "x-api-key"
      · subst h₃; simp [redactValue_idem]
      · by_cases h₄ : name = "x-auth-token"
        · subst h₄; simp [redactValue_idem]
        · simp [h₁, h₂, h₃, h₄]

/-! ## The three outcomes of `validateOrigin` -/

theorem validateOrigin_missing (cfg : Config) (req : Request) (now : Int) (rl : RateLimiter)
    (ht : truthy (originOf req) = false) :
    validateOrigin cfg req now rl =
      { limiter := rl
        logged := [{
          securityType := "invalid_origin"
          reason := "No origin header provided"
          statusCode := 403
          additionalData := [] }]
        response := some {
          status := 403
          error := "Origin required"
          message := some "Requests must include a valid origin header"
          retryAfter := none } } := by
  simp only [validateOrigin, ht, Bool.not_false, if_true]

theorem validateOrigin_mismatch (cfg : Config) (req : Request) (now : Int) (rl : RateLimiter)
    (ht : truthy (originOf req) = true)
    (hv : cfg.ALLOWED_ORIGINS.any
      (fun allowedOrigin => startsWith ((originOf req).getD "") allowedOrigin) = false) :
    validateOrigin cfg req now rl =
      { limiter := rl
        logged := [{
          securityType := "invalid_origin"
          reason := "Invalid origin: " ++ (originOf req).getD ""
          statusCode := 403
          additionalData := [("providedOrigin", (originOf req).getD "")] }]
        response := some {
          status := 403
          error := "Invalid origin"
          message := some "Requests from this origin are not allowed"
          retryAfter := none } } := by
  simp only [validateOrigin, ht, hv, Bool.not_true, Bool.not_false, Bool.false_eq_true,
    if_false, if_true]

theorem validateOrigin_allowed (cfg : Config) (req : Request) (now : Int) (rl : RateLimiter)
    (ht : truthy (originOf req) = true)
    (hv : cfg.ALLOWED_ORIGINS.any
      (fun allowedOrigin => startsWith ((originOf req).getD "") allowedOrigin) = true) :
    validateOrigin cfg req now rl = next rl := by
  simp only [validateOrigin, ht, hv, Bool.not_true, Bool.false_eq_true, if_false]

/-- A string occurs in every string that ends with it. -/
theorem occursIn_append_right (a b : String) : occursIn b (a ++ b) := by
  unfold occursIn
  rw [String.data_append]
  exact ⟨a.data, [], by simp⟩

/-! ## Facts about `createRateLimit` and repeated requests -/

/-- The response of `createRateLimit` is 429 exactly when `isAllowed` refuses. -/
theorem createRateLimit_response (w m : Int) (msg : String) (req : Request) (now : Int)
    (rl : RateLimiter) :
    (createRateLimit w m msg req now rl).response
      = if (rl.isAllowed req.ip w m now).1 = true then none
        else some { status := 429, error := msg, message := none,
                    retryAfter := some (roundSeconds w) } := by
  unfold createRateLimit
  cases h : (rl.isAllowed req.ip w m now).1 <;> simp [h]

theorem createRateLimit_limiter (w m : Int) (msg : String) (req : Request) (now : Int)
    (rl : RateLimiter) :
    (createRateLimit w m msg req now rl).limiter = (rl.isAllowed req.ip w m now).2 := by
  unfold createRateLimit
  cases h : (rl.isAllowed req.ip w m now).1 <;> simp [h]

theorem createRateLimit_logged_types (w m : Int) (msg : String) (req : Request) (now : Int)
    (rl : RateLimiter) :
    (createRateLimit w m msg req now rl).logged.map (fun c => (c.securityType, c.statusCode))
      = if (rl.isAllowed req.ip w m now).1 = true then []
        else [("rate_limit_exceeded", 429)] := by
  unfold createRateLimit
  cases h : (rl.isAllowed req.ip w m now).1 <;> simp [h]

/-- Requests of one address through `createRateLimit` are answered as `isAllowed` decides. -/
theorem serveAll_createRateLimit (w m : Int) (msg : String) (addr : String) :
    ∀ (reqs : List (Request × Int)) (rl : RateLimiter),
      (∀ p ∈ reqs, p.1.ip = addr) →
      (serveAll (createRateLimit w m msg) reqs rl).map Outcome.summary
        = (RateLimiter.isAllowedSeq rl addr w m (reqs.map Prod.snd)).1.map
            (fun ok => if ok = true then (none, []) else (some 429, [("rate_limit_exceeded", 429)]))
    := by
  intro reqs
  induction reqs with
  | nil => intro rl _; rfl
  | cons p later ih =>
    intro rl haddr
    obtain ⟨req, now⟩ := p
    have hip : req.ip = addr := haddr (req, now) (List.mem_cons_self _ _)
    simp only [serveAll, RateLimiter.isAllowedSeq, List.map_cons]
    rw [createRateLimit_limiter, hip, ih _ (fun q hq => haddr q (List.mem_cons_of_mem _ hq))]
    congr 1
    unfold Outcome.summary
    rw [createRateLimit_response, createRateLimit_logged_types, hip]
    cases h : (rl.isAllowed addr w m now).1 <;> simp

/-- Two middleware that agree on the requests served are indistinguishable by `serveAll`. -/
theorem serveAll_congr (mw₁ mw₂ : Middleware) :
    ∀ (reqs : List (Request × Int)) (rl : RateLimiter),
      (∀ p ∈ reqs, ∀ now rl, mw₁ p.1 now rl = mw₂ p.1 now rl) →
      serveAll mw₁ reqs rl = serveAll mw₂ reqs rl := by
  intro reqs
  induction reqs with
  | nil => intro rl _; rfl
  | cons p later ih =>
    intro rl h
    obtain ⟨req, now⟩ := p
    simp only [serveAll]
    rw [h (req, now) (List.mem_cons_self _ _) now rl,
      ih _ (fun q hq => h q (List.mem_cons_of_mem _ hq))]

/-! ## Facts about the middleware chain -/

theorem runChain_cons_response (mw : Middleware) (rest : List Middleware) (req : Request)
    (now : Int) (rl : RateLimiter) :
    (runChain (mw :: rest) req now rl).response
      = match (mw req now rl).response with
        | some r => some r
        | none => (runChain rest req now (mw req now rl).limiter).response := by
  rw [runChain]
  cases h : (mw req now rl).response <;> simp only [h]

theorem requestSizeLimit_limiter (req : Request) (now : Int) (rl : RateLimiter) :
    (requestSizeLimit req now rl).limiter = rl := by
  unfold requestSizeLimit
  simp only []
  split <;> rfl

theorem requestSizeLimit_status (req : Request) (now : Int) (rl : RateLimiter) (r : Response)
    (h : (requestSizeLimit req now rl).response = some r) : r.status = 413 := by
  unfold requestSizeLimit at h
  simp only [] at h
  split at h
  · simp only [Option.some.injEq] at h
    rw [← h]
  · simp [next] at h

theorem validateRequest_limiter (req : Request) (now : Int) (rl : RateLimiter) :
    (validateRequest req now rl).limiter = rl := by
  unfold validateRequest
  split <;> rfl

theorem validateRequest_status (req : Request) (now : Int) (rl : RateLimiter) (r : Response)
    (h : (validateRequest req now rl).response = some r) : r.status = 400 := by
  unfold validateRequest at h
  split at h
  · simp only [Option.some.injEq] at h
    rw [← h]
  · simp [next] at h

theorem speedLimiter_eq_next (cfg : Config) (req : Request) (now : Int) (rl : RateLimiter) :
    speedLimiter cfg req now rl = next rl := by
  unfold speedLimiter createSlowDown
  split <;> rfl

theorem generalRateLimit_status (cfg : Config) (req : Request) (now : Int) (rl : RateLimiter)
    (r : Response) (h : (generalRateLimit cfg req now rl).response = some r) :
    r.status = 429 := by
  unfold generalRateLimit createRateLimitMiddleware at h
  split at h
  · simp [next] at h
  · rw [createRateLimit_response] at h
    split at h
    · simp at h
    · simp only [Option.some.injEq] at h
      rw [← h]

/-- What `validateApiKey` answers does not depend on the instant or on the limiter. -/
theorem validateApiKey_response_indep (cfg : Config) (req : Request) (now now' : Int)
    (rl rl' : RateLimiter) :
    (validateApiKey cfg req now rl).response = (validateApiKey cfg req now' rl').response := by
  by_cases ht : truthy (apiKeyOf req) = true
  · by_cases hk : apiKeyOf req = some cfg.WEBSITE_API_KEY
    · rw [validateApiKey_valid _ _ _ _ hk, validateApiKey_valid _ _ _ _ hk]; rfl
    · rw [validateApiKey_wrong _ _ _ _ ht hk, validateApiKey_wrong _ _ _ _ ht hk]
  · have hf : truthy (apiKeyOf req) = false := by simpa using ht
    rw [validateApiKey_missing _ _ _ _ hf, validateApiKey_missing _ _ _ _ hf]

theorem validateApiKey_limiter (cfg : Config) (req : Request) (now : Int) (rl : RateLimiter) :
    (validateApiKey cfg req now rl).limiter = rl := by
  by_cases ht : truthy (apiKeyOf req) = true
  · by_cases hk : apiKeyOf req = some cfg.WEBSITE_API_KEY
    · rw [validateApiKey_valid _ _ _ _ hk]; rfl
    · rw [validateApiKey_wrong _ _ _ _ ht hk]
  · have hf : truthy (apiKeyOf req) = false := by simpa using ht
    rw [validateApiKey_missing _ _ _ _ hf]

/-- `validateApiKey` lets a request pass only with the configured key. -/
theorem validateApiKey_pass (cfg : Config) (req : Request) (now : Int) (rl : RateLimiter)
    (h : (validateApiKey cfg req now rl).response = none) :
    apiKeyOf req = some cfg.WEBSITE_API_KEY := by
  by_contra hk
  by_cases ht : truthy (apiKeyOf req) = true
  · rw [validateApiKey_wrong _ _ _ _ ht hk] at h
    simp at h
  · have hf : truthy (apiKeyOf req) = false := by simpa using ht
    rw [validateApiKey_missing _ _ _ _ hf] at h
    simp at h

theorem validateApiKey_status (cfg : Config) (req : Request) (now : Int) (rl : RateLimiter)
    (r : Response) (h : (validateApiKey cfg req now rl).response = some r) :
    r.status = 401 ∨ r.status = 403 := by
  by_cases ht : truthy (apiKeyOf req) = true
  · by_cases hk : apiKeyOf req = some cfg.WEBSITE_API_KEY
    · rw [validateApiKey_valid _ _ _ _ hk] at h
      simp [next] at h
    · rw [validateApiKey_wrong _ _ _ _ ht hk] at h
      simp only [Option.some.injEq] at h
      rw [← h]; exact Or.inr rfl
  · have hf : truthy (apiKeyOf req) = false := by simpa using ht
    rw [validateApiKey_missing _ _ _ _ hf] at h
    simp only [Option.some.injEq] at h
    rw [← h]; exact Or.inl rfl

theorem validateOrigin_cases (cfg : Config) (req : Request) (now : Int) (rl : RateLimiter) :
    ((validateOrigin cfg req now rl).response = none
      ∨ ∃ r, (validateOrigin cfg req now rl).response = some r ∧ r.status = 403)
    ∧ (validateOrigin cfg req now rl).limiter = rl
    ∧ ∀ now' rl', (validateOrigin cfg req now' rl').response
        = (validateOrigin cfg req now rl).response := by
  by_cases ht : truthy (originOf req) = true
  · cases hv : cfg.ALLOWED_ORIGINS.any
        (fun allowedOrigin => startsWith ((originOf req).getD "") allowedOrigin) with
    | true =>
      have e := fun now rl => validateOrigin_allowed cfg req now rl ht hv
      exact ⟨Or.inl (by simp only [e, next]), by simp only [e, next],
        fun _ _ => by simp only [e, next]⟩
    | false =>
      have e := fun now rl => validateOrigin_mismatch cfg req now rl ht hv
      exact ⟨Or.inr ⟨_, congrArg Outcome.response (e now rl), rfl⟩, by simp only [e],
        fun _ _ => by simp only [e]⟩
  · have hf : truthy (originOf req) = false := by simpa using ht
    have e := fun now rl => validateOrigin_missing cfg req now rl hf
    exact ⟨Or.inr ⟨_, congrArg Outcome.response (e now rl), rfl⟩, by simp only [e],
      fun _ _ => by simp only [e]⟩

/-- A path under `/api/auth` or `/api/upload` is a path under `/api`. -/
theorem mountedAt_api_of_sub (path : String)
    (h : mountedAt "/api/auth" path = true ∨ mountedAt "/api/upload" path = true) :
    mountedAt "/api" path = true := by
  have key : ∀ sub : String, ("/api" ++ "/").data <+: sub.data →
      mountedAt sub path = true → mountedAt "/api" path = true := by
    intro sub hsub hm
    unfold mountedAt at hm ⊢
    simp only [Bool.or_eq_true, decide_eq_true_eq] at hm ⊢
    right
    unfold startsWith at hm ⊢
    rw [List.isPrefixOf_iff_prefix] at hm ⊢
    rcases hm with hm | hm
    · rw [hm]; exact hsub
    · exact hsub.trans ((List.prefix_append _ _).trans (by
        rw [← String.data_append]; exact hm))
  rcases h with h | h
  · exact key "/api/auth" (by decide) h
  · exact key "/api/upload" (by decide) h

/-- Once `validateApiKey` has let a request pass, the class-specific limiters skip it. -/
theorem class_limiters_skip (cfg : Config) (req : Request) (now : Int) (rl₀ rl : RateLimiter)
    (hpass : (mount "/api" (validateApiKey cfg) req now rl₀).response = none) :
    mount "/api/auth" (authRateLimit cfg) req now rl = next rl
    ∧ mount "/api/upload" (uploadRateLimit cfg) req now rl = next rl := by
  have hkey : mountedAt "/api" req.path = true → hasValidApiKey cfg req = true := by
    intro hm
    unfold mount at hpass
    rw [if_pos hm] at hpass
    exact (hasValidApiKey_iff cfg req).mpr (validateApiKey_pass cfg req now rl₀ hpass)
  constructor
  · unfold mount
    by_cases hm : mountedAt "/api/auth" req.path = true
    · rw [if_pos hm]
      have := hkey (mountedAt_api_of_sub _ (Or.inl hm))
      simp [authRateLimit, createRateLimitMiddleware, this]
    · rw [if_neg hm]
  · unfold mount
    by_cases hm : mountedAt "/api/upload" req.path = true
    · rw [if_pos hm]
      have := hkey (mountedAt_api_of_sub _ (Or.inr hm))
      simp [uploadRateLimit, createRateLimitMiddleware, this]
    · rw [if_neg hm]

theorem mount_limiter_validateApiKey (cfg : Config) (req : Request) (now : Int) (rl : RateLimiter) :
    (mount "/api" (validateApiKey cfg) req now rl).limiter = rl := by
  unfold mount
  split
  · exact validateApiKey_limiter cfg req now rl
  · rfl

theorem mount_response_indep_validateApiKey (cfg : Config) (req : Request) (now : Int) (rl rl' : RateLimiter) :
    (mount "/api" (validateApiKey cfg) req now rl).response
      = (mount "/api" (validateApiKey cfg) req now rl').response := by
  unfold mount
  split
  · exact validateApiKey_response_indep cfg req now now rl rl'
  · rfl

theorem mount_validateOrigin (cfg : Config) (req : Request) (now : Int) (rl rl' : RateLimiter) :
    (mount "/api" (validateOrigin cfg) req now rl).limiter = rl
    ∧ (mount "/api" (validateOrigin cfg) req now rl).response
      = (mount "/api" (validateOrigin cfg) req now rl').response := by
  unfold mount
  split
  · exact ⟨(validateOrigin_cases cfg req now rl).2.1, ((validateOrigin_cases cfg req now rl').2.2 now rl)⟩
  · exact ⟨rfl, rfl⟩

/-- The answer of the chain is the first rejection among its checks, taken in mounting
order and each evaluated on the limiter the request found. -/
theorem admission_response (cfg : Config) (thirdParty : Request → Option Response)
    (req : Request) (now : Int) (rl : RateLimiter) :
    (admission cfg thirdParty req now rl).response
      = firstRejection [
          (requestSizeLimit { req with body := JsValue.undefined } now rl).response,
          (validateRequest { req with body := JsValue.undefined } now rl).response,
          thirdParty req,
          (generalRateLimit cfg req now rl).response,
          (mount "/api" (validateApiKey cfg) req now rl).response,
          (mount "/api" (validateOrigin cfg) req now rl).response] := by
  unfold admission
  simp only [runChain_cons_response, beforeBodyParsers, securityLogger, securityHeaders,
    requestSizeLimit_limiter, validateRequest_limiter, external, speedLimiter_eq_next, next]
  cases h₁ : (requestSizeLimit { req with body := JsValue.undefined } now rl).response with
  | some r => simp [firstRejection]
  | none =>
    cases h₂ : (validateRequest { req with body := JsValue.undefined } now rl).response with
    | some r => simp [firstRejection]
    | none =>
      cases h₃ : thirdParty req with
      | some r => simp [firstRejection]
      | none =>
        cases h₄ : (generalRateLimit cfg req now rl).response with
        | some r => simp [firstRejection]
        | none =>
          simp only [firstRejection, mount_limiter_validateApiKey]
          rw [mount_response_indep_validateApiKey cfg req now _ rl]
          cases h₅ : (mount "/api" (validateApiKey cfg) req now rl).response with
          | some r => simp [firstRejection]
          | none =>
            simp only [(mount_validateOrigin cfg req now _ rl).1]
            rw [(mount_validateOrigin cfg req now _ rl).2]
            cases h₆ : (mount "/api" (validateOrigin cfg) req now rl).response with
            | some r => simp [firstRejection]
            | none =>
              simp only [(class_limiters_skip cfg req now rl _ h₅).1,
                (class_limiters_skip cfg req now rl _ h₅).2, runChain, next, firstRejection]

/-! ## Facts about the risk classification -/

/-- The level that the thresholds of `calculateRiskLevel` give to a count. -/
theorem calculateRiskLevel_of_count (env : Env) (db : List SecurityLog) (ipAddress : String)
    (timeWindow now : Int) (hok : env.countFails = false) :
    calculateRiskLevel env db ipAddress timeWindow now
      = if countDocuments db ipAddress (now - timeWindow) ≥ 50 then RiskLevel.critical
        else if countDocuments db ipAddress (now - timeWindow) ≥ 20 then RiskLevel.high
        else if countDocuments db ipAddress (now - timeWindow) ≥ 10 then RiskLevel.medium
        else RiskLevel.low := by
  simp only [calculateRiskLevel, hok, Bool.false_eq_true, if_false]

theorem RiskLevel.le_def (a b : RiskLevel) : a ≤ b ↔ a.rank ≤ b.rank := Iff.rfl

/-! ## Facts about the recorder -/

/-- The validation of the document of `logSecurityEvent` depends on the request and the
call only. -/
theorem validates_newSecurityLog (env : Env) (req : Request) (call : LogCall)
    (riskLevel : RiskLevel) (now : Int) :
    (newSecurityLog env req call riskLevel now).validates = recordable req call := by
  have hip : ipAddressOf req ≠ "" := by
    unfold ipAddressOf
    split
    · assumption
    · decide
  have hua : (jsOr (req.get "User-Agent") (some "unknown")).getD "unknown" ≠ "" := by
    unfold jsOr
    by_cases ht : truthy (req.get "User-Agent") = true
    · rw [if_pos ht]
      obtain ⟨s, hs, hne⟩ := (truthy_eq_true_iff _).mp ht
      rw [hs]; exact hne
    · rw [if_neg ht]; decide
  simp only [SecurityLog.validates, recordable, newSecurityLog, hip, hua, ne_eq,
    not_false_eq_true, decide_True, Bool.true_and]

/-- With a store that accepts the write, a recordable violation is appended with the level
computed before the write, and the block step runs for `high` and `critical`. -/
theorem logSecurityEvent_saved (env : Env) (db : List SecurityLog) (req : Request)
    (call : LogCall) (now : Int) (hsave : env.saveFails = false)
    (hrec : recordable req call = true) :
    logSecurityEvent env db req call now
      = if calculateRiskLevel env db (ipAddressOf req) defaultTimeWindow now
            = RiskLevel.critical
          ∨ calculateRiskLevel env db (ipAddressOf req) defaultTimeWindow now
            = RiskLevel.high
        then checkAndBlockIP env
          (db ++ [newSecurityLog env req call
            (calculateRiskLevel env db (ipAddressOf req) defaultTimeWindow now) now])
          (ipAddressOf req) now
        else db ++ [newSecurityLog env req call
            (calculateRiskLevel env db (ipAddressOf req) defaultTimeWindow now) now] := by
  simp only [logSecurityEvent, validates_newSecurityLog, hsave, hrec, Bool.not_true,
    Bool.or_self, Bool.false_eq_true, if_false]

theorem updateMany_length (db : List SecurityLog) (filter : SecurityLog → Bool)
    (isBlocked : Bool) (now : Int) : (updateMany db filter isBlocked now).length = db.length := by
  simp [updateMany]

theorem checkAndBlockIP_length (env : Env) (db : List SecurityLog) (ipAddress : String)
    (now : Int) : (checkAndBlockIP env db ipAddress now).length = db.length := by
  unfold checkAndBlockIP
  split
  · rfl
  · exact updateMany_length _ _ _ _

/-- The bulk update keeps the risk level of every document, hence of the last one. -/
theorem updateMany_getLast_riskLevel (db : List SecurityLog) (filter : SecurityLog → Bool)
    (isBlocked : Bool) (now : Int) :
    (updateMany db filter isBlocked now).getLast?.map (fun doc => doc.riskLevel)
      = db.getLast?.map (fun doc => doc.riskLevel) := by
  unfold updateMany
  rw [List.getLast?_map]
  cases db.getLast? with
  | none => rfl
  | some doc =>
    simp only [Option.map_some']
    split <;> rfl

theorem checkAndBlockIP_getLast_riskLevel (env : Env) (db : List SecurityLog)
    (ipAddress : String) (now : Int) :
    (checkAndBlockIP env db ipAddress now).getLast?.map (fun doc => doc.riskLevel)
      = db.getLast?.map (fun doc => doc.riskLevel) := by
  unfold checkAndBlockIP
  split
  · rfl
  · exact updateMany_getLast_riskLevel _ _ _ _

/-! ## Facts about a run of violations of one address -/

theorem countDocuments_le_eventsOf (db : List SecurityLog) (ipAddress : String) (since : Int) :
    countDocuments db ipAddress since ≤ (eventsOf db ipAddress).length := by
  unfold countDocuments eventsOf
  induction db with
  | nil => simp
  | cons doc rest ih =>
    simp only [List.filter_cons, recentFrom]
    by_cases h₁ : doc.ipAddress = ipAddress
    · by_cases h₂ : doc.timestamp ≥ since
      · simp only [h₁, h₂, decide_True, Bool.and_self, if_true, List.length_cons]
        simp only [recentFrom] at ih
        omega
      · simp only [h₁, h₂, decide_True, decide_False, Bool.and_false, Bool.false_eq_true,
          if_false, if_true, List.length_cons]
        simp only [recentFrom] at ih
        omega
    · simp only [h₁, decide_False, Bool.false_and, Bool.false_eq_true, if_false]
      simpa only [recentFrom] using ih

/-- When every event of the address is inside the window, the count query counts them
all. -/
theorem countDocuments_eq_eventsOf (db : List SecurityLog) (ipAddress : String) (since : Int)
    (h : ∀ doc ∈ db, doc.ipAddress = ipAddress → since ≤ doc.timestamp) :
    countDocuments db ipAddress since = (eventsOf db ipAddress).length := by
  unfold countDocuments eventsOf
  congr 1
  apply List.filter_congr
  intro doc hdoc
  unfold recentFrom
  by_cases h₁ : doc.ipAddress = ipAddress
  · have := h doc hdoc h₁
    simp [h₁, this]
  · simp [h₁]

/-- Below twenty events a further violation is stored without the block step. -/
theorem runInvariant_step (env : Env) (db : List SecurityLog) (ipAddress : String)
    (start : Int) (k : Nat) (req : Request) (call : LogCall) (now : Int)
    (hcount : env.countFails = false) (hsave : env.saveFails = false)
    (hrec : recordable req call = true) (haddr : ipAddressOf req = ipAddress)
    (hnow : start ≤ now) (hk : k < 20) (hinv : runInvariant db ipAddress start k) :
    runInvariant (logSecurityEvent env db req call now) ipAddress start (k + 1) := by
  obtain ⟨hlen, hstart, hfree⟩ := hinv
  have hle := countDocuments_le_eventsOf db ipAddress (now - defaultTimeWindow)
  have hlevel := calculateRiskLevel_of_count env db ipAddress defaultTimeWindow now hcount
  rw [if_neg (by omega), if_neg (by omega)] at hlevel
  have hnoblock : ¬ (calculateRiskLevel env db ipAddress defaultTimeWindow now
        = RiskLevel.critical
      ∨ calculateRiskLevel env db ipAddress defaultTimeWindow now = RiskLevel.high) := by
    rw [hlevel]
    split <;> simp
  rw [logSecurityEvent_saved env db req call now hsave hrec, haddr, if_neg hnoblock]
  refine ⟨?_, ?_, ?_⟩
  · unfold eventsOf at hlen ⊢
    rw [List.filter_append, List.length_append, hlen]
    simp [newSecurityLog, haddr]
  · intro doc hdoc hip
    rcases List.mem_append.mp hdoc with h | h
    · exact hstart doc h hip
    · rw [List.mem_singleton] at h
      rw [h]; exact hnow
  · intro doc hdoc hip
    rcases List.mem_append.mp hdoc with h | h
    · exact hfree doc h hip
    · rw [List.mem_singleton] at h
      rw [h]; rfl

/-- A run of violations that stays within twenty events keeps the invariant. -/
theorem runInvariant_logAll (env : Env) (ipAddress : String) (start : Int)
    (hcount : env.countFails = false) (hsave : env.saveFails = false) :
    ∀ (calls : List (Request × LogCall × Int)) (db : List SecurityLog) (k : Nat),
      k + calls.length ≤ 20 →
      (∀ c ∈ calls, recordable c.1 c.2.1 = true ∧ ipAddressOf c.1 = ipAddress
        ∧ start ≤ c.2.2) →
      runInvariant db ipAddress start k →
      runInvariant (logAll env db calls) ipAddress start (k + calls.length) := by
  intro calls
  induction calls with
  | nil => intro db k _ _ hinv; simpa [logAll] using hinv
  | cons c later ih =>
    intro db k hk hcalls hinv
    obtain ⟨req, call, now⟩ := c
    obtain ⟨hrec, haddr, hnow⟩ := hcalls (req, call, now) (List.mem_cons_self _ _)
    simp only [List.length_cons] at hk ⊢
    have hstep := runInvariant_step env db ipAddress start k req call now hcount hsave hrec
      haddr hnow (by omega) hinv
    have := ih (logSecurityEvent env db req call now) (k + 1) (by omega)
      (fun c hc => hcalls c (List.mem_cons_of_mem _ hc)) hstep
    simp only [logAll]
    rw [show k + (later.length + 1) = k + 1 + later.length by omega]
    exact this

theorem logAll_append (env : Env) :
    ∀ (calls₁ calls₂ : List (Request × LogCall × Int)) (db : List SecurityLog),
      logAll env db (calls₁ ++ calls₂) = logAll env (logAll env db calls₁) calls₂ := by
  intro calls₁
  induction calls₁ with
  | nil => intro calls₂ db; rfl
  | cons c later ih =>
    intro calls₂ db
    obtain ⟨req, call, now⟩ := c
    simp only [List.cons_append, logAll]
    exact ih calls₂ _

/-! ## Facts about the payload check -/

mutual
/-- `checkForSuspiciousContent` finds a match exactly when one of the string values inside
the objects and arrays of the value matches a pattern. -/
theorem checkForSuspiciousContent_eq : ∀ v : JsValue,
    checkForSuspiciousContent v = (stringValues v).any matchesSuspiciousPattern
  | .arr items => by
    rw [checkForSuspiciousContent, stringValues]; exact checkItems_eq items
  | .obj fields => by
    rw [checkForSuspiciousContent, stringValues]; exact checkFields_eq fields
  | .undefined => by simp [checkForSuspiciousContent, stringValues]
  | .null => by simp [checkForSuspiciousContent, stringValues]
  | .bool _ => by simp [checkForSuspiciousContent, stringValues]
  | .num _ => by simp [checkForSuspiciousContent, stringValues]
  | .str _ => by simp [checkForSuspiciousContent, stringValues]
theorem checkItems_eq : ∀ items : List JsValue,
    checkItems items = (stringValuesOfItems items).any matchesSuspiciousPattern
  | [] => by simp [checkItems, stringValuesOfItems]
  | .str s :: rest => by
    rw [checkItems, stringValuesOfItems, List.any_cons, checkItems_eq rest]
  | .arr xs :: rest => by
    rw [checkItems, stringValuesOfItems, List.any_append, checkItems_eq rest,
      checkForSuspiciousContent_eq (.arr xs)]
    all_goals (intros; simp_all)
  | .obj fs :: rest => by
    rw [checkItems, stringValuesOfItems, List.any_append, checkItems_eq rest,
      checkForSuspiciousContent_eq (.obj fs)]
    all_goals (intros; simp_all)
  | .undefined :: rest => by
    rw [checkItems, stringValuesOfItems, List.any_append, checkItems_eq rest,
      checkForSuspiciousContent_eq .undefined]
    all_goals (intros; simp_all)
  | .null :: rest => by
    rw [checkItems, stringValuesOfItems, List.any_append, checkItems_eq rest,
      checkForSuspiciousContent_eq .null]
    all_goals (intros; simp_all)
  | .bool b :: rest => by
    rw [checkItems, stringValuesOfItems, List.any_append, checkItems_eq rest,
      checkForSuspiciousContent_eq (.bool b)]
    all_goals (intros; simp_all)
  | .num n :: rest => by
    rw [checkItems, stringValuesOfItems, List.any_append, checkItems_eq rest,
      checkForSuspiciousContent_eq (.num n)]
    all_goals (intros; simp_all)
theorem checkFields_eq : ∀ fields : List (String × JsValue),
    checkFields fields = (stringValuesOfFields fields).any matchesSuspiciousPattern
  | [] => by simp [checkFields, stringValuesOfFields]
  | (_, .str s) :: rest => by
    rw [checkFields, stringValuesOfFields, List.any_cons, checkFields_eq rest]
  | (_, .arr xs) :: rest => by
    rw [checkFields, stringValuesOfFields, List.any_append, checkFields_eq rest,
      checkForSuspiciousContent_eq (.arr xs)]
    all_goals (intros; simp_all)
  | (_, .obj fs) :: rest => by
    rw [checkFields, stringValuesOfFields, List.any_append, checkFields_eq rest,
      checkForSuspiciousContent_eq (.obj fs)]
    all_goals (intros; simp_all)
  | (_, .undefined) :: rest => by
    rw [checkFields, stringValuesOfFields, List.any_append, checkFields_eq rest,
      checkForSuspiciousContent_eq .undefined]
    all_goals (intros; simp_all)
  | (_, .null) :: rest => by
    rw [checkFields, stringValuesOfFields, List.any_append, checkFields_eq rest,
      checkForSuspiciousContent_eq .null]
    all_goals (intros; simp_all)
  | (_, .bool b) :: rest => by
    rw [checkFields, stringValuesOfFields, List.any_append, checkFields_eq rest,
      checkForSuspiciousContent_eq (.bool b)]
    all_goals (intros; simp_all)
  | (_, .num n) :: rest => by
    rw [checkFields, stringValuesOfFields, List.any_append, checkFields_eq rest,
      checkForSuspiciousContent_eq (.num n)]
    all_goals (intros; simp_all)
end

/-- Some tail of a list starts with `p` exactly when `p` occurs in the list. -/
theorem any_tails_isPrefixOf (p l : List Char) :
    l.tails.any (fun t => p.isPrefixOf t) = true ↔ p <:+: l := by
  rw [List.any_eq_true]
  constructor
  · rintro ⟨t, ht, hp⟩
    rw [List.mem_tails] at ht
    rw [List.isPrefixOf_iff_prefix] at hp
    exact List.infix_iff_prefix_suffix.mpr ⟨t, hp, ht⟩
  · intro h
    obtain ⟨t, hp, ht⟩ := List.infix_iff_prefix_suffix.mp h
    exact ⟨t, (List.mem_tails _ _).mpr ht, List.isPrefixOf_iff_prefix.mpr hp⟩

/-- A literal pattern with the flag `i` matches exactly when it occurs in the string put in
lower case. -/
theorem testLiteral_iff (lit s : String) :
    testLiteral lit s = true ↔ lit.data <:+: s.data.map Char.toLower := by
  unfold testLiteral
  exact any_tails_isPrefixOf _ _

/-- No white-space character is a word character. -/
theorem not_word_of_space (c : Char) (h : isJsWhiteSpace c = true) : isWordChar c = false := by
  unfold isJsWhiteSpace at h
  unfold isWordChar
  simp only [Bool.or_eq_true, Bool.and_eq_true, decide_eq_true_eq, beq_iff_eq] at h
  simp only [Bool.or_eq_false_iff, Bool.and_eq_false_iff, decide_eq_false_iff_not,
    beq_eq_false_iff_ne]
  omega

/-- The pattern `/on\w+\s*=/i` matches exactly when the string in lower case contains `on`, a
non-empty run of word characters, a run of white space and `=`, in this order. -/
theorem testEventHandler_iff (s : String) :
    testEventHandler s = true ↔
      ∃ pre w sp post, s.data.map Char.toLower = pre ++ ['o', 'n'] ++ w ++ sp ++ ['='] ++ post
        ∧ w ≠ [] ∧ (∀ c ∈ w, isWordChar c = true) ∧ (∀ c ∈ sp, isJsWhiteSpace c = true) := by
  unfold testEventHandler
  rw [List.any_eq_true]
  constructor
  · rintro ⟨t, ht, hcond⟩
    rw [List.mem_tails] at ht
    obtain ⟨pre, hpre⟩ := ht
    simp only [Bool.and_eq_true, decide_eq_true_eq, beq_iff_eq] at hcond
    obtain ⟨hon, hlen, hhead⟩ := hcond
    rw [List.isPrefixOf_iff_prefix] at hon
    obtain ⟨afterOn, hafter⟩ := hon
    have hdrop : t.drop 2 = afterOn := by rw [← hafter]; rfl
    rw [hdrop] at hlen hhead
    refine ⟨pre, afterOn.takeWhile isWordChar,
      (afterOn.dropWhile isWordChar).takeWhile isJsWhiteSpace,
      ((afterOn.dropWhile isWordChar).dropWhile isJsWhiteSpace).tail, ?_, ?_, ?_, ?_⟩
    · have h₁ : (afterOn.dropWhile isWordChar).dropWhile isJsWhiteSpace
          = '=' :: ((afterOn.dropWhile isWordChar).dropWhile isJsWhiteSpace).tail := by
        cases hd : (afterOn.dropWhile isWordChar).dropWhile isJsWhiteSpace with
        | nil => rw [hd] at hhead; simp at hhead
        | cons c cs => rw [hd] at hhead; simp at hhead; simp [hhead]
      rw [← hpre, ← hafter]
      simp only [List.append_assoc, List.cons_append, List.nil_append]
      congr 3
      conv_lhs => rw [← List.takeWhile_append_dropWhile isWordChar afterOn]
      congr 1
      conv_lhs =>
        rw [← List.takeWhile_append_dropWhile isJsWhiteSpace (afterOn.dropWhile isWordChar)]
      congr 1
    · intro hnil
      have := List.takeWhile_append_dropWhile isWordChar afterOn
      rw [hnil, List.nil_append] at this
      rw [this] at hlen
      exact lt_irrefl _ hlen
    · intro c hc
      exact List.mem_takeWhile_imp hc
    · intro c hc
      exact List.mem_takeWhile_imp hc
  · rintro ⟨pre, w, sp, post, hs, hw, hword, hsp⟩
    refine ⟨['o', 'n'] ++ w ++ sp ++ ['='] ++ post, ?_, ?_⟩
    · rw [List.mem_tails, hs]
      exact ⟨pre, by simp⟩
    · have hstop : ∀ (l : List Char), (∀ c ∈ l, isJsWhiteSpace c = true) →
          (l ++ '=' :: post).dropWhile isWordChar = l ++ '=' :: post := by
        intro l hl
        cases l with
        | nil => simp [List.dropWhile, isWordChar]
        | cons c cs =>
          have := not_word_of_space c (hl c (List.mem_cons_self _ _))
          simp [List.dropWhile, this]
      have hdw : (w ++ sp ++ ['='] ++ post).dropWhile isWordChar = sp ++ '=' :: post := by
        have : w ++ sp ++ ['='] ++ post = w ++ (sp ++ '=' :: post) := by simp
        rw [this, List.dropWhile_append_of_pos hword, hstop sp hsp]
      have hds : (sp ++ '=' :: post).dropWhile isJsWhiteSpace = '=' :: post := by
        rw [List.dropWhile_append_of_pos hsp]
        simp [List.dropWhile, isJsWhiteSpace]
      have hdrop : (['o', 'n'] ++ w ++ sp ++ ['='] ++ post).drop 2
          = w ++ sp ++ ['='] ++ post := by
        simp
      simp only [Bool.and_eq_true, decide_eq_true_eq, beq_iff_eq]
      rw [hdrop, hdw, hds]
      refine ⟨?_, ?_, rfl⟩
      · rw [List.isPrefixOf_iff_prefix]
        exact ⟨w ++ sp ++ ['='] ++ post, by simp⟩
      · have : w.length > 0 := List.length_pos.mpr hw
        simp only [List.length_append, List.length_cons, List.length_nil]
        omega

/-- As a function of `req.body` and `req.query`, `validateRequest` answers 400 with a
`suspicious_content` event exactly when a string value inside them matches a pattern, and
calls `next()` otherwise. -/
theorem validateRequest_rejects_iff (req : Request) (now : Int) (rl : RateLimiter) :
    ((validateRequest req now rl).summary = (some 400, [("suspicious_content", 400)])
      ↔ ∃ s ∈ stringValues req.body ++ stringValues req.query,
          matchesSuspiciousPattern s = true)
    ∧ ((validateRequest req now rl).summary ≠ (some 400, [("suspicious_content", 400)]) →
        validateRequest req now rl = next rl) := by
  have hany : (checkForSuspiciousContent req.body || checkForSuspiciousContent req.query) = true
      ↔ ∃ s ∈ stringValues req.body ++ stringValues req.query,
          matchesSuspiciousPattern s = true := by
    rw [checkForSuspiciousContent_eq, checkForSuspiciousContent_eq, ← List.any_append,
      List.any_eq_true]
  unfold validateRequest
  by_cases h : (checkForSuspiciousContent req.body || checkForSuspiciousContent req.query) = true
  · rw [if_pos h]
    refine ⟨⟨fun _ => hany.mp h, fun _ => rfl⟩, fun hne => absurd rfl hne⟩
  · rw [if_neg h]
    refine ⟨⟨fun hs => ?_, fun hex => absurd (hany.mpr hex) h⟩, fun _ => rfl⟩
    simp [Outcome.summary, next] at hs

/-! ## Facts about the `retryAfter` hint -/

/-- A response of a key-exempt limiter is a response of `createRateLimit`. -/
theorem createRateLimitMiddleware_response (cfg : Config) (w m : Int) (msg : String)
    (req : Request) (now : Int) (rl : RateLimiter) (r : Response)
    (h : (createRateLimitMiddleware cfg w m msg req now rl).response = some r) :
    (createRateLimit w m msg req now rl).response = some r := by
  unfold createRateLimitMiddleware at h
  split at h
  · simp [next] at h
  · exact h

theorem createRateLimit_retryAfter (w m : Int) (msg : String) (req : Request) (now : Int)
    (rl : RateLimiter) (r : Response)
    (h : (createRateLimit w m msg req now rl).response = some r) :
    r.status = 429 ∧ r.retryAfter = some (roundSeconds w) := by
  rw [createRateLimit_response] at h
  split at h
  · simp at h
  · simp only [Option.some.injEq] at h
    rw [← h]
    exact ⟨rfl, rfl⟩

/-! ## Facts about the body sanitization -/

/-- One round of the loop of `sanitizeRequestBody`, seen through lookups. -/
theorem get_redactField (sanitized : JsMap JsValue) (field name : String) :
    JsMap.get (redactField sanitized field) name
      = if name = field then (JsMap.get sanitized field).map redactJs
        else JsMap.get sanitized name := by
  unfold redactField
  by_cases hn : name = field
  · subst hn
    rw [if_pos rfl]
    cases hv : JsMap.get sanitized name with
    | none => simp [JsValue.truthy, hv]
    | some v =>
      by_cases ht : v.truthy = true
      · simp [ht, redactJs, JsMap.get_set_self]
      · simp [ht, redactJs, hv]
  · rw [if_neg hn]
    split
    · rw [JsMap.get_set_other _ _ _ _ hn]
    · rfl

theorem redactJs_idem (o : Option JsValue) :
    (o.map redactJs).map redactJs = o.map redactJs := by
  cases o with
  | none => rfl
  | some v =>
    have hmark : (JsValue.str "[REDACTED]").truthy = true := by decide
    by_cases ht : v.truthy = true
    · simp only [Option.map_some', redactJs, ht, if_true, hmark]
    · simp only [Option.map_some', redactJs, ht, if_false, Bool.false_eq_true]

/-- Lookups after the loop of `sanitizeRequestBody`: a sensitive field has its truthy value
replaced by the marker, every other field keeps its value. -/
theorem get_redacted_fields (fields : JsMap JsValue) (name : String) :
    JsMap.get (sensitiveFields.foldl redactField fields) name
      = if name ∈ sensitiveFields then (JsMap.get fields name).map redactJs
        else JsMap.get fields name := by
  simp only [sensitiveFields, List.foldl, get_redactField]
  by_cases h₁ : name = "password"
  · subst h₁; simp [redactJs_idem]
  · by_cases h₂ : name = "token"
    · subst h₂; simp [redactJs_idem]
    · by_cases h₃ : name = "secret"
      · subst h₃; simp [redactJs_idem]
      · by_cases h₄ : name = "key"
        · subst h₄; simp [redactJs_idem]
        · by_cases h₅ : name = "authorization"
          · subst h₅; simp [redactJs_idem]
          · by_cases h₆ : name = "cookie"
            · subst h₆; simp [redactJs_idem]
            · simp [h₁, h₂, h₃, h₄, h₅, h₆]

/-- The two results of `sanitizeRequestBody` for an object. -/
theorem sanitizeRequestBody_obj (fields : JsMap JsValue) :
    sanitizeRequestBody (JsValue.obj fields)
      = if utf16Length (jsonStringify (JsValue.obj (sensitiveFields.foldl redactField fields)))
            > 1000 then
          JsValue.obj
            (JsMap.set
              (JsMap.set (sensitiveFields.foldl redactField fields) "_truncated"
                (JsValue.bool true))
              "_originalSize"
              (JsValue.num (utf16Length
                (jsonStringify (JsValue.obj (sensitiveFields.foldl redactField fields))))))
        else JsValue.obj (sensitiveFields.foldl redactField fields) := by
  simp only [sanitizeRequestBody, JsValue.truthy, JsValue.isObject, spread, Bool.not_true,
    Bool.or_self, Bool.false_eq_true, if_false]

/-- Writing the value a key already has changes nothing. -/
theorem JsMap.set_eq_self {β : Type} (m : JsMap β) (k : String) (v : β)
    (h : JsMap.get m k = some v) : JsMap.set m k v = m := by
  induction m with
  | nil => simp [JsMap.get] at h
  | cons e rest ih =>
    obtain ⟨k', v'⟩ := e
    by_cases hk : k' = k
    · simp only [JsMap.get, hk, if_true, Option.some.injEq] at h
      simp [JsMap.set, hk, h]
    · simp only [JsMap.get, hk, if_false] at h
      simp [JsMap.set, hk, ih h]

/-- A round of the header loop changes nothing when the header is absent, empty or already
the marker. -/
theorem redactStep_fixed (s : JsMap String) (header : String)
    (hfix : ∀ v, JsMap.get s header = some v → v ≠ "" → v = "[REDACTED]") :
    redactStep s header = s := by
  unfold redactStep
  by_cases ht : truthy (JsMap.get s header) = true
  · rw [if_pos ht]
    obtain ⟨v, hv, hne⟩ := (truthy_eq_true_iff _).mp ht
    have := hfix v hv hne
    rw [this] at hv
    exact JsMap.set_eq_self s header _ hv
  · rw [if_neg ht]

/-- Sanitizing headers twice is sanitizing them once. -/
theorem sanitizeHeaders_idempotent (headers : JsMap String) :
    sanitizeHeaders (sanitizeHeaders headers) = sanitizeHeaders headers := by
  have hfix : ∀ header ∈ ["authorization", "cookie", "x-api-key", "x-auth-token"],
      ∀ v, JsMap.get (sanitizeHeaders headers) header = some v → v ≠ "" →
        v = "[REDACTED]" := by
    intro header hmem v hv hne
    rw [get_sanitizeHeaders, if_pos hmem] at hv
    cases hg : JsMap.get headers header with
    | none => rw [hg] at hv; simp at hv
    | some v₀ =>
      rw [hg] at hv
      simp only [Option.map_some', Option.some.injEq] at hv
      unfold redactValue at hv
      by_cases he : v₀ = ""
      · rw [if_neg (by simpa using he)] at hv
        rw [← hv] at hne
        exact absurd he hne
      · rw [if_pos he] at hv
        exact hv.symm
  conv_lhs => rw [sanitizeHeaders_eq]
  rw [redactStep_fixed _ "authorization" (hfix _ (by simp)),
    redactStep_fixed _ "cookie" (hfix _ (by simp)),
    redactStep_fixed _ "x-api-key" (hfix _ (by simp)),
    redactStep_fixed _ "x-auth-token" (hfix _ (by simp))]

/-- A round of the body loop changes nothing when the field is absent, falsy or already
the marker. -/
theorem redactField_fixed (s : JsMap JsValue) (field : String)
    (hfix : ∀ v, JsMap.get s field = some v → v.truthy = true → v = JsValue.str "[REDACTED]") :
    redactField s field = s := by
  unfold redactField
  cases hg : JsMap.get s field with
  | none => simp [JsValue.truthy]
  | some v =>
    by_cases ht : v.truthy = true
    · have := hfix v hg ht
      rw [this] at hg
      simp only [Option.getD_some, ht, if_true]
      exact JsMap.set_eq_self s field _ hg
    · simp [ht]

/-- The loop of `sanitizeRequestBody` changes nothing when run a second time. -/
theorem redacted_fields_fixed (fields : JsMap JsValue) :
    sensitiveFields.foldl redactField (sensitiveFields.foldl redactField fields)
      = sensitiveFields.foldl redactField fields := by
  have hfix : ∀ field ∈ sensitiveFields, ∀ v,
      JsMap.get (sensitiveFields.foldl redactField fields) field = some v →
      v.truthy = true → v = JsValue.str "[REDACTED]" := by
    intro field hmem v hv ht
    rw [get_redacted_fields, if_pos hmem] at hv
    cases hg : JsMap.get fields field with
    | none => rw [hg] at hv; simp at hv
    | some v₀ =>
      rw [hg] at hv
      simp only [Option.map_some', Option.some.injEq] at hv
      unfold redactJs at hv
      by_cases h₀ : v₀.truthy = true
      · rw [if_pos h₀] at hv
        exact hv.symm
      · rw [if_neg h₀] at hv
        rw [← hv] at ht
        exact absurd ht h₀
  generalize hS : sensitiveFields.foldl redactField fields = S at hfix ⊢
  simp only [sensitiveFields, List.foldl]
  rw [redactField_fixed S "password" (hfix _ (by simp [sensitiveFields])),
    redactField_fixed S "token" (hfix _ (by simp [sensitiveFields])),
    redactField_fixed S "secret" (hfix _ (by simp [sensitiveFields])),
    redactField_fixed S "key" (hfix _ (by simp [sensitiveFields])),
    redactField_fixed S "authorization" (hfix _ (by simp [sensitiveFields])),
    redactField_fixed S "cookie" (hfix _ (by simp [sensitiveFields]))]

/-- Sanitizing a body twice is sanitizing it once when its redacted serialization has at
most 1000 characters. -/
theorem sanitizeRequestBody_idempotent_of_small (body : JsValue)
    (hsmall : utf16Length (jsonStringify
      (JsValue.obj (sensitiveFields.foldl redactField (spread body)))) ≤ 1000) :
    sanitizeRequestBody (sanitizeRequestBody body) = sanitizeRequestBody body := by
  have hnot : ¬ utf16Length (jsonStringify
      (JsValue.obj (sensitiveFields.foldl redactField (spread body)))) > 1000 := by omega
  have hfirst : sanitizeRequestBody body = JsValue.null
      ∨ sanitizeRequestBody body
        = JsValue.obj (sensitiveFields.foldl redactField (spread body)) := by
    unfold sanitizeRequestBody
    split
    · exact Or.inl rfl
    · right
      simp only [if_neg hnot]
  rcases hfirst with h | h
  · rw [h]; rfl
  · rw [h, sanitizeRequestBody_obj, redacted_fields_fixed]
    have hspread : spread (JsValue.obj (sensitiveFields.foldl redactField (spread body)))
        = sensitiveFields.foldl redactField (spread body) := rfl
    rw [if_neg hnot]

/-! ## Facts about `cleanup` -/

namespace JsMap

variable {β : Type}

theorem get_eq_none_iff (m : JsMap β) (k : String) : get m k = none ↔ k ∉ keys m := by
  induction m with
  | nil => simp [get, keys]
  | cons e rest ih =>
    obtain ⟨k', v⟩ := e
    by_cases h : k' = k
    · simp [get, keys, h]
    · have h' : ¬ k = k' := fun e => h e.symm
      simp only [get, h, if_false, ih, keys, List.map_cons, List.mem_cons, h', false_or]

theorem get_delete_other (m : JsMap β) (k k' : String) (h : k' ≠ k) :
    get (delete m k) k' = get m k' := by
  induction m with
  | nil => rfl
  | cons e rest ih =>
    obtain ⟨k₀, v₀⟩ := e
    by_cases h₀ : k₀ = k
    · subst h₀
      have h' : ¬ k₀ = k' := fun e => h e.symm
      simp [delete, get, h']
    · by_cases h₁ : k₀ = k'
      · subst h₁
        simp [delete, get, h₀]
      · simp [delete, get, h₀, h₁, ih]

theorem get_delete_self (m : JsMap β) (k : String) (hwf : (keys m).Nodup) :
    get (delete m k) k = none := by
  induction m with
  | nil => rfl
  | cons e rest ih =>
    obtain ⟨k₀, v₀⟩ := e
    simp only [keys, List.map_cons, List.nodup_cons] at hwf
    by_cases h₀ : k₀ = k
    · subst h₀
      simp only [delete, if_true]
      exact (get_eq_none_iff rest k₀).mpr hwf.1
    · simp only [delete, h₀, if_false, get]
      exact ih hwf.2

theorem keys_delete_sublist (m : JsMap β) (k : String) : (keys (delete m k)).Sublist (keys m) := by
  induction m with
  | nil => simp [delete, keys]
  | cons e rest ih =>
    obtain ⟨k₀, v₀⟩ := e
    by_cases h₀ : k₀ = k
    · simp only [delete, h₀, if_true, keys, List.map_cons]
      exact List.sublist_cons_self _ _
    · simp only [delete, h₀, if_false, keys, List.map_cons]
      exact List.Sublist.cons₂ _ ih

theorem nodup_keys_delete (m : JsMap β) (k : String) (hwf : (keys m).Nodup) :
    (keys (delete m k)).Nodup :=
  List.Nodup.sublist (keys_delete_sublist m k) hwf

theorem mem_keys_set (m : JsMap β) (k : String) (v : β) (k' : String) :
    k' ∈ keys (set m k v) ↔ k' ∈ keys m ∨ k' = k := by
  induction m with
  | nil => simp [set, keys]
  | cons e rest ih =>
    obtain ⟨k₀, v₀⟩ := e
    by_cases h₀ : k₀ = k
    · subst h₀
      simp only [set, if_true, keys, List.map_cons, List.mem_cons]
      tauto
    · simp only [set, h₀, if_false, keys, List.map_cons, List.mem_cons]
      simp only [keys] at ih
      rw [ih]
      tauto

theorem nodup_keys_set (m : JsMap β) (k : String) (v : β) (hwf : (keys m).Nodup) :
    (keys (set m k v)).Nodup := by
  induction m with
  | nil => simp [set, keys]
  | cons e rest ih =>
    obtain ⟨k₀, v₀⟩ := e
    have hwf' := hwf
    simp only [keys, List.map_cons, List.nodup_cons] at hwf'
    by_cases h₀ : k₀ = k
    · simpa [set, h₀, keys] using hwf
    · simp only [set, h₀, if_false, keys, List.map_cons, List.nodup_cons]
      refine ⟨?_, ih hwf'.2⟩
      intro hmem
      have := (mem_keys_set rest k v k₀).mp hmem
      rcases this with h | h
      · exact hwf'.1 h
      · exact h₀ h

end JsMap

namespace RateLimiter

theorem cleanup_eq (rl : RateLimiter) (now : Int) :
    cleanup rl now = ⟨rl.requests.foldl (cleanupStep now) rl.requests⟩ := rfl

theorem get_cleanupStep (now : Int) (acc : JsMap (List Int)) (k : String) (l : List Int)
    (hwf : (JsMap.keys acc).Nodup) (k' : String) :
    JsMap.get (cleanupStep now acc (k, l)) k'
      = if k' = k then cleaned now (some l) else JsMap.get acc k' := by
  unfold cleanupStep cleaned
  by_cases hk : k' = k
  · subst hk
    rw [if_pos rfl]
    by_cases he : retained now l = []
    · simp [he, JsMap.get_delete_self _ _ hwf]
    · have : (retained now l).length ≠ 0 := by simpa using he
      simp [he, this, JsMap.get_set_self]
  · rw [if_neg hk]
    split
    · exact JsMap.get_delete_other _ _ _ hk
    · exact JsMap.get_set_other _ _ _ _ hk

theorem nodup_cleanupStep (now : Int) (acc : JsMap (List Int)) (e : String × List Int)
    (hwf : (JsMap.keys acc).Nodup) : (JsMap.keys (cleanupStep now acc e)).Nodup := by
  unfold cleanupStep
  split
  · exact JsMap.nodup_keys_delete _ _ hwf
  · exact JsMap.nodup_keys_set _ _ _ hwf

theorem foldl_cleanupStep (now : Int) :
    ∀ (entries acc : JsMap (List Int)),
      (JsMap.keys entries).Nodup → (JsMap.keys acc).Nodup →
      (JsMap.keys (entries.foldl (cleanupStep now) acc)).Nodup
      ∧ ∀ k', JsMap.get (entries.foldl (cleanupStep now) acc) k'
          = if k' ∈ JsMap.keys entries then cleaned now (JsMap.get entries k')
            else JsMap.get acc k' := by
  intro entries
  induction entries with
  | nil => intro acc _ hacc; exact ⟨hacc, fun k' => by simp [JsMap.keys]⟩
  | cons e rest ih =>
    intro acc hent hacc
    obtain ⟨k, l⟩ := e
    simp only [JsMap.keys, List.map_cons, List.nodup_cons] at hent
    have hstep := nodup_cleanupStep now acc (k, l) hacc
    obtain ⟨hnd, hget⟩ := ih (cleanupStep now acc (k, l)) hent.2 hstep
    refine ⟨hnd, fun k' => ?_⟩
    simp only [List.foldl_cons]
    rw [hget k', get_cleanupStep now acc k l hacc k']
    by_cases hk : k' = k
    · subst hk
      have hnot : k' ∉ JsMap.keys rest := hent.1
      have hin : k' ∈ JsMap.keys ((k', l) :: rest) := by simp [JsMap.keys]
      rw [if_neg hnot, if_pos rfl, if_pos hin]
      simp [JsMap.get]
    · have hk' : ¬ k = k' := fun e => hk e.symm
      by_cases hin : k' ∈ JsMap.keys rest
      · have hin' : k' ∈ List.map Prod.fst rest := hin
        simp [hin, hin', hk, hk', JsMap.keys, JsMap.get]
      · have hin' : k' ∉ List.map Prod.fst rest := hin
        simp [hin, hin', hk, hk', JsMap.keys, JsMap.get]

/-- Lookups after `cleanup` on a map with distinct keys. -/
theorem get_cleanup (rl : RateLimiter) (now : Int) (hwf : (JsMap.keys rl.requests).Nodup)
    (k : String) :
    JsMap.get (cleanup rl now).requests k = cleaned now (JsMap.get rl.requests k) := by
  rw [cleanup_eq]
  have h := (foldl_cleanupStep now rl.requests rl.requests hwf hwf).2 k
  simp only [] at h ⊢
  rw [h]
  by_cases hin : k ∈ JsMap.keys rl.requests
  · rw [if_pos hin]
  · rw [if_neg hin, (JsMap.get_eq_none_iff _ _).mpr hin]
    rfl

theorem nodup_cleanup (rl : RateLimiter) (now : Int) (hwf : (JsMap.keys rl.requests).Nodup) :
    (JsMap.keys (cleanup rl now).requests).Nodup := by
  rw [cleanup_eq]
  exact (foldl_cleanupStep now rl.requests rl.requests hwf hwf).1

theorem recorded_cleanup (rl : RateLimiter) (now : Int)
    (hwf : (JsMap.keys rl.requests).Nodup) (k : String) :
    recorded (cleanup rl now) k = retained now (recorded rl k) := by
  unfold recorded
  rw [get_cleanup rl now hwf k]
  cases h : JsMap.get rl.requests k with
  | none => simp [cleaned, retained]
  | some l =>
    by_cases he : retained now l = []
    · simp [cleaned, he]
    · simp [cleaned, he]

end RateLimiter

namespace RateLimiter

/-- Inside a window of at most 24 hours, a sweep at an earlier instant removes no timestamp
that `isAllowed` would keep. -/
theorem validRequests_cleanup (rl : RateLimiter) (k : String) (w t₀ t₁ : Int)
    (hwf : (JsMap.keys rl.requests).Nodup) (hw : w ≤ 24 * 60 * 60 * 1000) (ht : t₀ ≤ t₁) :
    validRequests (cleanup rl t₀) k w t₁ = validRequests rl k w t₁ := by
  unfold validRequests
  rw [recorded_cleanup rl t₀ hwf k]
  unfold retained
  rw [List.filter_filter]
  apply List.filter_congr
  intro t _
  by_cases h : t > t₁ - w
  · have : t₀ - t < 86400000 := by omega
    simp [h, this]
  · simp [h]

end RateLimiter

/-! ## Facts about sequences of limiter operations -/

namespace RateLimiter

theorem nodup_isAllowed (rl : RateLimiter) (key : String) (w n now : Int)
    (hwf : (JsMap.keys rl.requests).Nodup) :
    (JsMap.keys (rl.isAllowed key w n now).2.requests).Nodup := by
  have h₁ : (JsMap.keys
      (if !JsMap.has rl.requests key then JsMap.set rl.requests key [] else rl.requests)).Nodup := by
    split
    · exact JsMap.nodup_keys_set _ _ _ hwf
    · exact hwf
  unfold isAllowed
  dsimp only
  generalize (if !JsMap.has rl.requests key then JsMap.set rl.requests key []
    else rl.requests) = requests₁ at h₁ ⊢
  split
  · exact h₁
  · exact JsMap.nodup_keys_set _ _ _ h₁

theorem ordered_mono (rl : RateLimiter) (t t' : Int) (h : t ≤ t') (ho : ordered rl t) :
    ordered rl t' :=
  ⟨ho.1, fun k => ⟨(ho.2 k).1, fun s hs => le_trans ((ho.2 k).2 s hs) h⟩⟩

theorem ordered_isAllowed (rl : RateLimiter) (key : String) (w n now upTo : Int)
    (hnow : upTo ≤ now) (ho : ordered rl upTo) :
    ordered (rl.isAllowed key w n now).2 now := by
  refine ⟨nodup_isAllowed rl key w n now ho.1, fun k => ?_⟩
  rw [recorded_isAllowed]
  split
  · have hsub : (validRequests rl key w now).Sublist (rl.recorded key) := by
      unfold validRequests; exact List.filter_sublist _
    have hle : ∀ t ∈ validRequests rl key w now, t ≤ now := fun t ht =>
      le_trans ((ho.2 key).2 t (hsub.subset ht)) hnow
    refine ⟨?_, ?_⟩
    · rw [List.pairwise_append]
      refine ⟨(ho.2 key).1.sublist hsub, List.pairwise_singleton _ _, ?_⟩
      intro a ha b hb
      rw [List.mem_singleton] at hb
      rw [hb]; exact hle a ha
    · intro t ht
      rcases List.mem_append.mp ht with h | h
      · exact hle t h
      · rw [List.mem_singleton] at h; rw [h]
  · exact ⟨(ho.2 k).1, fun t ht => le_trans ((ho.2 k).2 t ht) hnow⟩

theorem ordered_cleanup (rl : RateLimiter) (now upTo : Int) (hnow : upTo ≤ now)
    (ho : ordered rl upTo) : ordered (rl.cleanup now) now := by
  refine ⟨nodup_cleanup rl now ho.1, fun k => ?_⟩
  rw [recorded_cleanup rl now ho.1 k]
  have hsub : (retained now (rl.recorded k)).Sublist (rl.recorded k) := by
    unfold retained; exact List.filter_sublist _
  exact ⟨(ho.2 k).1.sublist hsub, fun t ht => le_trans ((ho.2 k).2 t (hsub.subset ht)) hnow⟩

end RateLimiter

theorem ordered_apply (rl : RateLimiter) (op : LimiterOp) (upTo : Int)
    (hnow : upTo ≤ op.time) (ho : rl.ordered upTo) : (op.apply rl).ordered op.time := by
  cases op with
  | isAllowed key w n now => exact RateLimiter.ordered_isAllowed rl key w n now upTo hnow ho
  | cleanup now => exact RateLimiter.ordered_cleanup rl now upTo hnow ho

/-- Operations at non-decreasing instants keep every list in order. -/
theorem ordered_runOps :
    ∀ (ops : List LimiterOp) (rl : RateLimiter) (upTo last : Int),
      rl.ordered upTo →
      (upTo :: (ops.map LimiterOp.time ++ [last])).Pairwise (· ≤ ·) →
      (runOps rl ops).ordered last := by
  intro ops
  induction ops with
  | nil =>
    intro rl upTo last ho hmono
    simp only [List.map_nil, List.nil_append, List.pairwise_cons, List.mem_singleton,
      forall_eq] at hmono
    exact RateLimiter.ordered_mono rl upTo last hmono.1 ho
  | cons op later ih =>
    intro rl upTo last ho hmono
    simp only [List.map_cons, List.cons_append] at hmono
    have h₁ : upTo ≤ op.time := (List.pairwise_cons.mp hmono).1 _ (List.mem_cons_self _ _)
    have h₂ := (List.pairwise_cons.mp hmono).2
    simp only [runOps, List.foldl_cons]
    exact ih (op.apply rl) op.time last (ordered_apply rl op upTo h₁ ho) h₂

theorem ordered_empty (upTo : Int) : RateLimiter.empty.ordered upTo :=
  ⟨by simp [RateLimiter.empty, JsMap.keys], fun k => by
    simp [RateLimiter.recorded, RateLimiter.empty, JsMap.get]⟩

/-- Operations that use one limit on a key never store more than that many timestamps for
it. -/
theorem length_le_runOps (key : String) (n : Nat) :
    ∀ (ops : List LimiterOp) (rl : RateLimiter),
      (JsMap.keys rl.requests).Nodup → (rl.recorded key).length ≤ n →
      (∀ op ∈ ops, op.usesLimit key n = true) →
      (JsMap.keys (runOps rl ops).requests).Nodup
      ∧ ((runOps rl ops).recorded key).length ≤ n := by
  intro ops
  induction ops with
  | nil => intro rl hwf hlen _; exact ⟨hwf, hlen⟩
  | cons op later ih =>
    intro rl hwf hlen hops
    have hop := hops op (List.mem_cons_self _ _)
    simp only [runOps, List.foldl_cons]
    apply ih _ _ _ (fun op' h => hops op' (List.mem_cons_of_mem _ h))
    · cases op with
      | isAllowed key' w m now => exact RateLimiter.nodup_isAllowed rl key' w m now hwf
      | cleanup now => exact RateLimiter.nodup_cleanup rl now hwf
    · cases op with
      | isAllowed key' w m now =>
        simp only [LimiterOp.usesLimit, decide_eq_true_eq] at hop
        simp only [LimiterOp.apply]
        by_cases hk : key' = key
        · subst hk
          rw [hop rfl]
          exact RateLimiter.recorded_isAllowed_length_le rl key' w now n hlen
        · rw [RateLimiter.recorded_isAllowed, if_neg (fun c => hk c.2.symm)]
          exact hlen
      | cleanup now =>
        simp only [LimiterOp.apply]
        rw [RateLimiter.recorded_cleanup rl now hwf key]
        unfold RateLimiter.retained
        exact le_trans (List.length_filter_le _ _) hlen

/-- From the empty limiter, operations at non-decreasing instants leave every list in order
and no later than the last instant. -/
theorem ordered_runOps_empty (ops : List LimiterOp) (last : Int)
    (hmono : (ops.map LimiterOp.time ++ [last]).Pairwise (· ≤ ·)) :
    (runOps RateLimiter.empty ops).ordered last := by
  cases ops with
  | nil => exact ordered_empty last
  | cons op later =>
    refine ordered_runOps (op :: later) RateLimiter.empty op.time last (ordered_empty _) ?_
    rw [List.pairwise_cons]
    refine ⟨?_, hmono⟩
    intro t ht
    simp only [List.map_cons, List.cons_append, List.mem_cons] at ht
    rcases ht with h | h
    · rw [h]
    · simp only [List.map_cons, List.cons_append] at hmono
      exact (List.pairwise_cons.mp hmono).1 t h

/-! ## Facts about `parseInt` and `requestSizeLimit` -/

theorem toNat_digitChar (k : Nat) (hk : k < 10) : (Nat.digitChar k).toNat = 48 + k := by
  interval_cases k <;> rfl

/-- The value `parseInt` gives to a run of decimal digits. -/
theorem foldl_digitValue_append (pre : List Char) (c : Char) (v : Nat) :
    (pre ++ [c]).foldl (fun acc c => acc * 10 + (digitValue 10 c).getD 0) v
      = pre.foldl (fun acc c => acc * 10 + (digitValue 10 c).getD 0) v * 10
        + (digitValue 10 c).getD 0 := by
  rw [List.foldl_append]; rfl

theorem digitValue_digitChar (k : Nat) (hk : k < 10) :
    digitValue 10 (Nat.digitChar k) = some k := by
  interval_cases k <;> rfl

/-- The digits `Nat.toDigitsCore` puts in front of its accumulator: a non-empty run of
decimal digits that `parseInt` reads back as the number. -/
theorem toDigitsCore_spec : ∀ (fuel n : Nat) (ds : List Char), n < fuel →
    ∃ pre, Nat.toDigitsCore 10 fuel n ds = pre ++ ds ∧ pre ≠ []
      ∧ (∀ c ∈ pre, 48 ≤ c.toNat ∧ c.toNat ≤ 57)
      ∧ pre.foldl (fun acc c => acc * 10 + (digitValue 10 c).getD 0) 0 = n := by
  intro fuel
  induction fuel with
  | zero => intro n ds h; omega
  | succ fuel ih =>
    intro n ds h
    have hd : n % 10 < 10 := Nat.mod_lt _ (by decide)
    have hrange : 48 ≤ (Nat.digitChar (n % 10)).toNat ∧ (Nat.digitChar (n % 10)).toNat ≤ 57 := by
      rw [toNat_digitChar _ hd]; omega
    unfold Nat.toDigitsCore
    dsimp only
    by_cases h0 : n / 10 = 0
    · rw [if_pos h0]
      refine ⟨[Nat.digitChar (n % 10)], rfl, by simp, ?_, ?_⟩
      · intro c hc; rw [List.mem_singleton] at hc; rw [hc]; exact hrange
      · simp only [List.foldl_cons, List.foldl_nil, digitValue_digitChar _ hd]
        simp only [Option.getD_some]
        omega
    · rw [if_neg h0]
      obtain ⟨pre, hpre, _, hdig, hval⟩ := ih (n / 10) (Nat.digitChar (n % 10) :: ds) (by omega)
      refine ⟨pre ++ [Nat.digitChar (n % 10)], by rw [hpre]; simp, by simp, ?_, ?_⟩
      · intro c hc
        rcases List.mem_append.mp hc with h | h
        · exact hdig c h
        · rw [List.mem_singleton] at h; rw [h]; exact hrange
      · rw [foldl_digitValue_append, hval, digitValue_digitChar _ hd]
        simp only [Option.getD_some]
        omega

theorem digitValue_of_digit (c : Char) (h : 48 ≤ c.toNat ∧ c.toNat ≤ 57) :
    (digitValue 10 c).isSome = true := by
  unfold digitValue
  simp only [h, and_self, if_true, Option.filter]
  have : c.toNat - 48 < 10 := by omega
  simp [this]

theorem not_white_of_digit (c : Char) (h : 48 ≤ c.toNat ∧ c.toNat ≤ 57) :
    isJsWhiteSpace c = false := by
  unfold isJsWhiteSpace
  simp only [Bool.or_eq_false_iff, Bool.and_eq_false_iff, decide_eq_false_iff_not, beq_eq_false_iff_ne]
  omega

/-- What `parseInt` makes of a non-empty run of decimal digits. -/
theorem parseInt_digits (ds : List Char) (hne : ds ≠ [])
    (hdig : ∀ c ∈ ds, 48 ≤ c.toNat ∧ c.toNat ≤ 57) :
    parseInt ⟨ds⟩
      = some ((ds.foldl (fun acc c => acc * 10 + (digitValue 10 c).getD 0) 0 : Nat) : Int) := by
  obtain ⟨c, rest, rfl⟩ := List.exists_cons_of_ne_nil hne
  have hc := hdig c (List.mem_cons_self _ _)
  have hminus : c ≠ '-' := by intro h; rw [h] at hc; revert hc; decide
  have hplus : c ≠ '+' := by intro h; rw [h] at hc; revert hc; decide
  have hx : ∀ l, rest ≠ 'x' :: l := by
    intro l h
    have := hdig 'x' (by rw [h]; simp)
    revert this; decide
  have hX : ∀ l, rest ≠ 'X' :: l := by
    intro l h
    have := hdig 'X' (by rw [h]; simp)
    revert this; decide
  have htake : (c :: rest).takeWhile (fun c => (digitValue 10 c).isSome) = c :: rest := by
    rw [List.takeWhile_eq_self_iff]
    intro a ha
    exact digitValue_of_digit a (hdig a ha)
  have hsigned : parseInt.match_1 (fun _ => Bool × List Char) (c :: rest)
      (fun rest => (true, rest)) (fun rest => (false, rest)) (fun _ => (false, c :: rest))
      = (false, c :: rest) := by
    split
    · rename_i h; exact absurd (List.cons.inj h).1 hminus
    · rename_i h; exact absurd (List.cons.inj h).1 hplus
    · rfl
  have hpre : parseInt.match_2 (fun _ => Nat × List Char) (c :: rest)
      (fun rest => (16, rest)) (fun rest => (16, rest)) (fun _ => (10, c :: rest))
      = (10, c :: rest) := by
    split
    · rename_i h; exact absurd (List.cons.inj h).2 (hx _)
    · rename_i h; exact absurd (List.cons.inj h).2 (hX _)
    · rfl
  have hdrop : List.dropWhile isJsWhiteSpace (c :: rest) = c :: rest := by
    rw [List.dropWhile_cons, not_white_of_digit c hc]; rfl
  unfold parseInt
  simp only [hdrop, hsigned, hpre, htake]
  simp

/-- `parseInt` reads the decimal numeral of a natural number back as that number. -/
theorem parseInt_toString (n : Nat) : parseInt (toString n) = some (n : Int) := by
  obtain ⟨pre, hpre, hne, hdig, hval⟩ := toDigitsCore_spec (n + 1) n [] (by omega)
  have : toString n = ⟨pre⟩ := by
    show Nat.repr n = _
    unfold Nat.repr Nat.toDigits
    rw [hpre]; simp [List.asString]
  rw [this, parseInt_digits pre hne hdig, hval]

/-- What `requestSizeLimit` does with a `Content-Length` that is a decimal numeral. -/
theorem requestSizeLimit_of_length (req : Request) (now : Int) (rl : RateLimiter) (n : Nat)
    (h : req.get "Content-Length" = some (toString n)) :
    requestSizeLimit req now rl
      = if 10 * 1024 * 1024 < n then
          { limiter := rl
            logged := []
            response := some {
              status := 413
              error := "Request too large"
              message := some "Request size exceeds the maximum allowed limit"
              retryAfter := none } }
        else next rl := by
  have hne : toString n ≠ "" := by
    intro c
    have := parseInt_toString n
    rw [c] at this
    have hnone : parseInt "" = none := by decide
    rw [hnone] at this
    exact Option.noConfusion this
  unfold requestSizeLimit
  simp only [h, jsOr, truthy, decide_eq_true hne, if_true, Option.getD_some, parseInt_toString]
  by_cases hn : 10 * 1024 * 1024 < n
  · rw [if_pos hn, if_pos]
    simp only [decide_eq_true_eq]; omega
  · rw [if_neg hn, if_neg]
    simp only [decide_eq_true_eq]; omega

theorem requestSizeLimit_of_missing (req : Request) (now : Int) (rl : RateLimiter)
    (h : req.get "Content-Length" = none) : requestSizeLimit req now rl = next rl := by
  unfold requestSizeLimit
  simp only [h, jsOr, truthy]
  rfl

theorem requestSizeLimit_logged (req : Request) (now : Int) (rl : RateLimiter) :
    (requestSizeLimit req now rl).logged = [] := by
  unfold requestSizeLimit
  simp only []
  split <;> rfl

/-! ## Facts about the class-specific limiters in the chain -/

theorem firstRejection_eq_none (l : List (Option Response)) (h : firstRejection l = none) :
    ∀ x ∈ l, x = none := by
  induction l with
  | nil => intro x hx; cases hx
  | cons a rest ih =>
    cases a with
    | some r => simp [firstRejection] at h
    | none =>
      intro x hx
      rcases List.mem_cons.mp hx with h' | h'
      · exact h'
      · exact ih (by simpa [firstRejection] using h) x h'

theorem firstRejection_mem (l : List (Option Response)) (r : Response)
    (h : firstRejection l = some r) : some r ∈ l := by
  induction l with
  | nil => simp [firstRejection] at h
  | cons a rest ih =>
    cases a with
    | some r' =>
      simp only [firstRejection, Option.some.injEq] at h
      rw [h]; exact List.mem_cons_self _ _
    | none => exact List.mem_cons_of_mem _ (ih (by simpa [firstRejection] using h))

/-- A chain followed by another: the second runs when the first has not answered. -/
theorem runChain_append (xs ys : List Middleware) (req : Request) (now : Int) :
    ∀ rl : RateLimiter, runChain (xs ++ ys) req now rl
      = match (runChain xs req now rl).response with
        | some _ => runChain xs req now rl
        | none =>
          { runChain ys req now (runChain xs req now rl).limiter with
            logged := (runChain xs req now rl).logged
              ++ (runChain ys req now (runChain xs req now rl).limiter).logged } := by
  induction xs with
  | nil => intro rl; simp [runChain, next]
  | cons mw rest ih =>
    intro rl
    rw [List.cons_append]
    simp only [runChain]
    cases h : (mw req now rl).response with
    | some r => simp only [h]
    | none =>
      simp only [ih]
      cases h' : (runChain rest req now (mw req now rl).limiter).response with
      | some r => simp only [h']
      | none => simp only [h', List.append_assoc]

/-- The answer of the checks before the class-specific limiters. -/
theorem beforeClassLimiters_response (cfg : Config) (thirdParty : Request → Option Response)
    (req : Request) (now : Int) (rl : RateLimiter) :
    (runChain (beforeClassLimiters cfg thirdParty) req now rl).response
      = firstRejection [
          (requestSizeLimit { req with body := JsValue.undefined } now rl).response,
          (validateRequest { req with body := JsValue.undefined } now rl).response,
          thirdParty req,
          (generalRateLimit cfg req now rl).response,
          (mount "/api" (validateApiKey cfg) req now rl).response,
          (mount "/api" (validateOrigin cfg) req now rl).response] := by
  unfold beforeClassLimiters
  simp only [runChain_cons_response, beforeBodyParsers, securityLogger, securityHeaders,
    requestSizeLimit_limiter, validateRequest_limiter, external, speedLimiter_eq_next, next]
  cases h₁ : (requestSizeLimit { req with body := JsValue.undefined } now rl).response with
  | some r => simp [firstRejection]
  | none =>
    cases h₂ : (validateRequest { req with body := JsValue.undefined } now rl).response with
    | some r => simp [firstRejection]
    | none =>
      cases h₃ : thirdParty req with
      | some r => simp [firstRejection]
      | none =>
        cases h₄ : (generalRateLimit cfg req now rl).response with
        | some r => simp [firstRejection]
        | none =>
          simp only [firstRejection, mount_limiter_validateApiKey]
          rw [mount_response_indep_validateApiKey cfg req now _ rl]
          cases h₅ : (mount "/api" (validateApiKey cfg) req now rl).response with
          | some r => simp [firstRejection]
          | none =>
            simp only [(mount_validateOrigin cfg req now _ rl).1]
            rw [(mount_validateOrigin cfg req now _ rl).2]
            cases h₆ : (mount "/api" (validateOrigin cfg) req now rl).response with
            | some r => simp [firstRejection]
            | none => simp only [runChain, next, firstRejection]

/-- The class-specific limiters are reached only by requests that `validateApiKey` let
pass. -/
theorem reached_class_limiters (cfg : Config) (thirdParty : Request → Option Response)
    (req : Request) (now : Int) (rl : RateLimiter)
    (h : (runChain (beforeClassLimiters cfg thirdParty) req now rl).response = none) :
    (mount "/api" (validateApiKey cfg) req now rl).response = none := by
  rw [beforeClassLimiters_response] at h
  exact firstRejection_eq_none _ h _ (by simp)

/-- The class-specific limiters add nothing to the chain. -/
theorem admission_eq_beforeClassLimiters (cfg : Config)
    (thirdParty : Request → Option Response) (req : Request) (now : Int) (rl : RateLimiter) :
    admission cfg thirdParty req now rl
      = runChain (beforeClassLimiters cfg thirdParty) req now rl := by
  have hsplit : admission cfg thirdParty
      = runChain (beforeClassLimiters cfg thirdParty
          ++ [mount "/api/auth" (authRateLimit cfg), mount "/api/upload" (uploadRateLimit cfg)]) :=
    rfl
  rw [hsplit, runChain_append]
  cases h : (runChain (beforeClassLimiters cfg thirdParty) req now rl).response with
  | some r => rfl
  | none =>
    have hpass := reached_class_limiters cfg thirdParty req now rl h
    have hlater : ∀ rl', runChain [mount "/api/auth" (authRateLimit cfg),
        mount "/api/upload" (uploadRateLimit cfg)] req now rl' = next rl' := by
      intro rl'
      simp only [runChain, (class_limiters_skip cfg req now rl _ hpass).1,
        (class_limiters_skip cfg req now rl _ hpass).2, next, List.append_nil]
    simp only [hlater]
    generalize runChain (beforeClassLimiters cfg thirdParty) req now rl = o at h
    cases o with
    | mk l g r =>
      simp only at h
      simp [h, next]

/-- A 429 answer of the chain is the answer of the general limiter, or of the third-party
middleware. -/
theorem admission_429_source (cfg : Config) (thirdParty : Request → Option Response)
    (req : Request) (now : Int) (rl : RateLimiter) (r : Response)
    (h : (admission cfg thirdParty req now rl).response = some r) (hs : r.status = 429) :
    (generalRateLimit cfg req now rl).response = some r ∨ thirdParty req = some r := by
  rw [admission_response] at h
  have hmem := firstRejection_mem _ r h
  simp only [List.mem_cons, List.mem_singleton, List.not_mem_nil, or_false] at hmem
  rcases hmem with h₁ | h₁ | h₁ | h₁ | h₁ | h₁
  · have := requestSizeLimit_status _ now rl r h₁.symm; omega
  · have := validateRequest_status _ now rl r h₁.symm; omega
  · exact Or.inr h₁.symm
  · exact Or.inl h₁.symm
  · unfold mount at h₁
    split at h₁
    · have := validateApiKey_status cfg req now rl r h₁.symm; omega
    · simp [next] at h₁
  · unfold mount at h₁
    split at h₁
    · rcases (validateOrigin_cases cfg req now rl).1 with h₂ | ⟨r', h₂, h₃⟩
      · rw [h₂] at h₁; simp at h₁
      · rw [h₂] at h₁
        simp only [Option.some.injEq] at h₁
        rw [h₁] at hs; omega
    · simp [next] at h₁

/-! ## Facts about the bulk update -/

theorem mem_updateMany (db : List SecurityLog) (filter : SecurityLog → Bool) (isBlocked : Bool)
    (now : Int) (doc' : SecurityLog) (h : doc' ∈ updateMany db filter isBlocked now) :
    ∃ doc ∈ db, doc' = if filter doc then { doc with isBlocked := isBlocked, updatedAt := now }
      else doc := by
  unfold updateMany at h
  obtain ⟨doc, hdoc, heq⟩ := List.mem_map.mp h
  exact ⟨doc, hdoc, heq.symm⟩

/-- The bulk update changes no document that the filter does not match. -/
theorem updateMany_forall₂ (db : List SecurityLog) (filter : SecurityLog → Bool)
    (isBlocked : Bool) (now : Int) :
    List.Forall₂ (fun doc doc' =>
        (filter doc = false → doc' = doc)
        ∧ (filter doc = true →
            doc' = { doc with isBlocked := isBlocked, updatedAt := now }))
      db (updateMany db filter isBlocked now) := by
  unfold updateMany
  rw [List.forall₂_map_right_iff]
  apply List.forall₂_same.mpr
  intro doc _
  constructor
  · intro h; rw [h]; rfl
  · intro h; rw [h]; rfl

/-- Running the same bulk update twice at one instant is running it once, when the filter
does not look at the fields it writes. -/
theorem updateMany_idempotent (db : List SecurityLog) (filter : SecurityLog → Bool)
    (isBlocked : Bool) (now : Int)
    (hfilter : ∀ doc : SecurityLog,
      filter { doc with isBlocked := isBlocked, updatedAt := now } = filter doc) :
    updateMany (updateMany db filter isBlocked now) filter isBlocked now
      = updateMany db filter isBlocked now := by
  unfold updateMany
  rw [List.map_map]
  apply List.map_congr_left
  intro doc _
  simp only [Function.comp]
  by_cases h : filter doc = true
  · simp only [h, if_true, hfilter doc]
  · simp only [h, if_false, Bool.false_eq_true]

theorem checkAndBlockIP_idempotent (env : Env) (db : List SecurityLog) (ipAddress : String)
    (now : Int) :
    checkAndBlockIP env (checkAndBlockIP env db ipAddress now) ipAddress now
      = checkAndBlockIP env db ipAddress now := by
  unfold checkAndBlockIP
  split
  · rfl
  · exact updateMany_idempotent _ _ _ _ (fun _ => rfl)

theorem mem_ipEvents (db : List SecurityLog) (ipAddress : String) (days now : Int)
    (e : SecurityLog) (h : e ∈ ipEvents db ipAddress days now) :
    ∃ doc ∈ db, doc.ipAddress = ipAddress ∧ e.isBlocked = doc.isBlocked
      ∧ e.ipAddress = doc.ipAddress ∧ e.timestamp = doc.timestamp := by
  unfold ipEvents at h
  obtain ⟨doc, hdoc, heq⟩ := List.mem_map.mp h
  have h₁ := List.mem_of_mem_take hdoc
  have h₂ := (List.perm_insertionSort _ _).subset h₁
  have h₃ := List.mem_filter.mp h₂
  refine ⟨doc, h₃.1, ?_, ?_, ?_, ?_⟩
  · have := h₃.2
    unfold recentFrom at this
    simp only [Bool.and_eq_true, decide_eq_true_eq] at this
    exact this.1
  · rw [← heq]
  · rw [← heq]
  · rw [← heq]

/-- What the route does for an administrator who asks to unblock, with a working store. -/
theorem blockRoute_unblock (env : Env) (db : List SecurityLog) (a : String) (body : JsValue)
    (now : Int) (haction : actionOf body = some (JsValue.str "unblock"))
    (hstore : env.updateFails = false) :
    blockRoute env db "admin" a body now
      = (⟨200, "IP " ++ a ++ " has been unblocked"⟩,
          updateMany db (fun doc => decide (doc.ipAddress = a)) false now) := by
  unfold blockRoute
  rw [if_neg (by decide), haction]
  simp [JsValue.isString, hstore]

/-- What the route does for an administrator who asks to block, with a working store. -/
theorem blockRoute_block (env : Env) (db : List SecurityLog) (a : String) (body : JsValue)
    (now : Int) (haction : actionOf body = some (JsValue.str "block"))
    (hstore : env.updateFails = false) :
    blockRoute env db "admin" a body now
      = (⟨200, "IP " ++ a ++ " has been blocked"⟩,
          updateMany db (recentFrom a (now - 86400000)) true now) := by
  unfold blockRoute
  rw [if_neg (by decide), haction]
  simp [JsValue.isString, hstore]

/-- What the route does for an administrator who names another action. -/
theorem blockRoute_invalid (env : Env) (db : List SecurityLog) (a : String) (body : JsValue)
    (now : Int) (action : JsValue) (haction : actionOf body = some action)
    (hblock : action.isString "block" = false) (hunblock : action.isString "unblock" = false) :
    blockRoute env db "admin" a body now
      = (⟨400, "Invalid action. Use \"block\" or \"unblock\""⟩, db) := by
  unfold blockRoute
  rw [if_neg (by decide), haction]
  simp [hblock, hunblock]

/-! ## Facts about the recorder with its exceptions -/

theorem calculateRiskLevelM_runOn (env : Env) (db : List SecurityLog) (ipAddress : String)
    (timeWindow now : Int) :
    (calculateRiskLevelM env ipAddress timeWindow now).runOn db
      = (Except.ok (calculateRiskLevel env db ipAddress timeWindow now), db) := by
  unfold calculateRiskLevelM countDocumentsM calculateRiskLevel StoreM.runOn
  cases h : env.countFails
  · simp only [Bool.false_eq_true, if_false]
    split_ifs <;>
    simp [*, tryCatch, tryCatchThe, MonadExceptOf.tryCatch, ExceptT.tryCatch, ExceptT.run,
        ExceptT.mk, bind, ExceptT.bind, ExceptT.bindCont, StateT.bind, StateT.run, pure,
        ExceptT.pure, StateT.pure, get, getThe, MonadStateOf.get, liftM, monadLift,
        MonadLift.monadLift, ExceptT.lift, StateT.get, Functor.map, StateT.map, Id.run]
  · simp [tryCatch, tryCatchThe, MonadExceptOf.tryCatch, ExceptT.tryCatch, ExceptT.run,
        ExceptT.mk, bind, ExceptT.bind, ExceptT.bindCont, StateT.bind, StateT.run, pure,
        ExceptT.pure, StateT.pure, get, getThe, MonadStateOf.get, liftM, monadLift,
        MonadLift.monadLift, ExceptT.lift, StateT.get, Functor.map, StateT.map, Id.run,
        throw, throwThe, MonadExceptOf.throw]

theorem checkAndBlockIPM_runOn (env : Env) (db : List SecurityLog) (ipAddress : String)
    (now : Int) :
    (checkAndBlockIPM env ipAddress now).runOn db
      = (Except.ok (), checkAndBlockIP env db ipAddress now) := by
  unfold checkAndBlockIPM updateManyM checkAndBlockIP StoreM.runOn
  cases h : env.updateFails <;>
  simp [tryCatch, tryCatchThe, MonadExceptOf.tryCatch, ExceptT.tryCatch, ExceptT.run,
        ExceptT.mk, bind, ExceptT.bind, ExceptT.bindCont, StateT.bind, StateT.run, pure,
        ExceptT.pure, StateT.pure, modify, modifyGet, MonadStateOf.modifyGet, liftM, monadLift,
        MonadLift.monadLift, ExceptT.lift, StateT.modifyGet, Functor.map, StateT.map, Id.run,
        throw, throwThe, MonadExceptOf.throw]

theorem StoreM.runOn_bind {α β : Type} (x : StoreM α) (f : α → StoreM β)
    (db : List SecurityLog) :
    (x >>= f).runOn db
      = match x.runOn db with
        | (Except.ok a, db') => (f a).runOn db'
        | (Except.error e, db') => (Except.error e, db') := by
  simp only [StoreM.runOn, bind, ExceptT.bind, ExceptT.run, ExceptT.mk, StateT.bind, StateT.run,
    Id.run]
  cases h : x db with
  | mk r db' =>
    cases r with
    | ok a => simp [ExceptT.bindCont]
    | error e => simp [ExceptT.bindCont, pure, StateT.pure]

theorem StoreM.runOn_tryCatch {α : Type} (x : StoreM α) (handler : String → StoreM α)
    (db : List SecurityLog) :
    (tryCatch x handler).runOn db
      = match x.runOn db with
        | (Except.ok a, db') => (Except.ok a, db')
        | (Except.error e, db') => (handler e).runOn db' := by
  simp only [StoreM.runOn, tryCatch, tryCatchThe, MonadExceptOf.tryCatch, ExceptT.tryCatch,
    bind, ExceptT.run, ExceptT.mk, StateT.bind, StateT.run, Id.run]
  cases h : x db with
  | mk r db' =>
    cases r with
    | ok a => simp [pure, StateT.pure]
    | error e => simp

theorem StoreM.runOn_pure {α : Type} (a : α) (db : List SecurityLog) :
    (pure a : StoreM α).runOn db = (Except.ok a, db) := rfl

theorem saveM_runOn (env : Env) (db : List SecurityLog) (securityLog : SecurityLog) :
    (saveM env securityLog).runOn db
      = if env.saveFails || !securityLog.validates then
          (Except.error (if env.saveFails then "save failed" else "ValidationError"), db)
        else (Except.ok (), db ++ [securityLog]) := by
  unfold saveM StoreM.runOn
  cases h : env.saveFails <;> cases h' : securityLog.validates <;>
  simp [ExceptT.run, ExceptT.mk, bind, ExceptT.bind, ExceptT.bindCont, StateT.bind,
    StateT.run, pure, ExceptT.pure, StateT.pure, modify, modifyGet, MonadStateOf.modifyGet,
    liftM, monadLift, MonadLift.monadLift, ExceptT.lift, StateT.modifyGet, Functor.map,
    StateT.map, Id.run, throw, throwThe, MonadExceptOf.throw]

/-- The recorder with its exceptions always returns, and leaves the store that
`logSecurityEvent` describes. -/
theorem logSecurityEventM_runOn (env : Env) (db : List SecurityLog) (req : Request)
    (call : LogCall) (now : Int) :
    (logSecurityEventM env req call now).runOn db
      = (Except.ok (), logSecurityEvent env db req call now) := by
  unfold logSecurityEventM logSecurityEvent
  rw [StoreM.runOn_tryCatch, StoreM.runOn_bind, calculateRiskLevelM_runOn]
  simp only []
  rw [StoreM.runOn_bind, saveM_runOn]
  by_cases hs : (env.saveFails || !(newSecurityLog env req call
      (calculateRiskLevel env db (ipAddressOf req) defaultTimeWindow now) now).validates) = true
  · simp only [hs, if_true]
    rfl
  · simp only [hs, Bool.false_eq_true, if_false]
    by_cases hl : calculateRiskLevel env db (ipAddressOf req) defaultTimeWindow now
          = RiskLevel.critical
        ∨ calculateRiskLevel env db (ipAddressOf req) defaultTimeWindow now = RiskLevel.high
    · rw [if_pos hl, if_pos hl, checkAndBlockIPM_runOn]
    · rw [if_neg hl, if_neg hl]
      rfl

theorem recordAllM_runOn (env : Env) (req : Request) (now : Int) :
    ∀ (calls : List LogCall) (db : List SecurityLog),
      (recordAllM env req now calls).runOn db
        = (Except.ok (), calls.foldl (fun db call => logSecurityEvent env db req call now) db) := by
  intro calls
  induction calls with
  | nil => intro db; rfl
  | cons call later ih =>
    intro db
    unfold recordAllM
    rw [StoreM.runOn_bind, logSecurityEventM_runOn]
    simp only [ih, List.foldl_cons]

theorem serveM_runOn (env : Env) (mw : Middleware) (req : Request) (now : Int)
    (rl : RateLimiter) (db : List SecurityLog) :
    (serveM env mw req now rl).runOn db
      = (Except.ok (mw req now rl).response,
          (mw req now rl).logged.foldl
            (fun db call => logSecurityEvent env db req call now) db) := by
  unfold serveM
  rw [StoreM.runOn_bind, recordAllM_runOn]
  rfl

/-! ## Facts about the presented key -/

theorem replaceFirstChars_prefix (pat rep rest : List Char) (hpat : pat ≠ []) :
    replaceFirstChars pat rep (pat ++ rest) = rep ++ rest := by
  obtain ⟨c, cs, rfl⟩ := List.exists_cons_of_ne_nil hpat
  rw [List.cons_append, replaceFirstChars]
  have hpre : (c :: cs).isPrefixOf (c :: (cs ++ rest)) = true := by
    rw [← List.cons_append, List.isPrefixOf_iff_prefix]
    exact List.prefix_append _ _
  rw [if_pos hpre, ← List.cons_append, List.drop_left]

theorem replaceFirstChars_absent (pat rep : List Char) (hpat : pat ≠ []) :
    ∀ s : List Char, ¬ pat <:+: s → replaceFirstChars pat rep s = s := by
  intro s
  induction s with
  | nil => intro _; simp [replaceFirstChars, hpat]
  | cons c cs ih =>
    intro h
    rw [replaceFirstChars]
    have hno : ¬ (pat.isPrefixOf (c :: cs) = true) := by
      rw [List.isPrefixOf_iff_prefix]
      intro hp
      exact h hp.isInfix
    rw [if_neg hno, ih]
    intro hin
    exact h (hin.trans (List.suffix_cons c cs).isInfix)

/-- Removing `Bearer ` from a bearer token leaves the token. -/
theorem replace_bearer (k : String) : replace ("Bearer " ++ k) "Bearer " "" = k := by
  unfold replace
  rw [String.data_append, replaceFirstChars_prefix _ _ _ (by decide)]
  rfl

/-- A value in which `Bearer ` does not occur is left as it is. -/
theorem replace_no_bearer (a : String) (h : ¬ occursIn "Bearer " a) :
    replace a "Bearer " "" = a := by
  unfold replace
  rw [replaceFirstChars_absent _ _ (by decide) _ h]

/-- The key that `validateApiKey` reads from the two headers. -/
theorem apiKeyOf_headers (req : Request) :
    apiKeyOf req
      = if truthy (JsMap.get req.headers "x-api-key") = true then
          JsMap.get req.headers "x-api-key"
        else (JsMap.get req.headers "authorization").map (fun a => replace a "Bearer " "") :=
  rfl

/-- The three outcomes of `validateApiKey`, as status and recorded events. -/
theorem validateApiKey_summary (cfg : Config) (req : Request) (now : Int) (rl : RateLimiter) :
    (truthy (apiKeyOf req) = false →
      (validateApiKey cfg req now rl).summary = (some 401, [("unauthorized_access", 401)]))
    ∧ (truthy (apiKeyOf req) = true → apiKeyOf req ≠ some cfg.WEBSITE_API_KEY →
      (validateApiKey cfg req now rl).summary = (some 403, [("invalid_api_key", 403)]))
    ∧ (apiKeyOf req = some cfg.WEBSITE_API_KEY → validateApiKey cfg req now rl = next rl) := by
  refine ⟨fun h => ?_, fun h₁ h₂ => ?_, fun h => validateApiKey_valid cfg req now rl h⟩
  · rw [validateApiKey_missing cfg req now rl h]; rfl
  · rw [validateApiKey_wrong cfg req now rl h₁ h₂]; rfl

/-! ## Facts about the recorder and the block step -/

/-- The recorder in full: nothing is stored when the write fails or the document does not
pass the validation; otherwise the event is appended and the block step runs for `high` and
`critical`. -/
theorem logSecurityEvent_cases (env : Env) (db : List SecurityLog) (req : Request)
    (call : LogCall) (now : Int) :
    logSecurityEvent env db req call now
      = if env.saveFails = true
            ∨ (newSecurityLog env req call
                (calculateRiskLevel env db (ipAddressOf req) defaultTimeWindow now)
                now).validates = false
        then db
        else if calculateRiskLevel env db (ipAddressOf req) defaultTimeWindow now
              = RiskLevel.critical
            ∨ calculateRiskLevel env db (ipAddressOf req) defaultTimeWindow now
              = RiskLevel.high
          then checkAndBlockIP env
            (db ++ [newSecurityLog env req call
              (calculateRiskLevel env db (ipAddressOf req) defaultTimeWindow now) now])
            (ipAddressOf req) now
          else db ++ [newSecurityLog env req call
              (calculateRiskLevel env db (ipAddressOf req) defaultTimeWindow now) now] := by
  unfold logSecurityEvent
  simp only [Bool.or_eq_true, Bool.not_eq_true']

/-- What the block step does with a working bulk update. -/
theorem checkAndBlockIP_effect (env : Env) (store : List SecurityLog) (a : String) (t : Int)
    (hstore : env.updateFails = false) :
    (∀ doc' ∈ checkAndBlockIP env store a t,
      doc'.ipAddress = a → t - 3600000 ≤ doc'.timestamp → doc'.isBlocked = true)
    ∧ List.Forall₂ (fun doc doc' =>
        (doc.ipAddress ≠ a ∨ doc.timestamp < t - 3600000 → doc' = doc)
        ∧ (doc.ipAddress = a ∧ t - 3600000 ≤ doc.timestamp →
            doc' = { doc with isBlocked := true, updatedAt := t }))
      store (checkAndBlockIP env store a t) := by
  have hrun : checkAndBlockIP env store a t
      = updateMany store (recentFrom a (t - 3600000)) true t := by
    simp [checkAndBlockIP, hstore]
  rw [hrun]
  constructor
  · intro doc' hmem ha ht
    obtain ⟨doc, _, heq⟩ := mem_updateMany _ _ _ _ _ hmem
    by_cases hf : recentFrom a (t - 3600000) doc = true
    · rw [if_pos hf] at heq
      rw [heq]
    · rw [if_neg hf] at heq
      rw [heq] at ha ht
      exact absurd (by simp [recentFrom, ha, ht]) hf
  · refine (updateMany_forall₂ store (recentFrom a (t - 3600000)) true t).imp ?_
    intro doc doc' h
    constructor
    · intro hno
      apply h.1
      unfold recentFrom
      rcases hno with hno | hno
      · simp [hno]
      · simp only [Bool.and_eq_false_iff, decide_eq_false_iff_not, not_le, ge_iff_le]
        exact Or.inr hno
    · intro hyes
      apply h.2
      simp [recentFrom, hyes.1, hyes.2]

-- END OF LEMMAS

/-! # The claims -/

/-- C1: for a key with no recorded usage, a window `w > 0` and a limit `n ≥ 1`, `n + 1`
calls of `isAllowed` at non-decreasing instants that all lie less than `w` after the first
call return `true` for the first `n` calls and `false` for the last one. -/
theorem isAllowed_admits_n_then_rejects (rl : RateLimiter) (k : String) (w : Int) (n : Nat)
    (t₀ : Int) (later : List Int)
    (habsent : RateLimiter.recorded rl k = [])
    (_hw : 0 < w) (_hn : 1 ≤ n)
    (hlen : (t₀ :: later).length = n + 1)
    (hmono : List.Pairwise (· ≤ ·) (t₀ :: later))
    (hwin : ∀ t ∈ t₀ :: later, t - t₀ < w) :
    (RateLimiter.isAllowedSeq rl k w n (t₀ :: later)).1 = List.replicate n true ++ [false] := by
  have hfirst : ∀ s ∈ t₀ :: later, t₀ ≤ s := by
    intro s hs
    rcases List.mem_cons.mp hs with h | h
    · exact le_of_eq h.symm
    · exact (List.pairwise_cons.mp hmono).1 s h
  have h := RateLimiter.isAllowedSeq_verdicts k w n (t₀ :: later) rl (by
    intro s hs now hnow
    rw [habsent, List.nil_append] at hs
    have h₁ := hfirst s hs
    have h₂ := hwin now hnow
    omega)
  rw [h, habsent, hlen]
  simp

/-- Witness of C1: limit 2, window 10, calls at 0, 3 and 9 on the empty limiter. -/
theorem isAllowed_admits_n_then_rejects_witness :
    (RateLimiter.isAllowedSeq RateLimiter.empty "1.2.3.4" 10 (2 : Nat) [0, 3, 9]).1
      = [true, true, false] :=
  isAllowed_admits_n_then_rejects RateLimiter.empty "1.2.3.4" 10 2 0 [3, 9]
    (by decide) (by decide) (by decide) (by decide) (by decide) (by decide)

/-- C2: in a limiter reached from the empty one by `isAllowed(k, w, n)` calls at
non-decreasing instants, once `w` has fully elapsed since the oldest timestamp recorded for
`k`, the next `isAllowed(k, w, n)` call returns `true`. -/
theorem isAllowed_after_window_elapsed (k : String) (w : Int) (n : Nat) (times : List Int)
    (now t₀ : Int) (_hw : 0 < w) (_hn : 1 ≤ n)
    (_hmono : List.Pairwise (· ≤ ·) times)
    (hmem : t₀ ∈ RateLimiter.recorded
      (RateLimiter.isAllowedSeq RateLimiter.empty k w n times).2 k)
    (_holdest : ∀ t ∈ RateLimiter.recorded
      (RateLimiter.isAllowedSeq RateLimiter.empty k w n times).2 k, t₀ ≤ t)
    (helapsed : w ≤ now - t₀) :
    (RateLimiter.isAllowed (RateLimiter.isAllowedSeq RateLimiter.empty k w n times).2
      k w n now).1 = true := by
  have hlen := RateLimiter.recorded_isAllowedSeq_length_le k w n times RateLimiter.empty
    (by simp [RateLimiter.recorded, RateLimiter.empty, JsMap.get])
  rw [RateLimiter.isAllowed_verdict]
  apply decide_eq_true
  have hdrop : (RateLimiter.validRequests
      (RateLimiter.isAllowedSeq RateLimiter.empty k w n times).2 k w now).length
      < (RateLimiter.recorded
        (RateLimiter.isAllowedSeq RateLimiter.empty k w n times).2 k).length := by
    unfold RateLimiter.validRequests
    apply List.length_filter_lt_length_iff_exists.mpr
    exact ⟨t₀, hmem, by simp; omega⟩
  exact_mod_cast lt_of_lt_of_le hdrop hlen

/-- Witness of C2: after calls at 0 and 4 with window 10 and limit 2 the key is exhausted;
at instant 10 the oldest timestamp 0 has left the window. -/
theorem isAllowed_after_window_elapsed_witness :
    (RateLimiter.isAllowed
      (RateLimiter.isAllowedSeq RateLimiter.empty "1.2.3.4" 10 (2 : Nat) [0, 4]).2
      "1.2.3.4" 10 (2 : Nat) 10).1 = true :=
  isAllowed_after_window_elapsed "1.2.3.4" 10 2 [0, 4] 10 0
    (by decide) (by decide) (by decide) (by decide) (by decide) (by decide)

/-- C3: a call of `isAllowed` that returns `false` leaves the timestamps recorded for every
key, the called one included, as they were (an absent key counting as an empty list). -/
theorem isAllowed_reject_records_nothing (rl : RateLimiter) (k : String) (w n now : Int)
    (hrej : (RateLimiter.isAllowed rl k w n now).1 = false) :
    ∀ k' : String,
      RateLimiter.recorded (RateLimiter.isAllowed rl k w n now).2 k'
        = RateLimiter.recorded rl k' := by
  intro k'
  rw [RateLimiter.recorded_isAllowed, hrej]
  simp

/-- Witness of C3: the key `a` already holds its single allowed timestamp. -/
theorem isAllowed_reject_records_nothing_witness :
    RateLimiter.recorded
        (RateLimiter.isAllowed ⟨[("a", [5]), ("b", [1, 2])]⟩ "a" 10 1 7).2 "a" = [5]
    ∧ RateLimiter.recorded
        (RateLimiter.isAllowed ⟨[("a", [5]), ("b", [1, 2])]⟩ "a" 10 1 7).2 "b" = [1, 2] :=
  ⟨isAllowed_reject_records_nothing ⟨[("a", [5]), ("b", [1, 2])]⟩ "a" 10 1 7 (by decide) "a",
   isAllowed_reject_records_nothing ⟨[("a", [5]), ("b", [1, 2])]⟩ "a" 10 1 7 (by decide) "b"⟩

/-- C4 as stated fails: with the timestamp `0` recorded, window 10 and limit 1, the call at
instant 10 is admitted although one timestamp remains after removing exactly those
`t < now - w`; the code also drops the timestamp equal to `now - w`. -/
theorem isAllowed_prune_strict_counterexample :
    ¬ ((RateLimiter.isAllowed ⟨[("a", [0])]⟩ "a" 10 1 10).1 = true ↔
        (((RateLimiter.recorded ⟨[("a", [0])]⟩ "a").filter
          (fun t => !decide (t < (10 : Int) - 10))).length : Int) < 1) := by
  decide

/-- C4 (amended): `isAllowed` returns `true` iff fewer than `n` of the key's timestamps
remain after removing exactly those with `t ≤ now - w`; in that case the list stored for the
key afterwards is the remaining timestamps in their previous order followed by `now`; the
lists of all other keys are unchanged. -/
theorem isAllowed_prune_append (rl : RateLimiter) (k : String) (w n now : Int) :
    ((RateLimiter.isAllowed rl k w n now).1 = true ↔
      (((RateLimiter.recorded rl k).filter (fun t => !decide (t ≤ now - w))).length : Int) < n)
    ∧ ((RateLimiter.isAllowed rl k w n now).1 = true →
      RateLimiter.recorded (RateLimiter.isAllowed rl k w n now).2 k
        = (RateLimiter.recorded rl k).filter (fun t => !decide (t ≤ now - w)) ++ [now])
    ∧ (∀ k' : String, k' ≠ k →
      RateLimiter.recorded (RateLimiter.isAllowed rl k w n now).2 k'
        = RateLimiter.recorded rl k') := by
  have hfilter : (RateLimiter.recorded rl k).filter (fun t => !decide (t ≤ now - w))
      = RateLimiter.validRequests rl k w now := by
    unfold RateLimiter.validRequests
    apply List.filter_congr
    intro t _
    by_cases h : t ≤ now - w
    · simp [h]
    · simp [h, not_le.mp h]
  rw [hfilter]
  refine ⟨?_, ?_, ?_⟩
  · rw [RateLimiter.isAllowed_verdict]
    exact decide_eq_true_iff
  · intro hv
    rw [RateLimiter.recorded_isAllowed, if_pos ⟨hv, rfl⟩]
  · intro k' hk'
    rw [RateLimiter.recorded_isAllowed, if_neg (fun c => hk' c.2)]

/-- C5: a request whose presented API key (the `X-API-Key` header, or else the
`Authorization` header without `Bearer `) equals the configured key passes
`generalRateLimit`, `authRateLimit`, `uploadRateLimit` and `speedLimiter` in every limiter
state: each calls `next()`, sends no response (hence no 429), and leaves the limiter as it
was. -/
theorem valid_key_bypasses_rate_and_speed_limits (cfg : Config) (req : Request) (now : Int)
    (rl : RateLimiter) (hkey : apiKeyOf req = some cfg.WEBSITE_API_KEY) :
    generalRateLimit cfg req now rl = next rl
    ∧ authRateLimit cfg req now rl = next rl
    ∧ uploadRateLimit cfg req now rl = next rl
    ∧ speedLimiter cfg req now rl = next rl
    ∧ (next rl).response = none := by
  have h := (hasValidApiKey_iff cfg req).mpr hkey
  simp [generalRateLimit, authRateLimit, uploadRateLimit, speedLimiter,
    createRateLimitMiddleware, h, next]

/-- Witness of C5: the keyed request passes all four stages although its address has 100
timestamps in the window. -/
theorem valid_key_bypasses_rate_and_speed_limits_witness :
    generalRateLimit sampleConfig keyedRequest 1 busyLimiter = next busyLimiter
    ∧ authRateLimit sampleConfig keyedRequest 1 busyLimiter = next busyLimiter
    ∧ uploadRateLimit sampleConfig keyedRequest 1 busyLimiter = next busyLimiter
    ∧ speedLimiter sampleConfig keyedRequest 1 busyLimiter = next busyLimiter
    ∧ (next busyLimiter).response = none :=
  valid_key_bypasses_rate_and_speed_limits sampleConfig keyedRequest 1 busyLimiter
    (by decide)

/-- C6 as stated fails on the mounting order of index.js: an oversized request with a script
tag in its query is answered 413, not 400, and a request without API key whose address has
used up the general budget is answered 429, not 401. -/
theorem admission_order_counterexample :
    (validateRequest oversizedScriptRequest 0 RateLimiter.empty).response.map
        (fun r => r.status) = some 400
    ∧ (admission sampleConfig passThrough oversizedScriptRequest 0
        RateLimiter.empty).response.map (fun r => r.status) = some 413
    ∧ truthy (apiKeyOf keylessRequest) = false
    ∧ (validateApiKey sampleConfig keylessRequest 1 busyLimiter).response.map
        (fun r => r.status) = some 401
    ∧ (admission sampleConfig passThrough keylessRequest 1 busyLimiter).response.map
        (fun r => r.status) = some 429 := by
  decide

/-- C6 (amended): for every request, the chain mounted in index.js answers with the
rejection of the first failing check in the order: size limit (413), payload sanity (400,
run before the body is parsed), the third-party CORS and body-parsing middleware, general
rate limit (429), and, for paths under `/api`, API key (401 or 403) and origin (403); when
none of them rejects, the request continues.  In particular an oversized request is answered
413 whatever it carries, and a request refused by the general limiter is answered 429 once
the earlier checks pass, whether or not it has an API key. -/
theorem admission_answers_first_failing_check (cfg : Config)
    (thirdParty : Request → Option Response) (req : Request) (now : Int) (rl : RateLimiter) :
    (admission cfg thirdParty req now rl).response
      = firstRejection [
          (requestSizeLimit { req with body := JsValue.undefined } now rl).response,
          (validateRequest { req with body := JsValue.undefined } now rl).response,
          thirdParty req,
          (generalRateLimit cfg req now rl).response,
          (mount "/api" (validateApiKey cfg) req now rl).response,
          (mount "/api" (validateOrigin cfg) req now rl).response]
    ∧ (∀ r, (requestSizeLimit { req with body := JsValue.undefined } now rl).response = some r →
        r.status = 413 ∧ (admission cfg thirdParty req now rl).response = some r)
    ∧ (∀ r, (validateRequest { req with body := JsValue.undefined } now rl).response = some r →
        r.status = 400)
    ∧ (∀ r, (generalRateLimit cfg req now rl).response = some r →
        r.status = 429 ∧
        ((requestSizeLimit { req with body := JsValue.undefined } now rl).response = none →
         (validateRequest { req with body := JsValue.undefined } now rl).response = none →
         thirdParty req = none →
         (admission cfg thirdParty req now rl).response = some r))
    ∧ (∀ r, (mount "/api" (validateApiKey cfg) req now rl).response = some r →
        r.status = 401 ∨ r.status = 403)
    ∧ (∀ r, (mount "/api" (validateOrigin cfg) req now rl).response = some r →
        r.status = 403) := by
  have hmain := admission_response cfg thirdParty req now rl
  refine ⟨hmain, ?_, ?_, ?_, ?_, ?_⟩
  · intro r hr
    refine ⟨requestSizeLimit_status _ now rl r hr, ?_⟩
    rw [hmain, hr]
    rfl
  · intro r hr
    exact validateRequest_status _ now rl r hr
  · intro r hr
    refine ⟨generalRateLimit_status cfg req now rl r hr, ?_⟩
    intro h₁ h₂ h₃
    rw [hmain, h₁, h₂, h₃, hr]
    rfl
  · intro r hr
    unfold mount at hr
    split at hr
    · exact validateApiKey_status cfg req now rl r hr
    · simp [next] at hr
  · intro r hr
    unfold mount at hr
    split at hr
    · rcases (validateOrigin_cases cfg req now rl).1 with h | ⟨r', h, hs⟩
      · rw [h] at hr; simp at hr
      · rw [h] at hr
        simp only [Option.some.injEq] at hr
        rw [← hr]; exact hs
    · simp [next] at hr

/-- C7 as stated fails: in the server's chain each of six key-less requests to
`/api/auth/login` from 1.2.3.4, one second apart on an empty limiter, is answered 401 by
`validateApiKey`; none is admitted and none is answered 429. -/
theorem keyless_auth_requests_all_401 :
    (serveAll (admission sampleConfig passThrough)
        [(keylessRequest, 0), (keylessRequest, 1000), (keylessRequest, 2000),
         (keylessRequest, 3000), (keylessRequest, 4000), (keylessRequest, 5000)]
        RateLimiter.empty).map Outcome.summary
      = List.replicate 6 (some 401, [("unauthorized_access", 401)]) := by
  decide

/-- C7 (amended): starting from an empty limiter, for every source address, of six requests
from that address without an API key handled by `authRateLimit` (the limiter mounted on
`/api/auth`) at non-decreasing instants within 15 minutes, the first five continue and the
sixth is answered 429 with an event of kind `rate_limit_exceeded` handed to the recorder. -/
theorem authRateLimit_five_then_429 (cfg : Config) (addr : String)
    (first : Request × Int) (later : List (Request × Int))
    (haddr : ∀ p ∈ first :: later, p.1.ip = addr)
    (hnokey : ∀ p ∈ first :: later, truthy (apiKeyOf p.1) = false)
    (hlen : (first :: later).length = 6)
    (hmono : List.Pairwise (· ≤ ·) ((first :: later).map Prod.snd))
    (hwin : ∀ p ∈ first :: later, p.2 - first.2 < 15 * 60 * 1000) :
    (serveAll (authRateLimit cfg) (first :: later) RateLimiter.empty).map Outcome.summary
      = List.replicate 5 (none, []) ++ [(some 429, [("rate_limit_exceeded", 429)])] := by
  have hmw : ∀ p ∈ first :: later, ∀ now rl, authRateLimit cfg p.1 now rl
      = createRateLimit (15 * 60 * 1000) 5
          "Too many authentication attempts, please try again later." p.1 now rl := by
    intro p hp now rl
    have hinvalid : hasValidApiKey cfg p.1 = false := by
      simp [hasValidApiKey, hnokey p hp]
    simp [authRateLimit, createRateLimitMiddleware, hinvalid]
  rw [serveAll_congr _ _ _ _ hmw, serveAll_createRateLimit _ _ _ addr _ _ haddr]
  have hfirst : ∀ s ∈ (first :: later).map Prod.snd, first.2 ≤ s := by
    intro s hs
    rw [List.map_cons] at hs hmono
    rcases List.mem_cons.mp hs with h | h
    · exact le_of_eq h.symm
    · exact (List.pairwise_cons.mp hmono).1 s h
  have hempty : RateLimiter.recorded RateLimiter.empty addr = [] := rfl
  have h := RateLimiter.isAllowedSeq_verdicts addr (15 * 60 * 1000) 5
    ((first :: later).map Prod.snd) RateLimiter.empty (by
      intro s hs now hnow
      rw [hempty, List.nil_append] at hs
      have h₁ := hfirst s hs
      obtain ⟨p, hp, hpn⟩ := List.mem_map.mp hnow
      have h₂ := hwin p hp
      rw [hpn] at h₂
      omega)
  rw [hempty, List.length_map, hlen] at h
  have h5 : ((5 : Nat) : Int) = 5 := rfl
  rw [h5] at h
  rw [h]
  rfl

/-- Witness of C7 (amended): six key-less requests from 1.2.3.4, one minute apart. -/
theorem authRateLimit_five_then_429_witness :
    (serveAll (authRateLimit sampleConfig)
        [(keylessRequest, 0), (keylessRequest, 60000), (keylessRequest, 120000),
         (keylessRequest, 180000), (keylessRequest, 240000), (keylessRequest, 300000)]
        RateLimiter.empty).map Outcome.summary
      = List.replicate 5 (none, []) ++ [(some 429, [("rate_limit_exceeded", 429)])] :=
  authRateLimit_five_then_429 sampleConfig "1.2.3.4" (keylessRequest, 0)
    [(keylessRequest, 60000), (keylessRequest, 120000), (keylessRequest, 180000),
     (keylessRequest, 240000), (keylessRequest, 300000)]
    (by decide) (by decide) (by decide) (by decide) (by decide)

/-- C8 (counterexample): a request without `X-API-Key` whose `Authorization` header is not
a bearer token (`Basic dXNlcjpwYXNz`) presents neither of the two, and is answered 403 with
an `invalid_api_key` event, not 401; and the configured key alone in `Authorization`,
without `Bearer`, is let through. -/
theorem basic_authorization_is_answered_403 :
    JsMap.get basicAuthRequest.headers "x-api-key" = none
    ∧ JsMap.get basicAuthRequest.headers "authorization" = some "Basic dXNlcjpwYXNz"
    ∧ startsWith "Basic dXNlcjpwYXNz" "Bearer " = false
    ∧ (validateApiKey sampleConfig basicAuthRequest 0 RateLimiter.empty).summary
        = (some 403, [("invalid_api_key", 403)])
    ∧ JsMap.get bareKeyRequest.headers "x-api-key" = none
    ∧ JsMap.get bareKeyRequest.headers "authorization" = some "market-website-key-2024"
    ∧ startsWith "market-website-key-2024" "Bearer " = false
    ∧ validateApiKey sampleConfig bareKeyRequest 0 RateLimiter.empty
        = next RateLimiter.empty := by
  decide

/-- C8 (amended): `validateApiKey` takes as the presented key the header `X-API-Key` when
it is not empty, and otherwise the header `Authorization` with the first occurrence of
`Bearer ` removed, whatever the scheme of that header (a bearer token loses its prefix, a
value without `Bearer ` is taken whole).  It answers 401 and hands the recorder an
`unauthorized_access` event when this value is missing or empty; it answers 403 and hands
the recorder an `invalid_api_key` event when the value is not empty and differs from the
configured key; it calls `next()`, recording nothing, exactly when the value is the
configured key.  The limiter is never touched. -/
theorem validateApiKey_verdict_on_headers (cfg : Config) (req : Request) (now : Int)
    (rl : RateLimiter) :
    (truthy (JsMap.get req.headers "x-api-key") = false →
      JsMap.get req.headers "authorization" = none →
      (validateApiKey cfg req now rl).summary = (some 401, [("unauthorized_access", 401)]))
    ∧ (truthy (JsMap.get req.headers "x-api-key") = false →
      ∀ a : String, JsMap.get req.headers "authorization" = some a →
        (replace a "Bearer " "" = "" →
          (validateApiKey cfg req now rl).summary
            = (some 401, [("unauthorized_access", 401)]))
        ∧ (replace a "Bearer " "" ≠ "" → replace a "Bearer " "" ≠ cfg.WEBSITE_API_KEY →
          (validateApiKey cfg req now rl).summary = (some 403, [("invalid_api_key", 403)]))
        ∧ (replace a "Bearer " "" = cfg.WEBSITE_API_KEY →
          validateApiKey cfg req now rl = next rl))
    ∧ (∀ x : String, JsMap.get req.headers "x-api-key" = some x → x ≠ "" →
        (x ≠ cfg.WEBSITE_API_KEY →
          (validateApiKey cfg req now rl).summary = (some 403, [("invalid_api_key", 403)]))
        ∧ (x = cfg.WEBSITE_API_KEY → validateApiKey cfg req now rl = next rl))
    ∧ ((validateApiKey cfg req now rl).response = none
        ↔ (if truthy (JsMap.get req.headers "x-api-key") = true then
            JsMap.get req.headers "x-api-key"
          else (JsMap.get req.headers "authorization").map
            (fun a => replace a "Bearer " "")) = some cfg.WEBSITE_API_KEY)
    ∧ ((validateApiKey cfg req now rl).response = none →
        (validateApiKey cfg req now rl).logged = [])
    ∧ (validateApiKey cfg req now rl).limiter = rl
    ∧ (∀ k : String, replace ("Bearer " ++ k) "Bearer " "" = k)
    ∧ (∀ a : String, ¬ occursIn "Bearer " a → replace a "Bearer " "" = a) := by
  have hsum := validateApiKey_summary cfg req now rl
  refine ⟨?_, ?_, ?_, ?_, ?_, validateApiKey_limiter cfg req now rl, replace_bearer,
    replace_no_bearer⟩
  · intro hx ha
    apply hsum.1
    rw [apiKeyOf_headers, hx, ha]
    rfl
  · intro hx a ha
    have hkey : apiKeyOf req = some (replace a "Bearer " "") := by
      rw [apiKeyOf_headers, hx, ha]; rfl
    refine ⟨fun h => ?_, fun h₁ h₂ => ?_, fun h => ?_⟩
    · apply hsum.1
      rw [hkey, h]; rfl
    · apply hsum.2.1
      · rw [hkey]; exact (truthy_some _).mpr h₁
      · rw [hkey]; intro c; exact h₂ (Option.some.inj c)
    · apply hsum.2.2
      rw [hkey, h]
  · intro x hx hne
    have ht : truthy (JsMap.get req.headers "x-api-key") = true := by
      rw [hx]; exact (truthy_some _).mpr hne
    have hkey : apiKeyOf req = some x := by
      rw [apiKeyOf_headers, if_pos ht, hx]
    refine ⟨fun h => ?_, fun h => ?_⟩
    · apply hsum.2.1
      · rw [hkey]; exact (truthy_some _).mpr hne
      · rw [hkey]; intro c; exact h (Option.some.inj c)
    · apply hsum.2.2
      rw [hkey, h]
  · rw [← apiKeyOf_headers]
    constructor
    · exact validateApiKey_pass cfg req now rl
    · intro h; rw [validateApiKey_valid cfg req now rl h]; rfl
  · intro h
    rw [validateApiKey_valid cfg req now rl (validateApiKey_pass cfg req now rl h)]
    rfl

/-- Witness of C8 (amended): a bearer token other than the key is answered 403, the request
without either header 401, and the key in `X-API-Key` is let through. -/
theorem validateApiKey_verdict_on_headers_witness :
    (validateApiKey sampleConfig shortKeyRequest 0 RateLimiter.empty).summary
        = (some 403, [("invalid_api_key", 403)])
    ∧ (validateApiKey sampleConfig keylessRequest 0 RateLimiter.empty).summary
        = (some 401, [("unauthorized_access", 401)])
    ∧ validateApiKey sampleConfig keyedRequest 0 RateLimiter.empty = next RateLimiter.empty :=
  ⟨((validateApiKey_verdict_on_headers sampleConfig shortKeyRequest 0
      RateLimiter.empty).2.1 (by decide) "Bearer short" (by decide)).2.1
      (by decide) (by decide),
    (validateApiKey_verdict_on_headers sampleConfig keylessRequest 0
      RateLimiter.empty).1 (by decide) (by decide),
    ((validateApiKey_verdict_on_headers sampleConfig keyedRequest 0
      RateLimiter.empty).2.2.1 "market-website-key-2024" (by decide) (by decide)).2
      (by decide)⟩

/-- C9 as stated fails: the wrong key `short` has no more than ten characters, and the
`providedKey` handed to the recorder is `short...`, which contains the key in full. -/
theorem wrong_key_short_is_logged_in_full :
    apiKeyOf shortKeyRequest = some "short"
    ∧ "short" ≠ sampleConfig.WEBSITE_API_KEY
    ∧ (validateApiKey sampleConfig shortKeyRequest 0 RateLimiter.empty).logged
        = [{ securityType := "invalid_api_key"
             reason := "Invalid API key provided"
             statusCode := 403
             additionalData := [("providedKey", "short...")] }]
    ∧ occursIn "short" "short..." := by
  decide

/-- C9 (amended): for every request rejected by `validateApiKey` for a wrong key `k`, the
`providedKey` handed to the recorder is the first 10 characters of `k` followed by `...`;
when `k` is longer than 10 characters and has a character other than `.` after the tenth,
that value does not contain `k`, and when `k` is longer than 10 characters the sanitized
`x-api-key` and `authorization` headers do not contain `k` either (a non-empty value of
theirs is replaced by `[REDACTED]`). -/
theorem wrong_key_logged_truncated (cfg : Config) (req : Request) (now : Int)
    (rl : RateLimiter) (k : String)
    (hk : apiKeyOf req = some k) (hne : k ≠ "") (hwrong : k ≠ cfg.WEBSITE_API_KEY) :
    (validateApiKey cfg req now rl).logged.map (fun c => c.additionalData)
        = [[("providedKey", substring0 k 10 ++ "...")]]
    ∧ (substring0 k 10).data = k.data.take 10
    ∧ (10 < k.length → (∃ c ∈ k.data.drop 10, c ≠ '.') →
        ¬ occursIn k (substring0 k 10 ++ "..."))
    ∧ (10 < k.length → ∀ name v : String, name = "x-api-key" ∨ name = "authorization" →
        JsMap.get (sanitizeHeaders req.headers) name = some v → ¬ occursIn k v) := by
  have ht : truthy (apiKeyOf req) = true := by
    rw [hk]; exact (truthy_some _).mpr hne
  have hk' : apiKeyOf req ≠ some cfg.WEBSITE_API_KEY := by
    rw [hk]; intro h; exact hwrong (Option.some.inj h)
  refine ⟨?_, rfl, fun hlen hdot => not_occursIn_truncated k hlen hdot, ?_⟩
  · rw [validateApiKey_wrong cfg req now rl ht hk', hk]
    rfl
  · intro hlen name v hname hv hocc
    have hmem : name ∈ ["authorization", "cookie", "x-api-key", "x-auth-token"] := by
      rcases hname with h | h <;> simp [h]
    rw [get_sanitizeHeaders, if_pos hmem] at hv
    have hshort : v.length ≤ 10 := by
      cases hg : JsMap.get req.headers name with
      | none => rw [hg] at hv; simp at hv
      | some v₀ =>
        rw [hg] at hv
        simp only [Option.map_some', Option.some.injEq] at hv
        rw [← hv]
        unfold redactValue
        by_cases he : v₀ = ""
        · simp [he]
        · rw [if_pos he]; decide
    have hle : k.data.length ≤ v.data.length := List.IsInfix.length_le hocc
    have h₁ : k.data.length = k.length := rfl
    have h₂ : v.data.length = v.length := rfl
    omega

/-- Witness of C9 (amended): the wrong key `wrong-key-0123456789` of twenty characters is
handed over as `wrong-key-...`, and neither that value nor the marker contains the key. -/
theorem wrong_key_logged_truncated_witness :
    (validateApiKey sampleConfig longKeyRequest 0 RateLimiter.empty).logged.map
        (fun c => c.additionalData) = [[("providedKey", "wrong-key-...")]]
    ∧ ¬ occursIn "wrong-key-0123456789" "wrong-key-..."
    ∧ ¬ occursIn "wrong-key-0123456789" "[REDACTED]" :=
  have h := wrong_key_logged_truncated sampleConfig longKeyRequest 0 RateLimiter.empty
    "wrong-key-0123456789" (by decide) (by decide) (by decide)
  ⟨h.1, h.2.2.1 (by decide) ⟨'0', by decide, by decide⟩,
    h.2.2.2 (by decide) "x-api-key" "[REDACTED]" (Or.inl rfl) (by decide)⟩

/-- C10: `validateOrigin` reads the `Origin` header, or the `Referer` header when `Origin`
is absent (a header with an empty value counts as absent).  It calls `next()` iff that value
is present and starts with one of the configured allowed origins; otherwise it answers 403
and hands the recorder an `invalid_origin` event, whose reason ends with the offending
origin when one was supplied.  The limiter is never touched. -/
theorem validateOrigin_verdict (cfg : Config) (req : Request) (now : Int) (rl : RateLimiter) :
    (originOf req
        = if truthy (req.get "Origin") then req.get "Origin" else req.get "Referer")
    ∧ ((validateOrigin cfg req now rl).response = none
        ↔ ∃ o, originOf req = some o ∧ o ≠ ""
            ∧ ∃ a ∈ cfg.ALLOWED_ORIGINS, startsWith o a = true)
    ∧ ((validateOrigin cfg req now rl).response ≠ none →
        (validateOrigin cfg req now rl).response.map (fun r => r.status) = some 403
        ∧ (validateOrigin cfg req now rl).logged.map (fun c => (c.securityType, c.statusCode))
            = [("invalid_origin", 403)])
    ∧ (∀ o, originOf req = some o → o ≠ "" →
        (validateOrigin cfg req now rl).response ≠ none →
        (validateOrigin cfg req now rl).logged.map (fun c => c.reason)
            = ["Invalid origin: " ++ o]
        ∧ occursIn o ("Invalid origin: " ++ o))
    ∧ ((validateOrigin cfg req now rl).response = none →
        (validateOrigin cfg req now rl).logged = [])
    ∧ (validateOrigin cfg req now rl).limiter = rl := by
  refine ⟨rfl, ?_⟩
  by_cases ht : truthy (originOf req) = true
  · obtain ⟨o, ho, hne⟩ := (truthy_eq_true_iff _).mp ht
    cases hv : cfg.ALLOWED_ORIGINS.any
        (fun allowedOrigin => startsWith ((originOf req).getD "") allowedOrigin) with
    | true =>
      rw [validateOrigin_allowed cfg req now rl ht hv]
      have hex : ∃ a ∈ cfg.ALLOWED_ORIGINS, startsWith o a = true := by
        rw [ho] at hv
        simpa [List.any_eq_true] using hv
      refine ⟨⟨fun _ => ⟨o, ho, hne, hex⟩, fun _ => rfl⟩, fun h => absurd rfl h,
        fun _ _ _ h => absurd rfl h, fun _ => rfl, rfl⟩
    | false =>
      rw [validateOrigin_mismatch cfg req now rl ht hv]
      refine ⟨⟨fun h => by simp at h, ?_⟩, fun _ => ⟨rfl, rfl⟩, ?_, fun h => by simp at h,
        rfl⟩
      · rintro ⟨o', ho', _, a, ha, hsw⟩
        rw [ho'] at hv
        have : cfg.ALLOWED_ORIGINS.any (fun allowedOrigin => startsWith o' allowedOrigin)
            = true := List.any_eq_true.mpr ⟨a, ha, hsw⟩
        simp only [Option.getD_some] at hv
        rw [hv] at this
        exact absurd this (by decide)
      · intro o' ho' _ _
        rw [ho']
        exact ⟨rfl, occursIn_append_right _ _⟩
  · have hf : truthy (originOf req) = false := by simpa using ht
    rw [validateOrigin_missing cfg req now rl hf]
    refine ⟨⟨fun h => by simp at h, ?_⟩, fun _ => ⟨rfl, rfl⟩, ?_, fun h => by simp at h, rfl⟩
    · rintro ⟨o, ho, hne, _⟩
      exact absurd ((truthy_eq_true_iff _).mpr ⟨o, ho, hne⟩) ht
    · intro o ho hne _
      exact absurd ((truthy_eq_true_iff _).mpr ⟨o, ho, hne⟩) ht

/-- C11, evaluated at the failing input: a request with the configured key, an allowed
origin and the JSON body `{"q": "<script>alert(1)</script>"}`.  Given the parsed body,
`validateRequest` answers 400; in the chain of index.js it runs before the body parsers,
finds `req.body` undefined, and the request passes every check without any event. -/
theorem script_body_is_admitted_by_chain :
    (validateRequest scriptBodyRequest 0 RateLimiter.empty).summary
        = (some 400, [("suspicious_content", 400)])
    ∧ validateRequest { scriptBodyRequest with body := JsValue.undefined } 0 RateLimiter.empty
        = next RateLimiter.empty
    ∧ admission sampleConfig passThrough scriptBodyRequest 0 RateLimiter.empty
        = next RateLimiter.empty := by
  decide

/-- C12 as stated fails: 1.2.3.4 has 100 timestamps at the instant 0; a request refused ten
minutes into the window and one refused a second before its end both get `retryAfter` 900,
while 300 and 1 seconds remain of the window. -/
theorem retryAfter_same_early_and_late :
    (RateLimiter.validRequests busyLimiter "1.2.3.4" (15 * 60 * 1000) 600000).head? = some 0
    ∧ (generalRateLimit sampleConfig keylessRequest 600000 busyLimiter).response.map
        (fun r => (r.status, r.retryAfter)) = some (429, some 900)
    ∧ (generalRateLimit sampleConfig keylessRequest 899000 busyLimiter).response.map
        (fun r => (r.status, r.retryAfter)) = some (429, some 900)
    ∧ ((15 * 60 * 1000 : Int) - (600000 - 0)) / 1000 = 300
    ∧ ((15 * 60 * 1000 : Int) - (899000 - 0)) / 1000 = 1 := by
  decide

/-- C12 (amended): whenever a rate limiter rejects a request with 429, the `retryAfter`
value of the response is the length of the limiter's window in seconds,
`Math.round(windowMs / 1000)` (900 for the general and the auth limiter, 3600 for the upload
limiter), whatever the instant of the rejection and the timestamps recorded. -/
theorem retryAfter_is_window_length (cfg : Config) (w m : Int) (msg : String) (req : Request)
    (now : Int) (rl : RateLimiter)
    (hrej : (createRateLimitMiddleware cfg w m msg req now rl).response.map
        (fun r => r.status) = some 429) :
    (createRateLimitMiddleware cfg w m msg req now rl).response.map (fun r => r.retryAfter)
        = some (some (roundSeconds w))
    ∧ roundSeconds (15 * 60 * 1000) = 900
    ∧ roundSeconds (60 * 60 * 1000) = 3600 := by
  refine ⟨?_, by decide, by decide⟩
  cases hr : (createRateLimitMiddleware cfg w m msg req now rl).response with
  | none => rw [hr] at hrej; simp at hrej
  | some r =>
    have h := createRateLimit_retryAfter w m msg req now rl r
      (createRateLimitMiddleware_response cfg w m msg req now rl r hr)
    simp [h.2]

/-- Witness of C12 (amended): the refusal of the key-less request ten minutes into the
window of 1.2.3.4 carries `retryAfter` 900. -/
theorem retryAfter_is_window_length_witness :
    (generalRateLimit sampleConfig keylessRequest 600000 busyLimiter).response.map
        (fun r => r.retryAfter) = some (some 900) :=
  (retryAfter_is_window_length sampleConfig (15 * 60 * 1000) 100
    "Too many requests from this IP, please try again later." keylessRequest 600000
    busyLimiter (by decide)).1

/-- C13, evaluated at the failing input: 1.2.3.4 has 100 requests in the trailing 15
minutes, 50 beyond `delayAfter`, and sends a request without the API key; `speedLimiter`
hands it to `createSlowDown`, which calls `next()` at once: no delay is computed or
applied, where the claim gives min(20000, 500 x 50) = 20000 ms. -/
theorem speedLimiter_continues_at_once :
    (RateLimiter.validRequests busyLimiter "1.2.3.4" (15 * 60 * 1000) 1).length = 100
    ∧ hasValidApiKey sampleConfig keylessRequest = false
    ∧ speedLimiter sampleConfig keylessRequest 1 busyLimiter
        = createSlowDown (15 * 60 * 1000) 50 500 20000 keylessRequest 1 busyLimiter
    ∧ createSlowDown (15 * 60 * 1000) 50 500 20000 keylessRequest 1 busyLimiter
        = next busyLimiter
    ∧ min (20000 : Int) (500 * (100 - 50)) = 20000 := by
  decide

/-- C14 as stated fails: a password nested in an object and a field named `Password` keep
their value in the sanitized body, and headers named `token` and `key` keep their value in
the sanitized headers. -/
theorem nested_and_capitalised_fields_are_kept :
    jsonStringify (sanitizeRequestBody nestedPasswordBody)
      = "\x7b\"user\":\x7b\"password\":\"hunter2\"\x7d,\"Password\":\"hunter2\"\x7d"
    ∧ sanitizeHeaders [("token", "abc123"), ("key", "k-42")]
      = [("token", "abc123"), ("key", "k-42")] := by
  decide

/-- C14 (amended): in the sanitized copy of a request body that is an object, every
top-level field named exactly `password`, `token`, `secret`, `key`, `authorization` or
`cookie` whose value is truthy has the value `[REDACTED]` (a falsy value is kept), and in
the sanitized headers every header named `authorization`, `cookie`, `x-api-key` or
`x-auth-token` with a non-empty value has the value `[REDACTED]`.  Nothing else is
redacted: every other header keeps its value, and in a body whose redacted serialization
has at most 1000 characters every other top-level field keeps its value, whatever is nested
in it and whatever the letter case of its name. -/
theorem sanitizers_redact_top_level_names (fields : JsMap JsValue) (headers : JsMap String) :
    (∃ out, sanitizeRequestBody (JsValue.obj fields) = JsValue.obj out
      ∧ (∀ name : String,
          name ∈ ["password", "token", "secret", "key", "authorization", "cookie"] →
          JsMap.get out name = (JsMap.get fields name).map redactJs)
      ∧ (utf16Length (jsonStringify
            (JsValue.obj (sensitiveFields.foldl redactField fields))) ≤ 1000 →
          ∀ name : String,
            name ∉ ["password", "token", "secret", "key", "authorization", "cookie"] →
            JsMap.get out name = JsMap.get fields name))
    ∧ (∀ v : JsValue, redactJs v = if v.truthy then JsValue.str "[REDACTED]" else v)
    ∧ (∀ name : String,
        (name ∈ ["authorization", "cookie", "x-api-key", "x-auth-token"] →
          JsMap.get (sanitizeHeaders headers) name
            = (JsMap.get headers name).map redactValue)
        ∧ (name ∉ ["authorization", "cookie", "x-api-key", "x-auth-token"] →
          JsMap.get (sanitizeHeaders headers) name = JsMap.get headers name))
    ∧ (∀ v : String, redactValue v = if v ≠ "" then "[REDACTED]" else v) := by
  refine ⟨?_, fun _ => rfl, ?_, fun _ => rfl⟩
  · rw [sanitizeRequestBody_obj]
    split
    · rename_i hlarge
      refine ⟨_, rfl, fun name hmem => ?_, fun hsmall => absurd hlarge (by omega)⟩
      have h₁ : name ≠ "_truncated" := by rintro rfl; simp at hmem
      have h₂ : name ≠ "_originalSize" := by rintro rfl; simp at hmem
      rw [JsMap.get_set_other _ _ _ _ h₂, JsMap.get_set_other _ _ _ _ h₁,
        get_redacted_fields, if_pos (show name ∈ sensitiveFields from hmem)]
    · refine ⟨_, rfl, fun name hmem => ?_, fun _ name hmem => ?_⟩
      · rw [get_redacted_fields, if_pos (show name ∈ sensitiveFields from hmem)]
      · rw [get_redacted_fields, if_neg (show name ∉ sensitiveFields from hmem)]
  · intro name
    refine ⟨fun hmem => ?_, fun hmem => ?_⟩
    · rw [get_sanitizeHeaders, if_pos hmem]
    · rw [get_sanitizeHeaders, if_neg hmem]

set_option maxRecDepth 100000 in
/-- C15, evaluated at the failing input: a body with one field of 1000 characters.  The
first pass adds `_originalSize` 1011; the second pass measures the output of the first and
writes 1050, so sanitizing twice differs from sanitizing once. -/
theorem sanitizing_large_body_twice_differs :
    (JsMap.get (spread (sanitizeRequestBody largeBody)) "_originalSize").map jsonStringify
      = some "1011"
    ∧ (JsMap.get (spread (sanitizeRequestBody (sanitizeRequestBody largeBody)))
        "_originalSize").map jsonStringify = some "1050"
    ∧ sanitizeRequestBody (sanitizeRequestBody largeBody) ≠ sanitizeRequestBody largeBody :=
  ⟨by decide, by decide, fun h =>
    absurd
      (congrArg (fun v => (JsMap.get (spread v) "_originalSize").map jsonStringify) h)
      (by decide)⟩

set_option maxRecDepth 100000 in
/-- C16, evaluated at the failing input: the redacted serialization of the body has 1011
characters, more than 1000, and the result still holds the field `data` with its 1000
characters next to `_truncated` and `_originalSize`; its serialization has 1050
characters. -/
theorem large_body_keeps_its_fields :
    utf16Length (jsonStringify largeBody) = 1011
    ∧ (spread (sanitizeRequestBody largeBody)).map Prod.fst
        = ["data", "_truncated", "_originalSize"]
    ∧ (JsMap.get (spread (sanitizeRequestBody largeBody)) "data").map jsonStringify
        = (JsMap.get (spread largeBody) "data").map jsonStringify
    ∧ (JsMap.get (spread (sanitizeRequestBody largeBody)) "_truncated").map jsonStringify
        = some "true"
    ∧ utf16Length (jsonStringify (sanitizeRequestBody largeBody)) = 1050 := by
  decide

/-- C17: when the count query succeeds, `calculateRiskLevel(address, window)` depends only
on the number `c` of events of that address with timestamp in the trailing window: it is
`critical` for `c ≥ 50`, `high` for `20 ≤ c < 50`, `medium` for `10 ≤ c < 20` and `low` for
`c < 10`; the model's static method answers the same, and any two queries with the same
count get the same level. -/
theorem calculateRiskLevel_thresholds (env : Env) (db : List SecurityLog) (ipAddress : String)
    (timeWindow now : Int) (hok : env.countFails = false) :
    countDocuments db ipAddress (now - timeWindow)
        = (db.filter (fun doc => decide (doc.ipAddress = ipAddress)
            && decide (now - timeWindow ≤ doc.timestamp))).length
    ∧ (50 ≤ countDocuments db ipAddress (now - timeWindow) →
        calculateRiskLevel env db ipAddress timeWindow now = RiskLevel.critical)
    ∧ (20 ≤ countDocuments db ipAddress (now - timeWindow) →
        countDocuments db ipAddress (now - timeWindow) < 50 →
        calculateRiskLevel env db ipAddress timeWindow now = RiskLevel.high)
    ∧ (10 ≤ countDocuments db ipAddress (now - timeWindow) →
        countDocuments db ipAddress (now - timeWindow) < 20 →
        calculateRiskLevel env db ipAddress timeWindow now = RiskLevel.medium)
    ∧ (countDocuments db ipAddress (now - timeWindow) < 10 →
        calculateRiskLevel env db ipAddress timeWindow now = RiskLevel.low)
    ∧ SecurityLog.calculateRiskLevel env db ipAddress timeWindow now
        = some (calculateRiskLevel env db ipAddress timeWindow now)
    ∧ (∀ (env' : Env) (db' : List SecurityLog) (ipAddress' : String) (timeWindow' now' : Int),
        env'.countFails = false →
        countDocuments db' ipAddress' (now' - timeWindow')
          = countDocuments db ipAddress (now - timeWindow) →
        calculateRiskLevel env' db' ipAddress' timeWindow' now'
          = calculateRiskLevel env db ipAddress timeWindow now) := by
  have h := calculateRiskLevel_of_count env db ipAddress timeWindow now hok
  refine ⟨rfl, ?_, ?_, ?_, ?_, ?_, ?_⟩
  · intro h50
    rw [h, if_pos h50]
  · intro h20 h50
    rw [h, if_neg (by omega), if_pos h20]
  · intro h10 h20
    rw [h, if_neg (by omega), if_neg (by omega), if_pos h10]
  · intro h10
    rw [h, if_neg (by omega), if_neg (by omega), if_neg (by omega)]
  · simp only [SecurityLog.calculateRiskLevel, calculateRiskLevel, hok, Bool.false_eq_true,
      if_false]
    split_ifs <;> rfl
  · intro env' db' ipAddress' timeWindow' now' hok' hcount
    rw [h, calculateRiskLevel_of_count env' db' ipAddress' timeWindow' now' hok', hcount]

/-- Witness of C17: 1.2.3.4 has ten events in the trailing hour and is `medium`. -/
theorem calculateRiskLevel_thresholds_witness :
    calculateRiskLevel workingEnv mixedEvents "1.2.3.4" defaultTimeWindow 1000
      = RiskLevel.medium :=
  (calculateRiskLevel_thresholds workingEnv mixedEvents "1.2.3.4" defaultTimeWindow 1000
    rfl).2.2.2.1 (by decide) (by decide)

/-- C18: risk classification is monotonic in the event count: with the levels ordered
low < medium < high < critical, an address with more events in the window than another gets
a level at least as high, on the same store and at the same instant. -/
theorem calculateRiskLevel_monotone (env : Env) (db : List SecurityLog) (ipA ipB : String)
    (timeWindow now : Int)
    (hcount : countDocuments db ipB (now - timeWindow)
      < countDocuments db ipA (now - timeWindow)) :
    calculateRiskLevel env db ipB timeWindow now
      ≤ calculateRiskLevel env db ipA timeWindow now := by
  rw [RiskLevel.le_def]
  cases hf : env.countFails with
  | true => simp [calculateRiskLevel, hf]
  | false =>
    rw [calculateRiskLevel_of_count env db ipA timeWindow now hf,
      calculateRiskLevel_of_count env db ipB timeWindow now hf]
    split_ifs <;> simp only [RiskLevel.rank] <;> omega

/-- Witness of C18: 1.2.3.4 has ten events in the hour and is `medium`, 5.6.7.8 has two and
is `low`. -/
theorem calculateRiskLevel_monotone_witness :
    calculateRiskLevel workingEnv mixedEvents "5.6.7.8" defaultTimeWindow 1000
      ≤ calculateRiskLevel workingEnv mixedEvents "1.2.3.4" defaultTimeWindow 1000
    ∧ calculateRiskLevel workingEnv mixedEvents "5.6.7.8" defaultTimeWindow 1000
        = RiskLevel.low
    ∧ calculateRiskLevel workingEnv mixedEvents "1.2.3.4" defaultTimeWindow 1000
        = RiskLevel.medium :=
  ⟨calculateRiskLevel_monotone workingEnv mixedEvents "1.2.3.4" "5.6.7.8" defaultTimeWindow
    1000 (by decide), by decide, by decide⟩

/-- C19 as stated fails: with nine events of 1.2.3.4 in the hour, the tenth is stored as
`low`, the level of the nine events already stored, although the address classifies as
`medium` once the tenth is stored. -/
theorem tenth_event_is_stored_low :
    countDocuments nineEvents "1.2.3.4" (1000 - defaultTimeWindow) = 9
    ∧ (logSecurityEvent workingEnv nineEvents keylessRequest missingKeyCall 1000).getLast?.map
        (fun doc => doc.riskLevel) = some RiskLevel.low
    ∧ calculateRiskLevel workingEnv
        (logSecurityEvent workingEnv nineEvents keylessRequest missingKeyCall 1000)
        "1.2.3.4" defaultTimeWindow 1000 = RiskLevel.medium := by
  decide

/-- C19 (amended): for every event that `logSecurityEvent` stores (the count query and the
write succeeding), the stored `riskLevel` is the classification of the count `c` of events
the address already has in the trailing hour, the new event not being counted; the store
grows by exactly that event. -/
theorem stored_riskLevel_is_pre_insert (env : Env) (db : List SecurityLog) (req : Request)
    (call : LogCall) (now : Int) (hcount : env.countFails = false)
    (hsave : env.saveFails = false) (hrec : recordable req call = true) :
    (logSecurityEvent env db req call now).length = db.length + 1
    ∧ (logSecurityEvent env db req call now).getLast?.map (fun doc => doc.riskLevel)
        = some (
          if countDocuments db (ipAddressOf req) (now - 3600000) ≥ 50 then RiskLevel.critical
          else if countDocuments db (ipAddressOf req) (now - 3600000) ≥ 20 then RiskLevel.high
          else if countDocuments db (ipAddressOf req) (now - 3600000) ≥ 10 then
            RiskLevel.medium
          else RiskLevel.low) := by
  have hlevel := calculateRiskLevel_of_count env db (ipAddressOf req) defaultTimeWindow now
    hcount
  have hwindow : now - defaultTimeWindow = now - 3600000 := rfl
  rw [hwindow] at hlevel
  rw [logSecurityEvent_saved env db req call now hsave hrec]
  split
  · refine ⟨?_, ?_⟩
    · rw [checkAndBlockIP_length]; simp
    · rw [checkAndBlockIP_getLast_riskLevel, List.getLast?_append]
      simp [newSecurityLog, hlevel]
  · refine ⟨by simp, ?_⟩
    rw [List.getLast?_append]
    simp [newSecurityLog, hlevel]

/-- Witness of C19 (amended): the tenth event of 1.2.3.4 is stored as `low`. -/
theorem stored_riskLevel_is_pre_insert_witness :
    (logSecurityEvent workingEnv nineEvents keylessRequest missingKeyCall 1000).length
      = nineEvents.length + 1
    ∧ (logSecurityEvent workingEnv nineEvents keylessRequest missingKeyCall 1000).getLast?.map
        (fun doc => doc.riskLevel)
        = some (
          if countDocuments nineEvents (ipAddressOf keylessRequest) (1000 - 3600000) ≥ 50 then
            RiskLevel.critical
          else if countDocuments nineEvents (ipAddressOf keylessRequest) (1000 - 3600000) ≥ 20
            then RiskLevel.high
          else if countDocuments nineEvents (ipAddressOf keylessRequest) (1000 - 3600000) ≥ 10
            then RiskLevel.medium
          else RiskLevel.low) :=
  stored_riskLevel_is_pre_insert workingEnv nineEvents keylessRequest missingKeyCall 1000
    rfl rfl (by decide)

/-- C20: on a store that answers and holds no event of an address, after 20 recordable
violations of that address within one hour `calculateRiskLevel` for the address is `high`
(and none of the 20 events is blocked); recording the 21st within the same hour runs the
block step, after which the address has 21 events and every one of them has
`isBlocked = true`. -/
theorem twenty_violations_high_then_block (env : Env) (db₀ : List SecurityLog)
    (ipAddress : String) (start : Int) (first20 : List (Request × LogCall × Int))
    (last : Request × LogCall × Int)
    (hcount : env.countFails = false) (hsave : env.saveFails = false)
    (hupdate : env.updateFails = false)
    (hfresh : ∀ doc ∈ db₀, doc.ipAddress ≠ ipAddress)
    (hlen : first20.length = 20)
    (hcalls : ∀ c ∈ first20 ++ [last], recordable c.1 c.2.1 = true
      ∧ ipAddressOf c.1 = ipAddress ∧ start ≤ c.2.2 ∧ c.2.2 - start ≤ 3600000) :
    (∀ now, now - start ≤ 3600000 →
      calculateRiskLevel env (logAll env db₀ first20) ipAddress defaultTimeWindow now
        = RiskLevel.high)
    ∧ (∀ doc ∈ logAll env db₀ first20, doc.ipAddress = ipAddress → doc.isBlocked = false)
    ∧ (eventsOf (logAll env db₀ (first20 ++ [last])) ipAddress).length = 21
    ∧ (∀ doc ∈ logAll env db₀ (first20 ++ [last]), doc.ipAddress = ipAddress →
        doc.isBlocked = true) := by
  have hinv₀ : runInvariant db₀ ipAddress start 0 := by
    refine ⟨?_, fun doc hdoc hip => absurd hip (hfresh doc hdoc),
      fun doc hdoc hip => absurd hip (hfresh doc hdoc)⟩
    unfold eventsOf
    rw [List.length_eq_zero, List.filter_eq_nil_iff]
    intro doc hdoc
    simpa using hfresh doc hdoc
  have hinv := runInvariant_logAll env ipAddress start hcount hsave first20 db₀ 0
    (by omega)
    (fun c hc => by
      obtain ⟨h₁, h₂, h₃, _⟩ := hcalls c (List.mem_append_left _ hc)
      exact ⟨h₁, h₂, h₃⟩)
    hinv₀
  rw [hlen] at hinv
  obtain ⟨hcnt, hstart, hfree⟩ := hinv
  have hhigh : ∀ now, now - start ≤ 3600000 →
      calculateRiskLevel env (logAll env db₀ first20) ipAddress defaultTimeWindow now
        = RiskLevel.high := by
    intro now hnow
    have hall := countDocuments_eq_eventsOf (logAll env db₀ first20) ipAddress
      (now - defaultTimeWindow) (fun doc hdoc hip => by
        have := hstart doc hdoc hip
        have hw : defaultTimeWindow = 3600000 := rfl
        omega)
    rw [calculateRiskLevel_of_count env _ ipAddress defaultTimeWindow now hcount, hall, hcnt]
    simp
  obtain ⟨req, call, now⟩ := last
  obtain ⟨hrec, haddr, hnow₁, hnow₂⟩ := hcalls (req, call, now)
    (List.mem_append_right _ (List.mem_singleton_self _))
  simp only at hrec haddr hnow₁ hnow₂
  have hdb : logAll env db₀ (first20 ++ [(req, call, now)])
      = updateMany
          (logAll env db₀ first20 ++ [newSecurityLog env req call RiskLevel.high now])
          (recentFrom ipAddress (now - 3600000)) true now := by
    rw [logAll_append]
    simp only [logAll]
    rw [logSecurityEvent_saved env _ req call now hsave hrec, haddr, hhigh now hnow₂]
    simp [checkAndBlockIP, hupdate]
  refine ⟨hhigh, hfree, ?_, ?_⟩
  · rw [hdb]
    unfold eventsOf updateMany
    rw [List.filter_map, List.length_map]
    have hsame : (fun doc : SecurityLog => decide (doc.ipAddress = ipAddress)) ∘
        (fun doc => if recentFrom ipAddress (now - 3600000) doc = true
          then { doc with isBlocked := true, updatedAt := now } else doc)
        = fun doc => decide (doc.ipAddress = ipAddress) := by
      funext doc
      simp only [Function.comp]
      split <;> rfl
    rw [hsame, List.filter_append, List.length_append]
    unfold eventsOf at hcnt
    rw [hcnt]
    simp [newSecurityLog, haddr]
  · intro doc hdoc hip
    rw [hdb] at hdoc
    unfold updateMany at hdoc
    obtain ⟨doc₀, hdoc₀, hmap⟩ := List.mem_map.mp hdoc
    have hrecent : recentFrom ipAddress (now - 3600000) doc₀ = true := by
      have hip₀ : doc₀.ipAddress = ipAddress := by
        rw [← hmap] at hip
        split at hip <;> exact hip
      have hts : now - 3600000 ≤ doc₀.timestamp := by
        rcases List.mem_append.mp hdoc₀ with h | h
        · have := hstart doc₀ h hip₀
          omega
        · rw [List.mem_singleton] at h
          rw [h]
          simp only [newSecurityLog]
          omega
      simp [recentFrom, hip₀, hts]
    rw [← hmap, if_pos hrecent]

/-- Witness of C20: twenty violations of 1.2.3.4 at the instant 0 and a further one a second
later, on an empty store. -/
theorem twenty_violations_high_then_block_witness :
    calculateRiskLevel workingEnv
        (logAll workingEnv [] (List.replicate 20 (keylessRequest, missingKeyCall, 0)))
        "1.2.3.4" defaultTimeWindow 1000 = RiskLevel.high
    ∧ (eventsOf
        (logAll workingEnv []
          (List.replicate 20 (keylessRequest, missingKeyCall, 0)
            ++ [(keylessRequest, missingKeyCall, 1000)])) "1.2.3.4").length = 21
    ∧ (∀ doc ∈ logAll workingEnv []
          (List.replicate 20 (keylessRequest, missingKeyCall, 0)
            ++ [(keylessRequest, missingKeyCall, 1000)]),
        doc.ipAddress = "1.2.3.4" → doc.isBlocked = true) :=
  have h := twenty_violations_high_then_block workingEnv [] "1.2.3.4" 0
    (List.replicate 20 (keylessRequest, missingKeyCall, 0))
    (keylessRequest, missingKeyCall, 1000) rfl rfl rfl (by simp) (by decide) (by decide)
  ⟨h.1 1000 (by decide), h.2.2.1, h.2.2.2⟩

set_option maxRecDepth 100000 in
/-- C21 (counterexample): 1.2.3.4 has twenty events in the last hour, so the level computed
for its next violation is `high`.  When that violation is a `HEAD` request, or the store
refuses the write, nothing is stored and no block step runs: the twenty events stay
unblocked, whereas the block step would have marked all of them. -/
theorem high_level_without_block_step :
    calculateRiskLevel workingEnv twentyEvents (ipAddressOf headRequest) defaultTimeWindow 1000
      = RiskLevel.high
    ∧ (logSecurityEvent workingEnv twentyEvents headRequest missingKeyCall 1000).map
        (fun doc => doc.isBlocked) = List.replicate 20 false
    ∧ (logSecurityEvent saveFailingEnv twentyEvents keylessRequest missingKeyCall 1000).map
        (fun doc => doc.isBlocked) = List.replicate 20 false
    ∧ (checkAndBlockIP workingEnv twentyEvents (ipAddressOf headRequest) 1000).map
        (fun doc => doc.isBlocked) = List.replicate 20 true := by
  decide

/-- C21 (amended): `logSecurityEvent` runs the block step iff the event was stored and the
level it computed is high or critical.  When `save()` fails (the store refuses the write, or
the document does not pass the schema validation, which depends on the request and the call
only) the store is left as it was, whatever the level; when the event is stored, the store
afterwards is the store with the new event (of the address of the request, at the instant of
the call, with the computed level, not blocked), passed through `checkAndBlockIP` for `high`
and `critical` and untouched otherwise.  With a working bulk update, `checkAndBlockIP(a)` at
`now` puts `isBlocked = true` on every event of `a` whose timestamp is in the trailing hour
and leaves every other event, of another address or older, as it was; and running it twice
at the same instant gives the store that running it once gives. -/
theorem block_step_iff_stored_and_high_or_critical (env : Env) (db : List SecurityLog)
    (req : Request) (call : LogCall) (now : Int) :
    (∀ level : RiskLevel,
      (newSecurityLog env req call level now).validates = recordable req call)
    ∧ (env.saveFails = true ∨ recordable req call = false →
        logSecurityEvent env db req call now = db)
    ∧ (env.saveFails = false → recordable req call = true →
        ∃ doc : SecurityLog,
          doc.ipAddress = ipAddressOf req ∧ doc.timestamp = now ∧ doc.isBlocked = false
          ∧ doc.riskLevel = calculateRiskLevel env db (ipAddressOf req) defaultTimeWindow now
          ∧ ((doc.riskLevel = RiskLevel.critical ∨ doc.riskLevel = RiskLevel.high) →
              logSecurityEvent env db req call now
                = checkAndBlockIP env (db ++ [doc]) (ipAddressOf req) now)
          ∧ (¬ (doc.riskLevel = RiskLevel.critical ∨ doc.riskLevel = RiskLevel.high) →
              logSecurityEvent env db req call now = db ++ [doc]))
    ∧ (∀ (store : List SecurityLog) (a : String) (t : Int), env.updateFails = false →
        (∀ doc' ∈ checkAndBlockIP env store a t,
          doc'.ipAddress = a → t - 3600000 ≤ doc'.timestamp → doc'.isBlocked = true)
        ∧ List.Forall₂ (fun doc doc' =>
            (doc.ipAddress ≠ a ∨ doc.timestamp < t - 3600000 → doc' = doc)
            ∧ (doc.ipAddress = a ∧ t - 3600000 ≤ doc.timestamp →
                doc' = { doc with isBlocked := true, updatedAt := t }))
          store (checkAndBlockIP env store a t))
    ∧ (∀ (store : List SecurityLog) (a : String) (t : Int),
        checkAndBlockIP env (checkAndBlockIP env store a t) a t
          = checkAndBlockIP env store a t) := by
  refine ⟨fun level => validates_newSecurityLog env req call level now, ?_, ?_,
    fun store a t h => checkAndBlockIP_effect env store a t h,
    fun store a t => checkAndBlockIP_idempotent env store a t⟩
  · intro h
    rw [logSecurityEvent_cases, validates_newSecurityLog, if_pos h]
  · intro hsave hrec
    refine ⟨newSecurityLog env req call
      (calculateRiskLevel env db (ipAddressOf req) defaultTimeWindow now) now,
      rfl, rfl, rfl, rfl, ?_, ?_⟩
    · intro h
      have h' : calculateRiskLevel env db (ipAddressOf req) defaultTimeWindow now
            = RiskLevel.critical
          ∨ calculateRiskLevel env db (ipAddressOf req) defaultTimeWindow now
            = RiskLevel.high := h
      rw [logSecurityEvent_saved env db req call now hsave hrec, if_pos h']
    · intro h
      have h' : ¬ (calculateRiskLevel env db (ipAddressOf req) defaultTimeWindow now
            = RiskLevel.critical
          ∨ calculateRiskLevel env db (ipAddressOf req) defaultTimeWindow now
            = RiskLevel.high) := h
      rw [logSecurityEvent_saved env db req call now hsave hrec, if_neg h']

set_option maxRecDepth 100000 in
/-- Witness of C21 (amended): the twenty-first violation of 1.2.3.4 within the hour is
classified `high`, stored, and every event of the address is blocked; the first violation on
an empty store is classified `low` and stored unblocked; a `HEAD` request is not stored. -/
theorem block_step_iff_stored_and_high_or_critical_witness :
    (logSecurityEvent workingEnv twentyEvents keylessRequest missingKeyCall 1000).map
        (fun doc => doc.isBlocked) = List.replicate 21 true
    ∧ (logSecurityEvent workingEnv [] keylessRequest missingKeyCall 1000).map
        (fun doc => doc.isBlocked) = [false]
    ∧ logSecurityEvent workingEnv twentyEvents headRequest missingKeyCall 1000
        = twentyEvents :=
  ⟨by decide, by decide,
    (block_step_iff_stored_and_high_or_critical workingEnv twentyEvents headRequest
      missingKeyCall 1000).2.1 (Or.inr (by decide))⟩

/-- C22: for every event log, address `a` and instant, the administrator's unblock action
for `a` (with a store that accepts the update) is answered 200; afterwards every event of
`a`, whatever its timestamp, has `isBlocked = false`, every event of another address is as
it was, and a following administration query on `a` (`GET /ip/a`, for any number of days, at
any later instant) returns only events with `isBlocked = false`. -/
theorem admin_unblock_clears_every_event (env : Env) (db : List SecurityLog) (a : String)
    (body : JsValue) (now : Int) (haction : actionOf body = some (JsValue.str "unblock"))
    (hstore : env.updateFails = false) :
    (blockRoute env db "admin" a body now).1.status = 200
    ∧ (∀ doc' ∈ (blockRoute env db "admin" a body now).2,
        doc'.ipAddress = a → doc'.isBlocked = false)
    ∧ List.Forall₂ (fun doc doc' =>
          (doc.ipAddress ≠ a → doc' = doc)
          ∧ (doc.ipAddress = a → doc' = { doc with isBlocked := false, updatedAt := now }))
        db (blockRoute env db "admin" a body now).2
    ∧ ∀ days now' : Int,
        (ipAnalysisRoute (blockRoute env db "admin" a body now).2 "admin" a days now').1 = 200
        ∧ ∀ e ∈ (ipAnalysisRoute (blockRoute env db "admin" a body now).2 "admin" a days
            now').2, e.isBlocked = false := by
  rw [blockRoute_unblock env db a body now haction hstore]
  have hclear : ∀ doc' ∈ updateMany db (fun doc => decide (doc.ipAddress = a)) false now,
      doc'.ipAddress = a → doc'.isBlocked = false := by
    intro doc' hmem ha
    obtain ⟨doc, _, heq⟩ := mem_updateMany _ _ _ _ _ hmem
    by_cases hf : decide (doc.ipAddress = a) = true
    · rw [if_pos hf] at heq
      rw [heq]
    · rw [if_neg hf] at heq
      rw [heq] at ha
      exact absurd (decide_eq_true ha) hf
  refine ⟨rfl, hclear, ?_, ?_⟩
  · refine (updateMany_forall₂ db (fun doc => decide (doc.ipAddress = a)) false now).imp ?_
    intro doc doc' h
    exact ⟨fun hne => h.1 (decide_eq_false hne), fun heq => h.2 (decide_eq_true heq)⟩
  · intro days now'
    refine ⟨rfl, ?_⟩
    intro e he
    simp only [ipAnalysisRoute, ne_eq, not_true_eq_false, if_false] at he
    obtain ⟨doc, hdoc, ha, hb, _, _⟩ := mem_ipEvents _ _ _ _ _ he
    rw [hb]
    exact hclear doc hdoc ha

/-- Witness of C22: the ten blocked events of 1.2.3.4 are cleared, and the query on the
address returns ten events, none blocked. -/
theorem admin_unblock_clears_every_event_witness :
    actionOf unblockBody = some (JsValue.str "unblock")
    ∧ workingEnv.updateFails = false
    ∧ blockedEvents.map (fun doc => doc.isBlocked)
        = List.replicate 10 true ++ List.replicate 2 false
    ∧ ((ipAnalysisRoute (blockRoute workingEnv blockedEvents "admin" "1.2.3.4" unblockBody
          2000).2 "admin" "1.2.3.4" 7 3000).2).length = 10
    ∧ ∀ e ∈ (ipAnalysisRoute (blockRoute workingEnv blockedEvents "admin" "1.2.3.4"
          unblockBody 2000).2 "admin" "1.2.3.4" 7 3000).2, e.isBlocked = false :=
  ⟨rfl, rfl, by decide, by decide,
    ((admin_unblock_clears_every_event workingEnv blockedEvents "1.2.3.4" unblockBody 2000
      rfl rfl).2.2.2 7 3000).2⟩

/-- C23 (counterexample): the block action at the instant 1000 on twelve events recorded at
the instant 0 changes `updatedAt` of the ten events of 1.2.3.4 from 0 to 1000, a field other
than `isBlocked`. -/
theorem admin_block_changes_updatedAt :
    mixedEvents.map (fun doc => doc.updatedAt) = List.replicate 12 0
    ∧ (blockRoute workingEnv mixedEvents "admin" "1.2.3.4" blockBody 1000).2.map
        (fun doc => doc.updatedAt) = List.replicate 10 1000 ++ List.replicate 2 0
    ∧ (blockRoute workingEnv mixedEvents "admin" "1.2.3.4" blockBody 1000).2.map
        (fun doc => doc.isBlocked) = List.replicate 10 true ++ List.replicate 2 false := by
  decide

/-- C23 (amended): for every event log, address `a` and instant `now`, the administrator's
block action for `a` (with a store that accepts the update) is answered 200 and changes
exactly the events of `a` whose timestamp lies in the trailing 24 hours: on each of them it
sets `isBlocked = true` and `updatedAt = now` and no other field; events of other addresses
and events of `a` older than 24 hours are unchanged.  An action value other than `block` or
`unblock` is answered 400 and leaves the log as it was. -/
theorem admin_block_marks_trailing_day (env : Env) (db : List SecurityLog) (a : String)
    (body : JsValue) (now : Int) (haction : actionOf body = some (JsValue.str "block"))
    (hstore : env.updateFails = false) :
    (blockRoute env db "admin" a body now).1.status = 200
    ∧ List.Forall₂ (fun doc doc' =>
          (doc.ipAddress = a ∧ now - 86400000 ≤ doc.timestamp →
            doc' = { doc with isBlocked := true, updatedAt := now })
          ∧ (doc.ipAddress ≠ a ∨ doc.timestamp < now - 86400000 → doc' = doc))
        db (blockRoute env db "admin" a body now).2
    ∧ ∀ (other action : JsValue), actionOf other = some action →
        action.isString "block" = false → action.isString "unblock" = false →
        (blockRoute env db "admin" a other now).1.status = 400
        ∧ (blockRoute env db "admin" a other now).2 = db := by
  refine ⟨?_, ?_, ?_⟩
  · rw [blockRoute_block env db a body now haction hstore]
  · rw [blockRoute_block env db a body now haction hstore]
    refine (updateMany_forall₂ db (recentFrom a (now - 86400000)) true now).imp ?_
    intro doc doc' h
    constructor
    · intro hyes
      apply h.2
      simp [recentFrom, hyes.1, hyes.2]
    · intro hno
      apply h.1
      unfold recentFrom
      rcases hno with hno | hno
      · simp [hno]
      · simp only [Bool.and_eq_false_iff, decide_eq_false_iff_not, not_le, ge_iff_le]
        exact Or.inr hno
  · intro other action hother hblock hunblock
    rw [blockRoute_invalid env db a other now action hother hblock hunblock]
    exact ⟨rfl, rfl⟩

/-- Witness of C23 (amended): blocking 1.2.3.4 at the instant 1000 marks its ten events and
not the two of 5.6.7.8; the action `ban` is answered 400. -/
theorem admin_block_marks_trailing_day_witness :
    actionOf blockBody = some (JsValue.str "block")
    ∧ workingEnv.updateFails = false
    ∧ (blockRoute workingEnv mixedEvents "admin" "1.2.3.4" blockBody 1000).1.status = 200
    ∧ (blockRoute workingEnv mixedEvents "admin" "1.2.3.4"
        (JsValue.obj [("action", JsValue.str "ban")]) 1000).1.status = 400 :=
  ⟨rfl, rfl,
    (admin_block_marks_trailing_day workingEnv mixedEvents "1.2.3.4" blockBody 1000
      rfl rfl).1,
    ((admin_block_marks_trailing_day workingEnv mixedEvents "1.2.3.4" blockBody 1000
      rfl rfl).2.2 (JsValue.obj [("action", JsValue.str "ban")]) (JsValue.str "ban")
      rfl rfl rfl).1⟩

/-- C24: with the store operations modelled as operations that may throw, the recorder
`logSecurityEvent` returns normally for every request and every failure of the count, the
write (validation included) or the bulk update, and leaves the store that the total
function `logSecurityEvent` describes.  A middleware that awaits its recorder calls before
answering therefore gives the same answer under every store behaviour: `validateApiKey`
still answers 401 or 403, `validateOrigin` 403, `validateRequest` 400 and the rate limiter
429, and no exception reaches the caller. -/
theorem logging_failure_never_changes_verdict (env : Env) (db : List SecurityLog)
    (req : Request) (now : Int) (rl : RateLimiter) :
    (∀ call : LogCall, (logSecurityEventM env req call now).runOn db
        = (Except.ok (), logSecurityEvent env db req call now))
    ∧ (∀ mw : Middleware,
        ((serveM env mw req now rl).runOn db).1 = Except.ok (mw req now rl).response
        ∧ ∀ (env' : Env) (db' : List SecurityLog),
            ((serveM env mw req now rl).runOn db).1
              = ((serveM env' mw req now rl).runOn db').1)
    ∧ (∀ (cfg : Config) (r : Response),
        ((serveM env (validateApiKey cfg) req now rl).runOn db).1 = Except.ok (some r) →
        r.status = 401 ∨ r.status = 403)
    ∧ (∀ (cfg : Config) (r : Response),
        ((serveM env (validateOrigin cfg) req now rl).runOn db).1 = Except.ok (some r) →
        r.status = 403)
    ∧ (∀ r : Response,
        ((serveM env validateRequest req now rl).runOn db).1 = Except.ok (some r) →
        r.status = 400)
    ∧ (∀ (windowMs max : Int) (message : String) (r : Response),
        ((serveM env (createRateLimit windowMs max message) req now rl).runOn db).1
          = Except.ok (some r) →
        r.status = 429) := by
  refine ⟨fun call => logSecurityEventM_runOn env db req call now, ?_, ?_, ?_, ?_, ?_⟩
  · intro mw
    refine ⟨by rw [serveM_runOn], ?_⟩
    intro env' db'
    rw [serveM_runOn, serveM_runOn]
  · intro cfg r h
    rw [serveM_runOn] at h
    exact validateApiKey_status cfg req now rl r (Except.ok.inj h)
  · intro cfg r h
    rw [serveM_runOn] at h
    have h' := Except.ok.inj h
    rcases (validateOrigin_cases cfg req now rl).1 with h₂ | ⟨r', h₂, h₃⟩
    · rw [h₂] at h'; simp at h'
    · rw [h₂] at h'
      simp only [Option.some.injEq] at h'
      rw [← h']; exact h₃
  · intro r h
    rw [serveM_runOn] at h
    exact validateRequest_status req now rl r (Except.ok.inj h)
  · intro windowMs max message r h
    rw [serveM_runOn] at h
    exact (createRateLimit_retryAfter windowMs max message req now rl r (Except.ok.inj h)).1

/-- Witness of C24: with a store all of whose operations fail, a request without a key is
still answered 401 by `validateApiKey`, and nothing is stored. -/
theorem logging_failure_never_changes_verdict_witness :
    (validateApiKey sampleConfig keylessRequest 0 RateLimiter.empty).response.map
        (fun r => r.status) = some 401
    ∧ ((serveM failingEnv (validateApiKey sampleConfig) keylessRequest 0
        RateLimiter.empty).runOn []).1
        = Except.ok (validateApiKey sampleConfig keylessRequest 0 RateLimiter.empty).response
    ∧ ((serveM failingEnv (validateApiKey sampleConfig) keylessRequest 0
        RateLimiter.empty).runOn []).2.length = 0
    ∧ ((serveM workingEnv (validateApiKey sampleConfig) keylessRequest 0
        RateLimiter.empty).runOn []).2.length = 1 :=
  ⟨by decide,
    ((logging_failure_never_changes_verdict failingEnv [] keylessRequest 0
      RateLimiter.empty).2.1 (validateApiKey sampleConfig)).1,
    by decide, by decide⟩

/-- C25: for every limiter (a `Map`, so with distinct keys) and every instant `now`, after
`cleanup()` a key is mapped iff it had a timestamp newer than the 24-hour horizon
(`now - t < 24h`), and it is then mapped to exactly its timestamps newer than the horizon in
their previous order; hence no key is mapped to an empty list, and the keys stay
distinct. -/
theorem cleanup_keeps_recent_timestamps (rl : RateLimiter) (now : Int)
    (hwf : (JsMap.keys rl.requests).Nodup) :
    (∀ k, JsMap.has (RateLimiter.cleanup rl now).requests k = true
      ↔ ∃ l, JsMap.get rl.requests k = some l ∧ ∃ t ∈ l, now - t < 24 * 60 * 60 * 1000)
    ∧ (∀ k l', JsMap.get (RateLimiter.cleanup rl now).requests k = some l' →
        l' ≠ [] ∧ ∃ l, JsMap.get rl.requests k = some l
          ∧ l' = l.filter (fun t => decide (now - t < 24 * 60 * 60 * 1000)))
    ∧ (JsMap.keys (RateLimiter.cleanup rl now).requests).Nodup := by
  have hget := RateLimiter.get_cleanup rl now hwf
  refine ⟨fun k => ?_, fun k l' hl' => ?_, RateLimiter.nodup_cleanup rl now hwf⟩
  · unfold JsMap.has
    rw [hget k]
    cases h : JsMap.get rl.requests k with
    | none => simp [RateLimiter.cleaned]
    | some l =>
      by_cases he : RateLimiter.retained now l = []
      · simp only [RateLimiter.cleaned, he, if_true, Option.isSome_none, Bool.false_eq_true,
          Option.some.injEq, exists_eq_left', false_iff, not_exists, not_and, not_lt]
        intro t ht
        have hnot : t ∉ RateLimiter.retained now l := by rw [he]; simp
        unfold RateLimiter.retained at hnot
        simpa [ht] using hnot
      · simp only [RateLimiter.cleaned, he, if_false, Option.isSome_some, Option.some.injEq,
          exists_eq_left', true_iff]
        obtain ⟨t, ht⟩ := List.exists_mem_of_ne_nil _ he
        unfold RateLimiter.retained at ht
        rw [List.mem_filter] at ht
        exact ⟨t, ht.1, by simpa using ht.2⟩
  · rw [hget k] at hl'
    cases h : JsMap.get rl.requests k with
    | none => rw [h] at hl'; simp [RateLimiter.cleaned] at hl'
    | some l =>
      rw [h] at hl'
      by_cases he : RateLimiter.retained now l = []
      · simp [RateLimiter.cleaned, he] at hl'
      · simp only [RateLimiter.cleaned, he, if_false, Option.some.injEq] at hl'
        refine ⟨by rw [← hl']; exact he, l, rfl, ?_⟩
        rw [← hl']
        rfl

/-- Witness of C25: seen from the instant 90000000, `a` keeps its recent timestamp and `b`,
whose only timestamp is older than 24 hours, is deleted. -/
theorem cleanup_keeps_recent_timestamps_witness :
    RateLimiter.cleanup staleLimiter 90000000 = ⟨[("a", [89999000])]⟩
    ∧ (JsMap.keys (RateLimiter.cleanup staleLimiter 90000000).requests).Nodup :=
  ⟨by decide, (cleanup_keeps_recent_timestamps staleLimiter 90000000 (by decide)).2.2⟩

/-- C26: `requestSizeLimit` answers 413 iff the `Content-Length` (a decimal numeral)
exceeds 10 x 1024 x 1024 and otherwise continues, also when the length is exactly 10 MB or
the header is missing; 413 is its only answer, and it never calls the recorder nor touches
the limiter. -/
theorem requestSizeLimit_413_iff_over_ten_megabytes (req : Request) (now : Int)
    (rl : RateLimiter) :
    (∀ n : Nat, req.get "Content-Length" = some (toString n) →
        ((∃ r, (requestSizeLimit req now rl).response = some r ∧ r.status = 413)
            ↔ 10 * 1024 * 1024 < n)
        ∧ (n ≤ 10 * 1024 * 1024 → requestSizeLimit req now rl = next rl))
    ∧ (req.get "Content-Length" = none → requestSizeLimit req now rl = next rl)
    ∧ (requestSizeLimit req now rl).logged = []
    ∧ (requestSizeLimit req now rl).limiter = rl
    ∧ ∀ r, (requestSizeLimit req now rl).response = some r → r.status = 413 := by
  refine ⟨?_, requestSizeLimit_of_missing req now rl, requestSizeLimit_logged req now rl,
    requestSizeLimit_limiter req now rl, requestSizeLimit_status req now rl⟩
  intro n h
  rw [requestSizeLimit_of_length req now rl n h]
  by_cases hn : 10 * 1024 * 1024 < n
  · rw [if_pos hn]
    exact ⟨⟨fun _ => hn, fun _ => ⟨_, rfl, rfl⟩⟩, fun c => absurd hn (by omega)⟩
  · rw [if_neg hn]
    refine ⟨⟨?_, fun c => absurd c hn⟩, fun _ => rfl⟩
    rintro ⟨r, hr, _⟩
    simp [next] at hr

/-- Witness of C26: a declared length of 10485761 is answered 413; a length of exactly
10485760 and a request without the header continue. -/
theorem requestSizeLimit_413_iff_over_ten_megabytes_witness :
    (∃ r, (requestSizeLimit oversizedScriptRequest 0 RateLimiter.empty).response = some r
        ∧ r.status = 413)
    ∧ requestSizeLimit tenMegabyteRequest 0 RateLimiter.empty = next RateLimiter.empty
    ∧ requestSizeLimit keylessRequest 0 RateLimiter.empty = next RateLimiter.empty :=
  ⟨((requestSizeLimit_413_iff_over_ten_megabytes oversizedScriptRequest 0
      RateLimiter.empty).1 10485761 (by decide)).1.mpr (by decide),
   ((requestSizeLimit_413_iff_over_ten_megabytes tenMegabyteRequest 0
      RateLimiter.empty).1 10485760 (by decide)).2 (by decide),
   (requestSizeLimit_413_iff_over_ten_megabytes keylessRequest 0
      RateLimiter.empty).2.1 (by decide)⟩

/-- C27 (counterexample): after three admitted calls on `"k"` at 0, 1, 2 with window 1000
and limit 3, the call `isAllowed("k", 10, 1)` at 11 is rejected and leaves the list
`[0, 1, 2]`, none of whose timestamps is inside the window `(1, 11]`; and a call with window
0 is admitted and stores its own instant, which is not after `now - 0`. -/
theorem isAllowed_rejected_list_not_pruned :
    ((runOps RateLimiter.empty threeAdmitted).isAllowed "k" 10 1 11).1 = false
    ∧ ((runOps RateLimiter.empty threeAdmitted).isAllowed "k" 10 1 11).2.recorded "k"
        = [0, 1, 2]
    ∧ ¬ (∀ t ∈ ((runOps RateLimiter.empty threeAdmitted).isAllowed "k" 10 1 11).2.recorded "k",
          11 - 10 < t ∧ t ≤ 11)
    ∧ ¬ (∀ t ∈ (RateLimiter.empty.isAllowed "k" 0 1 5).2.recorded "k", 5 - 0 < t ∧ t ≤ 5) := by
  decide

/-- C27 (amended): in every state reached from the empty limiter by `isAllowed` and
`cleanup` calls at non-decreasing times, after a call `isAllowed(k, w, n)` at `now` the list
stored for `k` is in non-decreasing order and holds no timestamp after `now`; when the call
is admitted and `w > 0` every stored timestamp is inside the window `(now - w, now]`; when it
is rejected the stored list is the one from before the call, not pruned. -/
theorem isAllowed_list_ordered_and_pruned_on_admission (ops : List LimiterOp) (k : String)
    (w n now : Int) (hmono : (ops.map LimiterOp.time ++ [now]).Pairwise (· ≤ ·)) :
    (((runOps RateLimiter.empty ops).isAllowed k w n now).2.recorded k).Pairwise (· ≤ ·)
    ∧ (∀ t ∈ ((runOps RateLimiter.empty ops).isAllowed k w n now).2.recorded k, t ≤ now)
    ∧ (((runOps RateLimiter.empty ops).isAllowed k w n now).1 = true → 0 < w →
        ∀ t ∈ ((runOps RateLimiter.empty ops).isAllowed k w n now).2.recorded k,
          now - w < t ∧ t ≤ now)
    ∧ (((runOps RateLimiter.empty ops).isAllowed k w n now).1 = false →
        ((runOps RateLimiter.empty ops).isAllowed k w n now).2.recorded k
          = (runOps RateLimiter.empty ops).recorded k) := by
  have ho := ordered_runOps_empty ops now hmono
  have ho' := RateLimiter.ordered_isAllowed _ k w n now now (le_refl _) ho
  refine ⟨(ho'.2 k).1, (ho'.2 k).2, ?_, ?_⟩
  · intro hadm hw t ht
    refine ⟨?_, (ho'.2 k).2 t ht⟩
    rw [RateLimiter.recorded_isAllowed, if_pos ⟨hadm, rfl⟩] at ht
    rcases List.mem_append.mp ht with h | h
    · unfold RateLimiter.validRequests at h
      have := (List.mem_filter.mp h).2
      simpa using this
    · rw [List.mem_singleton] at h
      omega
  · intro hrej
    rw [RateLimiter.recorded_isAllowed, if_neg]
    intro c
    rw [hrej] at c
    exact Bool.false_ne_true c.1

/-- Witness of C27 (amended): a call, a sweep and two further calls on `"k"` with window
1000 and limit 3; the last call, at 1015, is admitted and stores `[20, 1015]`. -/
theorem isAllowed_list_ordered_and_pruned_on_admission_witness :
    (([LimiterOp.isAllowed "k" 1000 3 0, .cleanup 5, .isAllowed "k" 1000 3 20].map
        LimiterOp.time ++ [1015]).Pairwise (· ≤ ·))
    ∧ ((runOps RateLimiter.empty
          [.isAllowed "k" 1000 3 0, .cleanup 5, .isAllowed "k" 1000 3 20]).isAllowed
          "k" 1000 3 1015).1 = true
    ∧ ((runOps RateLimiter.empty
          [.isAllowed "k" 1000 3 0, .cleanup 5, .isAllowed "k" 1000 3 20]).isAllowed
          "k" 1000 3 1015).2.recorded "k" = [20, 1015]
    ∧ ∀ t ∈ ((runOps RateLimiter.empty
          [.isAllowed "k" 1000 3 0, .cleanup 5, .isAllowed "k" 1000 3 20]).isAllowed
          "k" 1000 3 1015).2.recorded "k", 1015 - 1000 < t ∧ t ≤ 1015 :=
  ⟨by decide, by decide, by decide,
    (isAllowed_list_ordered_and_pruned_on_admission
      [.isAllowed "k" 1000 3 0, .cleanup 5, .isAllowed "k" 1000 3 20] "k" 1000 3 1015
      (by decide)).2.2.1 (by decide) (by decide)⟩

/-- C28: for every key and limit `n`, in every state reached from the empty limiter by
`isAllowed` calls that all use the limit `n` on that key (with any windows, at any times, and
with any calls on other keys) interleaved with `cleanup` calls, the list stored for the key
holds at most `n` timestamps. -/
theorem fixed_limit_bounds_stored_list (key : String) (n : Nat) (ops : List LimiterOp)
    (hlimit : ∀ op ∈ ops, op.usesLimit key n = true) :
    ((runOps RateLimiter.empty ops).recorded key).length ≤ n :=
  (length_le_runOps key n ops RateLimiter.empty (ordered_empty 0).1
    (by simp [RateLimiter.recorded, RateLimiter.empty, JsMap.get]) hlimit).2

/-- Witness of C28: calls on two keys and two sweeps, the calls on `"k"` all with limit 2. -/
theorem fixed_limit_bounds_stored_list_witness :
    (∀ op ∈ limitTwoOps, op.usesLimit "k" (2 : Nat) = true)
    ∧ (runOps RateLimiter.empty limitTwoOps).recorded "k" = [90000000]
    ∧ ((runOps RateLimiter.empty limitTwoOps).recorded "k").length ≤ 2 :=
  ⟨by decide, by decide, fixed_limit_bounds_stored_list "k" 2 limitTwoOps (by decide)⟩

/-- C29: for every limiter (with distinct keys), key `k`, limit `n`, window `w` of at most
24 hours and instants `t₀ ≤ t₁`, `isAllowed(k, w, n)` at `t₁` returns the same verdict
whether or not `cleanup()` ran at `t₀` before, and when it admits, the list stored for `k`
afterwards is the same in both runs. -/
theorem cleanup_keeps_verdict (rl : RateLimiter) (k : String) (w n t₀ t₁ : Int)
    (hwf : (JsMap.keys rl.requests).Nodup) (hw : w ≤ 24 * 60 * 60 * 1000) (ht : t₀ ≤ t₁) :
    (RateLimiter.isAllowed (RateLimiter.cleanup rl t₀) k w n t₁).1
        = (RateLimiter.isAllowed rl k w n t₁).1
    ∧ ((RateLimiter.isAllowed rl k w n t₁).1 = true →
        RateLimiter.recorded (RateLimiter.isAllowed (RateLimiter.cleanup rl t₀) k w n t₁).2 k
          = RateLimiter.recorded (RateLimiter.isAllowed rl k w n t₁).2 k) := by
  have hvalid := RateLimiter.validRequests_cleanup rl k w t₀ t₁ hwf hw ht
  have hverdict : (RateLimiter.isAllowed (RateLimiter.cleanup rl t₀) k w n t₁).1
      = (RateLimiter.isAllowed rl k w n t₁).1 := by
    rw [RateLimiter.isAllowed_verdict, RateLimiter.isAllowed_verdict, hvalid]
  refine ⟨hverdict, fun hok => ?_⟩
  rw [RateLimiter.recorded_isAllowed, RateLimiter.recorded_isAllowed, hverdict, hvalid,
    if_pos ⟨hok, rfl⟩, if_pos ⟨hok, rfl⟩]

/-- Witness of C29: the key `a` of the stale limiter, window one hour and limit 2, with a
sweep at 90000000 and the call at 90000500. -/
theorem cleanup_keeps_verdict_witness :
    (RateLimiter.isAllowed (RateLimiter.cleanup staleLimiter 90000000) "a" 3600000 2
        90000500).1 = (RateLimiter.isAllowed staleLimiter "a" 3600000 2 90000500).1
    ∧ ((RateLimiter.isAllowed staleLimiter "a" 3600000 2 90000500).1 = true →
        RateLimiter.recorded
            (RateLimiter.isAllowed (RateLimiter.cleanup staleLimiter 90000000) "a" 3600000 2
              90000500).2 "a"
          = RateLimiter.recorded
            (RateLimiter.isAllowed staleLimiter "a" 3600000 2 90000500).2 "a") :=
  cleanup_keeps_verdict staleLimiter "a" 3600000 2 90000000 90000500
    (by decide) (by decide) (by decide)

/-- C30: the chain of index.js is the checks up to `validateOrigin` followed by
`authRateLimit` under `/api/auth` and `uploadRateLimit` under `/api/upload`.  For a request
under `/api/auth` or `/api/upload` and every limiter state, these two are reached only when
the request carries the configured key; they then skip the counter in every limiter state
(no answer, no timestamp, no event), so the chain does what the earlier checks alone do, and
a 429 answer of the chain is the answer of the general limiter (or of the third-party
middleware standing for cors and the body parsers). -/
theorem class_limiters_never_reject_in_chain (cfg : Config)
    (thirdParty : Request → Option Response) (req : Request) (now : Int) (rl : RateLimiter)
    (hpath : mountedAt "/api/auth" req.path = true ∨ mountedAt "/api/upload" req.path = true) :
    admission cfg thirdParty
      = runChain (beforeClassLimiters cfg thirdParty
          ++ [mount "/api/auth" (authRateLimit cfg), mount "/api/upload" (uploadRateLimit cfg)])
    ∧ ((runChain (beforeClassLimiters cfg thirdParty) req now rl).response = none →
        apiKeyOf req = some cfg.WEBSITE_API_KEY
        ∧ ∀ rl', mount "/api/auth" (authRateLimit cfg) req now rl' = next rl'
            ∧ mount "/api/upload" (uploadRateLimit cfg) req now rl' = next rl')
    ∧ admission cfg thirdParty req now rl
        = runChain (beforeClassLimiters cfg thirdParty) req now rl
    ∧ ∀ r, (admission cfg thirdParty req now rl).response = some r → r.status = 429 →
        (generalRateLimit cfg req now rl).response = some r ∨ thirdParty req = some r := by
  refine ⟨rfl, ?_, admission_eq_beforeClassLimiters cfg thirdParty req now rl,
    fun r => admission_429_source cfg thirdParty req now rl r⟩
  intro hreach
  have hpass := reached_class_limiters cfg thirdParty req now rl hreach
  refine ⟨?_, fun rl' => class_limiters_skip cfg req now rl rl' hpass⟩
  unfold mount at hpass
  rw [if_pos (mountedAt_api_of_sub _ hpath)] at hpass
  exact validateApiKey_pass cfg req now rl hpass

/-- Witness of C30: a request under `/api/auth` with the configured key, from an address
that has used up the general limit, passes the whole chain. -/
theorem class_limiters_never_reject_in_chain_witness :
    (mountedAt "/api/auth" keyedRequest.path = true
      ∨ mountedAt "/api/upload" keyedRequest.path = true)
    ∧ (runChain (beforeClassLimiters sampleConfig passThrough) keyedRequest 1
        busyLimiter).response = none
    ∧ mount "/api/auth" (authRateLimit sampleConfig) keyedRequest 1 busyLimiter
        = next busyLimiter
    ∧ admission sampleConfig passThrough keyedRequest 1 busyLimiter = next busyLimiter :=
  ⟨by decide, by decide,
    (((class_limiters_never_reject_in_chain sampleConfig passThrough keyedRequest 1
      busyLimiter (by decide)).2.1 (by decide)).2 busyLimiter).1,
    by decide⟩

-- END OF CLAIMS

end Market
